import Mathlib

/-!
# Ninjago: entities and the host simulation tick

A shallow embedding of the parts of the repository that the specification's
testable properties talk about, followed by the theorems that settle them.

* `game/entities`: terrain, bombs, explosions, boxes, effect pickups, status
  effects, players, and the monsters' `directionTowardsTarget`;
* `game/multiplayer/proto.go`: the world snapshot;
* `scenes/multiplayerHost.go`: the host's input, the players loop, explosion
  propagation, the bomb loop, the explosion loop and the round-end check of
  `MultiPlayerGameSceneHost.Update`; the answers of the collision space are inputs.

Conventions of the embedding.

* Go `int` is `Int`; none of the counters modelled here gets near 2^63.
* A `float64` coordinate of a bomb, explosion, box, effect pickup or terrain tile
  is always built by the program as `float64(n*16)` from an `int`, so these
  coordinates are `Int`; `math.Floor(X/16)` is then `X / 16` (floor division).
  Coordinates and speeds of players and monsters, and the coordinates carried by
  the snapshot, are `ℚ`; `directionTowardsTarget` is also given on `float64`
  values, with its subtractions rounding (`Float64`).
* A Go run-time panic (index out of range) is `none`.
* Sprites, animations and the collision space are rendering and library state
  and are left out; `entity.Update` only advances an animation frame.
* A pointer to a `Player` or to a `Bomb` is a `Nat` address.
-/

namespace Ninjago

/-! ## game/entities/terrain.go -/

/-- The `terrain` struct: collider position plus the two flags. -/
structure Terrain where
  X : Int
  Y : Int
  solid : Bool
  destroyable : Bool
deriving DecidableEq, Repr

/-- `terrain.IsSolid`. -/
def Terrain.IsSolid (t : Terrain) : Bool := t.solid

/-- `terrain.IsDestroyable`. -/
def Terrain.IsDestroyable (t : Terrain) : Bool := t.destroyable

/-- `NewWall`: solid, not destroyable. -/
def NewWall (x y : Int) : Terrain := { X := x, Y := y, solid := true, destroyable := false }

/-- `NewGrass`: neither solid nor destroyable. -/
def NewGrass (x y : Int) : Terrain := { X := x, Y := y, solid := false, destroyable := false }

/-- `NewDestroyAbleSolid`: solid and destroyable. -/
def NewDestroyAbleSolid (x y : Int) : Terrain :=
  { X := x, Y := y, solid := true, destroyable := true }

/-! ## game/entities/bomb.go -/

/-- The `Bomb` struct. `addr` is the address of the bomb itself (the identity under
which `Player.manualDetonateBombs` refers to it), `Owner` the address of the owning
`Player`. -/
structure Bomb where
  addr : Nat
  X : Int
  Y : Int
  Owner : Nat
  ExplosionRange : Int
  time : Int
  manualDetonate : Bool
deriving DecidableEq, Repr

/-- `NewBomb`: fuse 180, not manual-detonate. -/
def NewBomb (addr : Nat) (Owner : Nat) (ExplosionRange : Int)
    (start_pos_x start_pos_y : Int) : Bomb :=
  { addr := addr, X := start_pos_x, Y := start_pos_y, Owner := Owner, ExplosionRange := ExplosionRange,
    time := 180, manualDetonate := false }

/-- `Bomb.Update`: the bomb after the call and the returned flag. -/
def Bomb.Update (b : Bomb) : Bomb × Bool :=
  if !b.manualDetonate then
    let b1 := { b with time := b.time - 1 }
    (b1, decide (b1.time ≤ 0))
  else
    (b, false)

/-- `Bomb.Detonate`. -/
def Bomb.Detonate (b : Bomb) : Bomb := { b with time := 0, manualDetonate := false }

/-- `entity.TilePosition` of a bomb. -/
def Bomb.TilePosition (b : Bomb) : Int × Int := (b.X / 16, b.Y / 16)

/-- The flags returned by `n` successive calls of `Bomb.Update` on the same bomb,
in call order. -/
def Bomb.updateResults : Nat → Bomb → List Bool
  | 0, _ => []
  | n + 1, b => (b.Update).2 :: Bomb.updateResults n (b.Update).1

/-- The bomb after `n` successive calls of `Bomb.Update`. -/
def Bomb.afterUpdates : Nat → Bomb → Bomb
  | 0, b => b
  | n + 1, b => Bomb.afterUpdates n (b.Update).1

/-! ## game/entities/explosion.go -/

/-- The `Explosion` struct. -/
structure Explosion where
  X : Int
  Y : Int
  time : Int
deriving DecidableEq, Repr

/-- `NewExplosion`: lifetime 90. -/
def NewExplosion (start_pos_x start_pos_y : Int) : Explosion :=
  { X := start_pos_x, Y := start_pos_y, time := 90 }

/-- `Explosion.Update`: the explosion after the call and the returned flag. -/
def Explosion.Update (e : Explosion) : Explosion × Bool :=
  let e1 := { e with time := e.time - 1 }
  (e1, decide (e1.time = 0))

/-- `entity.TilePosition` of an explosion. -/
def Explosion.TilePosition (e : Explosion) : Int × Int := (e.X / 16, e.Y / 16)

/-! ## game/entities/statusEffects.go -/

/-- The implementations of the `StatusEffect` interface, one constructor per Go
type, each carrying the fields of its struct (`name` is fixed by the Go
constructor and is returned by `GetName`). -/
inductive StatusEffect where
  | skullDeb (duration : Int) (debuffType : Int)
  | skate (duration : Int)
  | radiusInc (duration : Int)
  | bombInc (duration : Int)
  | rollerInc (duration : Int)
  | obstacleInc (duration : Int) (applied : Bool)
  | detonatorInc (duration : Int)
  | ghostInc (duration : Int)
  | invincibilityInc (duration : Int)
deriving DecidableEq, Repr

/-- `statusEffect.GetName`. -/
def StatusEffect.GetName : StatusEffect → String
  | .skullDeb _ _ => "SkullDebuff"
  | .skate _ => "Skate"
  | .radiusInc _ => "RadiusIncrease"
  | .bombInc _ => "BombCountIncrease"
  | .rollerInc _ => "RollerIncrease"
  | .obstacleInc _ _ => "ObstacleIncrease"
  | .detonatorInc _ => "DetonatorIncrease"
  | .ghostInc _ => "GhostIncrease"
  | .invincibilityInc _ => "InvincibilityIncrease"

/-- `NewSkullDeb`; `randIntn4` is the value drawn by `rand.Intn(4)`. -/
def NewSkullDeb (randIntn4 : Int) : StatusEffect := .skullDeb 1800 (randIntn4 + 1)

/-- `NewSkate`. -/
def NewSkate : StatusEffect := .skate 60

/-- `NewRadiusInc`. -/
def NewRadiusInc : StatusEffect := .radiusInc 1800

/-- `NewBombInc`. -/
def NewBombInc : StatusEffect := .bombInc 1800

/-- `NewRollerInc`. -/
def NewRollerInc : StatusEffect := .rollerInc 1800

/-- `NewObstacleInc`. -/
def NewObstacleInc : StatusEffect := .obstacleInc 1800 false

/-- `NewDetonatorInc`. -/
def NewDetonatorInc : StatusEffect := .detonatorInc 1800

/-- `NewGhostInc`. -/
def NewGhostInc : StatusEffect := .ghostInc 1800

/-- `NewInvincibilityInc`. -/
def NewInvincibilityInc : StatusEffect := .invincibilityInc 1800

/-! ## game/entities/box.go, game/entities/effect.go -/

/-- The `Box` struct. -/
structure Box where
  X : Int
  Y : Int
  IsBlank : Bool
deriving DecidableEq, Repr

/-- `NewBox`. -/
def NewBox (start_pos_x start_pos_y : Int) (isBlank : Bool) : Box :=
  { X := start_pos_x, Y := start_pos_y, IsBlank := isBlank }

/-- `entity.TilePosition` of a box. -/
def Box.TilePosition (b : Box) : Int × Int := (b.X / 16, b.Y / 16)

/-- The `Effect` struct: a pickup lying on the map. `Effect{}` has a nil
`StatusEffect`. -/
structure Effect where
  X : Int
  Y : Int
  StatusEffect : Option StatusEffect
deriving DecidableEq, Repr

/-- The global `math/rand` source: the stream of raw draws and how many have been
consumed. -/
structure Rand where
  stream : Nat → Nat
  calls : Nat

/-- `rand.Intn(n)`: the next draw reduced to `[0, n)`, and the advanced source. -/
def Rand.Intn (r : Rand) (n : Nat) : Nat × Rand :=
  (r.stream r.calls % n, { r with calls := r.calls + 1 })

/-- `Box.DropRandomStatusEffect`: two draws, a 40% chance of a pickup at the box's
position; `NewSkullDebuff` makes a third draw for the debuff type. -/
def Box.DropRandomStatusEffect (b : Box) (r : Rand) : Effect × Rand :=
  let (randomEffect0, r) := r.Intn 8
  let randomEffect := randomEffect0 + 1
  let (randomNumber0, r) := r.Intn 100
  let randomNumber := randomNumber0 + 1
  if randomNumber ≤ 40 then
    match randomEffect with
    | 1 => ({ X := b.X, Y := b.Y, StatusEffect := some NewObstacleInc }, r)
    | 2 =>
      let (t, r) := r.Intn 4
      ({ X := b.X, Y := b.Y, StatusEffect := some (NewSkullDeb t) }, r)
    | 3 => ({ X := b.X, Y := b.Y, StatusEffect := some NewRollerInc }, r)
    | 4 => ({ X := b.X, Y := b.Y, StatusEffect := some NewRadiusInc }, r)
    | 5 => ({ X := b.X, Y := b.Y, StatusEffect := some NewGhostInc }, r)
    | 6 => ({ X := b.X, Y := b.Y, StatusEffect := some NewDetonatorInc }, r)
    | 7 => ({ X := b.X, Y := b.Y, StatusEffect := some NewBombInc }, r)
    | 8 => ({ X := b.X, Y := b.Y, StatusEffect := some NewInvincibilityInc }, r)
    | _ => ({ X := 0, Y := 0, StatusEffect := none }, r)
  else
    ({ X := 0, Y := 0, StatusEffect := none }, r)

/-! ## game/entities/player.go -/

/-- The `PlayerControls` struct. -/
structure PlayerControls where
  Up : Bool
  Down : Bool
  Left : Bool
  Right : Bool
  Ability1 : Bool
  Ability2 : Bool
deriving DecidableEq, Repr

/-- The `Player` struct. `manualDetonateBombs` holds the addresses of the bombs it
points to. -/
structure Player where
  X : ℚ
  Y : ℚ
  speed : ℚ
  currentAnimation : String
  Control : PlayerControls
  State : Option StatusEffect
  BombRange : Int
  NumberOfBombs : Int
  NumberOfObstacles : Int
  canPlaceBomb : Bool
  autoPlaceBomb : Bool
  manualDetonateBombs : List Nat

/-- `NewPlayer`. -/
def NewPlayer (x y : ℚ) : Player :=
  { X := x, Y := y, speed := 0.6, currentAnimation := "walkDown",
    Control := ⟨false, false, false, false, false, false⟩,
    State := none, BombRange := 2, NumberOfBombs := 1, NumberOfObstacles := 0,
    canPlaceBomb := true, autoPlaceBomb := false, manualDetonateBombs := [] }

/-- `entity.TilePosition` of a player. -/
def Player.TilePosition (p : Player) : Int × Int := (⌊p.X / 16⌋, ⌊p.Y / 16⌋)

/-- `skullDeb.Update`, `skate.Update`, ... : the effect after the call, the player
after the call, and the returned flag. -/
def StatusEffect.Update (e : StatusEffect) (p : Player) : StatusEffect × Player × Bool :=
  match e with
  | .skullDeb duration debuffType =>
    let duration := duration - 1
    if duration ≤ 0 then
      let p :=
        if debuffType = 1 then { p with speed := 0.6 }
        else if debuffType = 2 then { p with BombRange := 2 }
        else if debuffType = 3 then { p with canPlaceBomb := true }
        else if debuffType = 4 then { p with autoPlaceBomb := false }
        else p
      (.skullDeb duration debuffType, p, true)
    else
      let p :=
        if debuffType = 1 then { p with speed := 0.3 }
        else if debuffType = 2 then { p with BombRange := 1 }
        else if debuffType = 3 then { p with canPlaceBomb := false }
        else if debuffType = 4 then { p with autoPlaceBomb := true }
        else p
      (.skullDeb duration debuffType, p, false)
  | .skate duration =>
    let duration := duration - 1
    let p := if duration ≤ 0 then { p with speed := 0.6 } else { p with speed := 1 }
    (.skate duration, p, decide (duration ≤ 0))
  | .radiusInc duration =>
    let duration := duration - 1
    let p := if duration ≤ 0 then { p with BombRange := 2 } else { p with BombRange := 5 }
    (.radiusInc duration, p, decide (duration ≤ 0))
  | .bombInc duration =>
    let duration := duration - 1
    let p := if duration = 1799 then { p with NumberOfBombs := p.NumberOfBombs + 1 } else p
    (.bombInc duration, p, decide (duration ≤ 0))
  | .rollerInc duration =>
    let duration := duration - 1
    let p := if duration ≤ 0 then { p with speed := 0.6 } else { p with speed := 1.2 }
    (.rollerInc duration, p, decide (duration ≤ 0))
  | .obstacleInc duration applied =>
    let duration := duration - 1
    if duration ≤ 0 then
      (.obstacleInc duration applied, p, true)
    else if !applied then
      (.obstacleInc duration true, { p with NumberOfObstacles := p.NumberOfObstacles + 3 }, false)
    else
      (.obstacleInc duration applied, p, false)
  | .detonatorInc duration => (.detonatorInc (duration - 1), p, decide (duration - 1 ≤ 0))
  | .ghostInc duration => (.ghostInc (duration - 1), p, decide (duration - 1 ≤ 0))
  | .invincibilityInc duration =>
    (.invincibilityInc (duration - 1), p, decide (duration - 1 ≤ 0))

/-- The effect, the player and the flag of the last call after `n` successive calls
of the effect's `Update` on the same player (`false` before any call). -/
def StatusEffect.calls (e : StatusEffect) (p : Player) : Nat → StatusEffect × Player × Bool
  | 0 => (e, p, false)
  | n + 1 =>
    let s := StatusEffect.calls e p n
    s.1.Update s.2.1

/-- The `duration` field of a status effect. -/
def StatusEffect.duration : StatusEffect → Int
  | .skullDeb d _ => d
  | .skate d => d
  | .radiusInc d => d
  | .bombInc d => d
  | .rollerInc d => d
  | .obstacleInc d _ => d
  | .detonatorInc d => d
  | .ghostInc d => d
  | .invincibilityInc d => d

/-- The effect `e`, applied to player `p`, keeps the attribute at its modified value
(`modified`) after each of the first `d - 1` calls of `Update`, every one of which
returns `false`, and the `d`-th call returns `true` and leaves the attribute at its
baseline (`baseline`). -/
def StatusEffect.HoldsThenResets (e : StatusEffect) (p : Player) (d : Nat)
    (modified baseline : Player → Prop) : Prop :=
  (∀ k : Nat, 1 ≤ k → k < d →
      modified (e.calls p k).2.1 ∧ (e.calls p k).2.2 = false) ∧
    baseline (e.calls p d).2.1 ∧ (e.calls p d).2.2 = true

/-- `p.State != nil && p.State.GetName() == name`. -/
def Player.stateIs (p : Player) (name : String) : Bool :=
  match p.State with
  | some st => st.GetName == name
  | none => false

/-- `Player.PlaceBomb`; `self` is the address of the player, `addr` the address of
the bomb that `NewBomb` allocates. -/
def Player.PlaceBomb (p : Player) (self addr : Nat) : Player × Option Bomb :=
  if p.canPlaceBomb && decide (p.NumberOfBombs > 0) then
    let (x, y) := p.TilePosition
    let bomb := NewBomb addr self p.BombRange (x * 16) (y * 16)
    if p.stateIs "DetonatorIncrease" then
      ({ p with manualDetonateBombs := p.manualDetonateBombs ++ [addr],
                NumberOfBombs := p.NumberOfBombs - 1 },
        some { bomb with manualDetonate := true })
    else
      ({ p with NumberOfBombs := p.NumberOfBombs - 1 }, some bomb)
  else
    (p, none)

/-- `Player.PlaceObstacle`. -/
def Player.PlaceObstacle (p : Player) : Player × Option Box :=
  if p.NumberOfObstacles > 0 then
    let (x, y) := p.TilePosition
    ({ p with NumberOfObstacles := p.NumberOfObstacles - 1 }, some (NewBox (x * 16) (y * 16) true))
  else
    (p, none)

/-- What one call of `Player.Update` produces: the player afterwards, the returned
bomb and box, and the addresses of the bombs on which `Detonate` was called. -/
structure PlayerUpdate where
  player : Player
  bomb : Option Bomb
  box : Option Box
  detonated : List Nat

/-- `Player.Update`, first block: `if p.State != nil && p.State.Update(p) { p.State = nil }`. -/
def Player.updateState (p : Player) : Player :=
  match p.State with
  | some st =>
    let r := st.Update p
    if r.2.2 then { r.2.1 with State := none } else { r.2.1 with State := some r.1 }
  | none => p

/-- `Player.Update`, second block: with ability two and the detonator effect, call
`Detonate` on every bomb of `manualDetonateBombs` and empty the list. Returns the
addresses of the bombs detonated. -/
def Player.detonateManual (p : Player) : Player × List Nat :=
  if p.Control.Ability2 && p.stateIs "DetonatorIncrease"
      && decide (p.manualDetonateBombs.length > 0) then
    ({ p with manualDetonateBombs := [] }, p.manualDetonateBombs)
  else
    (p, [])

/-- `Player.Update`, third block: obstacle placement. -/
def Player.obstacleStep (p : Player) : Player × Option Box :=
  if p.Control.Ability2 && p.stateIs "ObstacleIncrease" && decide (p.NumberOfObstacles > 0) then
    p.PlaceObstacle
  else
    (p, none)

/-- `Player.Update`, fourth block: bomb placement. -/
def Player.bombStep (p : Player) (self addr : Nat) : Player × Option Bomb :=
  if p.autoPlaceBomb then
    p.PlaceBomb self addr
  else if p.Control.Ability1 && p.canPlaceBomb && decide (p.NumberOfBombs > 0) then
    p.PlaceBomb self addr
  else
    (p, none)

/-- One `if p.Control.D { p.collider.Move(dx, dy); err = p.SetCurrentAnimation(key) }`. -/
def Player.moveIf (p : Player) (pressed : Bool) (dx dy : ℚ) (animationKey : String) : Player :=
  if pressed then
    { p with X := p.X + dx, Y := p.Y + dy, currentAnimation := animationKey }
  else p

/-- `Player.Update`, last block: movement by `speed` per pressed direction. -/
def Player.move (p : Player) : Player :=
  let p := p.moveIf p.Control.Up 0 (-p.speed) "walkUp"
  let p := p.moveIf p.Control.Down 0 p.speed "walkDown"
  let p := p.moveIf p.Control.Left (-p.speed) 0 "walkLeft"
  p.moveIf p.Control.Right p.speed 0 "walkRight"

/-- `Player.Update`: the five blocks in source order. The returned `err` is always
nil for a player made by `NewPlayer` (all four walk animations are loaded) and is
left out. -/
def Player.Update (p : Player) (self addr : Nat) : PlayerUpdate :=
  let p := p.updateState
  let (p, detonated) := p.detonateManual
  let (p, box) := p.obstacleStep
  let (p, bomb) := p.bombStep self addr
  { player := p.move, bomb := bomb, box := box, detonated := detonated }

/-- The player after `n` successive calls of `Player.Update` (bomb addresses
`addr`, `addr + 1`, ... are handed to the calls in turn). -/
def Player.afterUpdates (self addr : Nat) : Nat → Player → Player
  | 0, p => p
  | n + 1, p => (Player.afterUpdates self addr n p |>.Update self (addr + n)).player

/-! ## game/entities/monsters.go -/

/-- `directionTowardsTarget` (0: up, 1: down, 2: left, 3: right) on exact deltas:
what the function answers when its two subtractions do not round.
`Float64.directionTowardsTarget` below is the function on `float64` values. -/
def directionTowardsTarget (monsterX monsterY targetX targetY : ℚ) : Int :=
  let dx := targetX - monsterX
  let dy := targetY - monsterY
  if |dx| > |dy| then
    if dx > 0 then 3 else 2
  else
    if dy > 0 then 1 else 0

/-! ## float64

The coordinates `directionTowardsTarget` receives are Go `float64` values, and its
two subtractions round. -/

/-- Two to the power `k`. -/
def pow2 (k : Int) : ℚ :=
  if 0 ≤ k then ((2 ^ k.toNat : Nat) : ℚ) else 1 / ((2 ^ (-k).toNat : Nat) : ℚ)

/-- The number of times `n` can be halved before it is below 2; `fuel` bounds the
halvings. -/
def halvings : Nat → Nat → Nat
  | 0, _ => 0
  | fuel + 1, n => if n < 2 then 0 else halvings fuel (n / 2) + 1

/-- For `q > 0`, the exponent `e` with `2^e ≤ q < 2^(e+1)`: the difference of the
exponents of numerator and denominator, or one less. -/
def floorLog2 (q : ℚ) : Int :=
  let e0 : Int := (halvings q.num.natAbs q.num.natAbs : Int) - (halvings q.den q.den : Int)
  if pow2 e0 ≤ q then e0 else e0 - 1

/-- The nearest integer to `m`, the even one of the two when `m` lies halfway. -/
def roundHalfEven (m : ℚ) : Int :=
  let f : Int := ⌊m⌋
  let r : ℚ := m - (f : ℚ)
  if r < 1 / 2 then f
  else if 1 / 2 < r then f + 1
  else if f % 2 = 0 then f
  else f + 1

/-- The values of a Go `float64` (IEEE 754 binary64): a finite number, an infinity or
NaN. The two zeros are not told apart; subtraction, `math.Abs` and `>` give them the
same results up to the sign of a zero. `finite q` is a `float64` when `q` is
representable; `Float64.round` makes one from any rational. -/
inductive Float64 where
  | finite (q : ℚ)
  | inf (negative : Bool)
  | nan
deriving DecidableEq

/-- The `float64` nearest to the real number `q`, ties to even: 53 significant bits,
least quantum `2^-1074`, and infinity from `2^1024` on. -/
def Float64.round (q : ℚ) : Float64 :=
  if q = 0 then .finite 0
  else
    let quantum : ℚ := pow2 (max (floorLog2 |q| - 52) (-1074))
    let v : ℚ := (roundHalfEven (|q| / quantum) : ℚ) * quantum
    if pow2 1024 ≤ v then .inf (decide (q < 0))
    else .finite (if q < 0 then -v else v)

/-- The Go expression `a - b` on `float64` operands. -/
def Float64.sub : Float64 → Float64 → Float64
  | .nan, _ => .nan
  | _, .nan => .nan
  | .inf a, .inf b => if a = b then .nan else .inf a
  | .inf a, .finite _ => .inf a
  | .finite _, .inf b => .inf (!b)
  | .finite a, .finite b => Float64.round (a - b)

/-- `math.Abs`. -/
def Float64.abs : Float64 → Float64
  | .finite q => .finite |q|
  | .inf _ => .inf false
  | .nan => .nan

/-- The Go comparison `a > b` on `float64` operands; false when either is NaN. -/
def Float64.gt : Float64 → Float64 → Bool
  | .nan, _ => false
  | _, .nan => false
  | .finite a, .finite b => decide (a > b)
  | .finite _, .inf negative => negative
  | .inf negative, .finite _ => !negative
  | .inf a, .inf b => !a && b

/-- `directionTowardsTarget` (0: up, 1: down, 2: left, 3: right) on the `float64`
coordinates it is called with. -/
def Float64.directionTowardsTarget (monsterX monsterY targetX targetY : Float64) : Int :=
  let dx := targetX.sub monsterX
  let dy := targetY.sub monsterY
  if dx.abs.gt dy.abs then
    if dx.gt (.finite 0) then 3 else 2
  else
    if dy.gt (.finite 0) then 1 else 0

/-- The four implementations of the `Monster` interface. -/
inductive MonsterKind where
  | Ghost
  | Ballon
  | Slime
  | Onion
deriving DecidableEq, Repr

/-- A monster: the position of its collider, the `entity` fields, `direction`, and
for a `Ghost` the size of the game area (0 for the other kinds, which have no such
fields). The target pointer and the time of the last direction change are left
out. -/
structure Monster where
  kind : MonsterKind
  X : ℚ
  Y : ℚ
  speed : ℚ
  currentAnimation : String
  direction : Int
  gameWidth : ℚ
  gameHeight : ℚ
deriving DecidableEq, Repr

/-- `NewGhost`: `direction` keeps its zero value. -/
def NewGhost (x y gameWidth gameHeight : ℚ) : Monster :=
  { kind := .Ghost, X := x, Y := y, speed := 0.6, currentAnimation := "walkDown",
    direction := 0, gameWidth := gameWidth, gameHeight := gameHeight }

/-- `NewBallon`: `direction` is `rand.Intn(4)`. -/
def NewBallon (x y : ℚ) (r : Rand) : Monster × Rand :=
  let (d, r) := r.Intn 4
  ({ kind := .Ballon, X := x, Y := y, speed := 0.6, currentAnimation := "walkDown",
     direction := d, gameWidth := 0, gameHeight := 0 }, r)

/-- `NewSlime`: `direction` is `rand.Intn(4)`. -/
def NewSlime (x y : ℚ) (r : Rand) : Monster × Rand :=
  let (d, r) := r.Intn 4
  ({ kind := .Slime, X := x, Y := y, speed := 0.6, currentAnimation := "walkDown",
     direction := d, gameWidth := 0, gameHeight := 0 }, r)

/-- `NewOnion`: `direction` is `rand.Intn(4)`. -/
def NewOnion (x y : ℚ) (r : Rand) : Monster × Rand :=
  let (d, r) := r.Intn 4
  ({ kind := .Onion, X := x, Y := y, speed := 0.6, currentAnimation := "walkDown",
     direction := d, gameWidth := 0, gameHeight := 0 }, r)

/-- The call `m.GetCollider().MoveTo(x, y)` on a monster. -/
def Monster.MoveTo (m : Monster) (x y : ℚ) : Monster := { m with X := x, Y := y }

/-! ## game/multiplayer/proto.go -/

/-- The `ProtoPlayer` struct (`Color` as its four RGBA components). -/
structure ProtoPlayer where
  Username : String
  Ping : Int
  X : ℚ
  Y : ℚ
  Control : PlayerControls
  Color : Nat × Nat × Nat × Nat
  IsDead : Bool
  Score : Int
deriving DecidableEq, Repr

/-- The `ProtoEntity` struct (`Type_` is the Go field `Type`). -/
structure ProtoEntity where
  X : ℚ
  Y : ℚ
  IsDead : Bool
  Type_ : String
  CurrentAnimation : String
deriving DecidableEq, Repr

/-- The `ProtoTerrainChange` struct. -/
structure ProtoTerrainChange where
  X : Int
  Y : Int
  To : String
deriving DecidableEq, Repr

/-- The `ProtoGameInfo` struct: the world snapshot. -/
structure ProtoGameInfo where
  GameState : String
  Level : String
  TerrainChanges : List ProtoTerrainChange
  Players : List ProtoPlayer
  Monsters : List ProtoEntity
  Bombs : List ProtoEntity
  Explosions : List ProtoEntity
  Boxes : List ProtoEntity
  StatusEffects : List ProtoEntity

/-- `GameStateLobby`. -/
def GameStateLobby : String := "lobby"

/-- `GameStateRunning`. -/
def GameStateRunning : String := "running"

/-- `GameStateEnd`. -/
def GameStateEnd : String := "end"

/-- The composite literal `multiplayer.ProtoEntity{X: x, Y: y}`. -/
def ProtoEntity.at (x y : Int) : ProtoEntity :=
  { X := x, Y := y, IsDead := false, Type_ := "", CurrentAnimation := "" }

/-! ## scenes/gameScene.go, scenes/multiplayerHost.go: state -/

/-- The `GameScene` struct, as far as the bomb and explosion loops use it, together
with the two pieces of global state those loops touch: the `Player` objects that
bombs point to (`playerMem`, by address) and the `math/rand` source. The slices
`monsters` and `players`, which those loops do not read, are empty unless given. -/
structure GameScene where
  staticEntities : List (List Terrain)
  bombs : List Bomb
  explosions : List Explosion
  boxes : List Box
  statusEffects : List Effect
  playerMem : Nat → Player
  rand : Rand
  monsters : List Monster := []
  players : List Player := []

/-- The `MultiPlayerGameSceneHost` struct: the embedded `GameScene` and
`Server.GameInfo`. -/
structure MultiPlayerGameSceneHost extends GameScene where
  GameInfo : ProtoGameInfo

/-! ## Go slices -/

/-- The Go assignment `l[i] = l[len(l)-1]`; faults when `l` is empty or `i` is out of range. -/
def sliceSetToLast {α : Type} (l : List α) (i : Nat) : Option (List α) :=
  match l[l.length - 1]? with
  | none => none
  | some last => if i < l.length then some (l.set i last) else none

/-- The Go reslice `l = l[:len(l)-1]`; faults when `l` is empty. -/
def sliceDropLast {α : Type} (l : List α) : Option (List α) :=
  if l.length = 0 then none else some l.dropLast

/-- The swap-remove the host applies to a live list and its snapshot sequence at once:
`if i < len(live)-1 { live[i] = live[len(live)-1]; snap[i] = snap[len(snap)-1] }`,
then `live = live[:len(live)-1]` and `snap = snap[:len(snap)-1]`. -/
def swapRemoveBoth {α β : Type} (live : List α) (snap : List β) (i : Nat) :
    Option (List α × List β) :=
  let swapped : Option (List α × List β) :=
    if i + 1 < live.length then
      match sliceSetToLast live i, sliceSetToLast snap i with
      | some a, some b => some (a, b)
      | _, _ => none
    else some (live, snap)
  match swapped with
  | none => none
  | some (a, b) =>
    match sliceDropLast a, sliceDropLast b with
    | some a, some b => some (a, b)
    | _, _ => none

/-- The list with its last element moved to the front: what a swap-remove at the
position just before `l` leaves of `l`. -/
def rotateLast {α : Type} (l : List α) : List α :=
  match l.getLast? with
  | none => []
  | some z => z :: l.dropLast

/-- The Go index expression `g[x][y]` on `staticEntities` with `int` indices. -/
def tileAt (g : List (List Terrain)) (x y : Int) : Option Terrain :=
  if x < 0 ∨ y < 0 then none
  else
    match g[x.toNat]? with
    | none => none
    | some row => row[y.toNat]?

/-- The Go expression `len(g[0])`. -/
def lenRow0 (g : List (List Terrain)) : Option Nat :=
  match g[0]? with
  | none => none
  | some row => some row.length

/-- The Go assignment `g[x][y] = t`. -/
def setTile (g : List (List Terrain)) (x y : Int) (t : Terrain) : Option (List (List Terrain)) :=
  if x < 0 ∨ y < 0 then none
  else
    match g[x.toNat]? with
    | none => none
    | some row => if y.toNat < row.length then some (g.set x.toNat (row.set y.toNat t)) else none

/-! ## scenes/multiplayerHost.go: explosion propagation (lines 194-231) -/

/-- The operand `t.IsDestroyable() || !t.IsSolid()` of the four loop conditions. -/
def Terrain.letsExplosionThrough (t : Terrain) : Bool := t.IsDestroyable || !t.IsSolid

/-- Condition of the first loop (`y+j`), evaluated left to right. -/
def hostCondDown (g : List (List Terrain)) (x y j : Int) : Option Bool :=
  if y + j < g.length ∧ x ≥ 0 ∧ x < g.length ∧ g.length > 0 then
    match lenRow0 g with
    | none => none
    | some n =>
      if y + j < n then
        match tileAt g x (y + j) with
        | none => none
        | some t => some t.letsExplosionThrough
      else some false
  else some false

/-- Condition of the second loop (`y-j`). -/
def hostCondUp (g : List (List Terrain)) (x y j : Int) : Option Bool :=
  if y - j ≥ 0 ∧ x ≥ 0 ∧ x < g.length ∧ g.length > 0 then
    match lenRow0 g with
    | none => none
    | some n =>
      if y - j < n then
        match tileAt g x (y - j) with
        | none => none
        | some t => some t.letsExplosionThrough
      else some false
  else some false

/-- Condition of the third loop (`x+j`); `len(g[0])` is read before `len(g) > 0`. -/
def hostCondRight (g : List (List Terrain)) (x y j : Int) : Option Bool :=
  if x + j < g.length ∧ y ≥ 0 then
    match lenRow0 g with
    | none => none
    | some n =>
      if y < n ∧ g.length > 0 ∧ x + j < g.length then
        match tileAt g (x + j) y with
        | none => none
        | some t => some t.letsExplosionThrough
      else some false
  else some false

/-- Condition of the fourth loop (`x-j`); `len(g[0])` is read before `len(g) > 0`. -/
def hostCondLeft (g : List (List Terrain)) (x y j : Int) : Option Bool :=
  if x - j ≥ 0 ∧ y ≥ 0 then
    match lenRow0 g with
    | none => none
    | some n =>
      if y < n ∧ g.length > 0 ∧ x - j < g.length then
        match tileAt g (x - j) y with
        | none => none
        | some t => some t.letsExplosionThrough
      else some false
  else some false

/-- One loop `for j := 1; j <= ExplosionRange; j++ { if cond { append } else { break } }`:
`n` iterations are left, `j` is the loop variable, `acc` the explosions appended so
far by this loop. -/
def hostAxisLoop (cond : Int → Option Bool) (spawn : Int → Explosion) :
    Nat → Int → List Explosion → Option (List Explosion)
  | 0, _, acc => some acc
  | n + 1, j, acc =>
    match cond j with
    | none => none
    | some true => hostAxisLoop cond spawn n (j + 1) (acc ++ [spawn j])
    | some false => some acc

/-- The explosions the first loop appends for a bomb on tile `(x, y)`. -/
def hostAxisDown (g : List (List Terrain)) (x y range : Int) : Option (List Explosion) :=
  hostAxisLoop (hostCondDown g x y) (fun j => NewExplosion (x * 16) ((y + j) * 16))
    range.toNat 1 []

/-- The explosions the second loop appends. -/
def hostAxisUp (g : List (List Terrain)) (x y range : Int) : Option (List Explosion) :=
  hostAxisLoop (hostCondUp g x y) (fun j => NewExplosion (x * 16) ((y - j) * 16))
    range.toNat 1 []

/-- The explosions the third loop appends. -/
def hostAxisRight (g : List (List Terrain)) (x y range : Int) : Option (List Explosion) :=
  hostAxisLoop (hostCondRight g x y) (fun j => NewExplosion ((x + j) * 16) (y * 16))
    range.toNat 1 []

/-- The explosions the fourth loop appends. -/
def hostAxisLeft (g : List (List Terrain)) (x y range : Int) : Option (List Explosion) :=
  hostAxisLoop (hostCondLeft g x y) (fun j => NewExplosion ((x - j) * 16) (y * 16))
    range.toNat 1 []

/-- Everything a detonation on tile `(x, y)` appends to `s.explosions`: the centre,
then the four loops in source order. -/
def hostSpawnExplosions (g : List (List Terrain)) (x y range : Int) : Option (List Explosion) :=
  match hostAxisDown g x y range with
  | none => none
  | some down =>
    match hostAxisUp g x y range with
    | none => none
    | some up =>
      match hostAxisRight g x y range with
      | none => none
      | some right =>
        match hostAxisLeft g x y range with
        | none => none
        | some left => some (NewExplosion (x * 16) (y * 16) :: (down ++ up ++ right ++ left))

/-! ## scenes/multiplayerHost.go: bomb loop (lines 192-242) -/

/-- `s.bombs[i].Owner.NumberOfBombs++` on the player object at address `owner`. -/
def incNumberOfBombs (mem : Nat → Player) (owner : Nat) : Nat → Player :=
  fun a => if a = owner then { mem a with NumberOfBombs := (mem a).NumberOfBombs + 1 } else mem a

/-- The body of `if s.bombs[i].Update() { ... }` for the bomb `b` at index `i`. -/
def hostDetonate (s : MultiPlayerGameSceneHost) (i : Nat) (b : Bomb) :
    Option MultiPlayerGameSceneHost :=
  let (x, y) := b.TilePosition
  match hostSpawnExplosions s.staticEntities x y b.ExplosionRange with
  | none => none
  | some spawned =>
    let explosions := s.explosions ++ spawned
    let playerMem := incNumberOfBombs s.playerMem b.Owner
    match swapRemoveBoth s.bombs s.GameInfo.Bombs i with
    | none => none
    | some (bs, ps) =>
      some { s with
        explosions := explosions, playerMem := playerMem, bombs := bs,
        GameInfo := { s.GameInfo with Bombs := ps } }

/-- The loop `for i := 0; i < len(s.bombs); i++`. Every iteration either advances
`i` or shortens `s.bombs`, so `len(s.bombs) - i` iterations are made; `fuel` is
that number, and running out of it with `i` still in range is reported as `none`. -/
def hostBombLoop : Nat → Nat → MultiPlayerGameSceneHost → Option MultiPlayerGameSceneHost
  | 0, i, s => if i < s.bombs.length then none else some s
  | fuel + 1, i, s =>
    match s.bombs[i]? with
    | none => some s
    | some b =>
      let r := b.Update
      let s := { s with bombs := s.bombs.set i r.1 }
      if r.2 then
        match hostDetonate s i r.1 with
        | none => none
        | some s => hostBombLoop fuel i s
      else hostBombLoop fuel (i + 1) s

/-- Lines 192-242 of `MultiPlayerGameSceneHost.Update`. -/
def hostBombPhase (s : MultiPlayerGameSceneHost) : Option MultiPlayerGameSceneHost :=
  hostBombLoop s.bombs.length 0 s

/-! ## scenes/multiplayerHost.go: explosion loop (lines 244-291) -/

/-- The body of `if exploX == boxX && ExploY == boxY { ... }` for the box `box` read
at index `j` of the range loop. -/
def hostDestroyBox (s : MultiPlayerGameSceneHost) (j : Nat) (box : Box) :
    Option MultiPlayerGameSceneHost :=
  let s : MultiPlayerGameSceneHost :=
    if !box.IsBlank then
      let (newEffect, rand) := box.DropRandomStatusEffect s.rand
      let s := { s with rand := rand }
      match newEffect.StatusEffect with
      | some st =>
        { s with
          statusEffects := s.statusEffects ++ [newEffect],
          GameInfo := { s.GameInfo with
            StatusEffects := s.GameInfo.StatusEffects ++
              [{ X := box.X, Y := box.Y, IsDead := false, Type_ := st.GetName,
                 CurrentAnimation := "" }] } }
      | none => s
    else s
  match sliceSetToLast s.GameInfo.Boxes j with
  | none => none
  | some ps =>
    match sliceDropLast ps with
    | none => none
    | some ps =>
      match sliceSetToLast s.boxes j with
      | none => none
      | some bs =>
        match sliceDropLast bs with
        | none => none
        | some bs => some { s with boxes := bs, GameInfo := { s.GameInfo with Boxes := ps } }

/-- The loop `for j, box := range s.boxes` for an explosion on tile
`(exploX, ExploY)`. The range expression is evaluated once, and the loop only ever
writes the slot it has just read, so the boxes read are the elements of the slice as
it was on entry: `todo` is what is left of it, `j` the index. -/
def hostBoxLoop (exploX ExploY : Int) :
    List Box → Nat → MultiPlayerGameSceneHost → Option MultiPlayerGameSceneHost
  | [], _, s => some s
  | box :: todo, j, s =>
    let (boxX, boxY) := box.TilePosition
    if exploX = boxX ∧ ExploY = boxY then
      match hostDestroyBox s j box with
      | none => none
      | some s => hostBoxLoop exploX ExploY todo (j + 1) s
    else hostBoxLoop exploX ExploY todo (j + 1) s

/-- Lines 280-289: terrain destruction under an explosion on tile `(exploX, ExploY)`. -/
def hostDestroyTerrain (s : MultiPlayerGameSceneHost) (exploX ExploY : Int) :
    Option MultiPlayerGameSceneHost :=
  let g := s.staticEntities
  if exploX ≥ 0 ∧ exploX < g.length ∧ ExploY ≥ 0 ∧ g.length > 0 then
    match lenRow0 g with
    | none => none
    | some n =>
      if ExploY < n then
        match tileAt g exploX ExploY with
        | none => none
        | some t =>
          if t.IsDestroyable then
            match setTile g exploX ExploY (NewGrass (exploX * 16) (ExploY * 16)) with
            | none => none
            | some g =>
              some { s with
                staticEntities := g,
                GameInfo := { s.GameInfo with
                  TerrainChanges := s.GameInfo.TerrainChanges ++
                    [{ X := exploX, Y := ExploY, To := "GRASS" }] } }
          else some s
      else some s
  else some s

/-- The `if s.explosions[i].Update() { ... }` branch: swap-remove from both lists. -/
def hostRemoveExplosion (s : MultiPlayerGameSceneHost) (i : Nat) :
    Option MultiPlayerGameSceneHost :=
  match swapRemoveBoth s.explosions s.GameInfo.Explosions i with
  | none => none
  | some (es, ps) =>
    some { s with explosions := es, GameInfo := { s.GameInfo with Explosions := ps } }

/-- The `else { ... }` branch for the live explosion `e` at index `i`: mirror it into
the snapshot, destroy the boxes and the terrain under it. -/
def hostKeepExplosion (s : MultiPlayerGameSceneHost) (i : Nat) (e : Explosion) :
    Option MultiPlayerGameSceneHost :=
  let ps :=
    if i ≥ s.GameInfo.Explosions.length then s.GameInfo.Explosions ++ [ProtoEntity.at e.X e.Y]
    else s.GameInfo.Explosions
  match ps[i]? with
  | none => none
  | some p =>
    let ps := ps.set i { p with X := e.X, Y := e.Y }
    let s := { s with GameInfo := { s.GameInfo with Explosions := ps } }
    let (exploX, ExploY) := e.TilePosition
    match hostBoxLoop exploX ExploY s.boxes 0 s with
    | none => none
    | some s => hostDestroyTerrain s exploX ExploY

/-- The loop `for i := 0; i < len(s.explosions); i++`; `fuel` as in `hostBombLoop`. -/
def hostExplosionLoop :
    Nat → Nat → MultiPlayerGameSceneHost → Option MultiPlayerGameSceneHost
  | 0, i, s => if i < s.explosions.length then none else some s
  | fuel + 1, i, s =>
    match s.explosions[i]? with
    | none => some s
    | some e =>
      let r := e.Update
      let s := { s with explosions := s.explosions.set i r.1 }
      if r.2 then
        match hostRemoveExplosion s i with
        | none => none
        | some s => hostExplosionLoop fuel i s
      else
        match hostKeepExplosion s i r.1 with
        | none => none
        | some s => hostExplosionLoop fuel (i + 1) s

/-- Lines 244-291 of `MultiPlayerGameSceneHost.Update`. -/
def hostExplosionPhase (s : MultiPlayerGameSceneHost) : Option MultiPlayerGameSceneHost :=
  hostExplosionLoop s.explosions.length 0 s

/-! ## scenes/multiplayerHost.go: round end (lines 293-299) -/

/-- The loop `for _, player := range Players { if !player.IsDead { ...; break } }`. -/
def hostRoundEndLoop : List ProtoPlayer → ProtoGameInfo → ProtoGameInfo
  | [], gi => gi
  | player :: rest, gi =>
    if !player.IsDead then { gi with GameState := GameStateRunning }
    else hostRoundEndLoop rest gi

/-- Lines 293-299: recompute `GameState`. -/
def hostRoundEnd (gi : ProtoGameInfo) : ProtoGameInfo :=
  hostRoundEndLoop gi.Players { gi with GameState := GameStateEnd }

/-- Lines 192-301 of `MultiPlayerGameSceneHost.Update`: the bomb loop, the explosion
loop and the round-end check, which close every host tick. -/
def hostUpdateWorld (s : MultiPlayerGameSceneHost) : Option MultiPlayerGameSceneHost :=
  match hostBombPhase s with
  | none => none
  | some s =>
    match hostExplosionPhase s with
    | none => none
    | some s => some { s with GameInfo := hostRoundEnd s.GameInfo }

/-- The state after `n` successive runs of `hostUpdateWorld`. -/
def hostUpdateWorldTimes : Nat → MultiPlayerGameSceneHost → Option MultiPlayerGameSceneHost
  | 0, s => some s
  | n + 1, s =>
    match hostUpdateWorldTimes n s with
    | none => none
    | some s => hostUpdateWorld s

/-! ## Proof vocabulary -/

/-- What the bomb loop keeps fixed and what it does to the player objects. -/
structure BombLoopFrame (s s1 : MultiPlayerGameSceneHost) (fired : List Bomb) : Prop where
  staticEntities : s1.staticEntities = s.staticEntities
  boxes : s1.boxes = s.boxes
  statusEffects : s1.statusEffects = s.statusEffects
  rand : s1.rand = s.rand
  players : s1.GameInfo.Players = s.GameInfo.Players
  terrainChanges : s1.GameInfo.TerrainChanges = s.GameInfo.TerrainChanges
  snapExplosions : s1.GameInfo.Explosions = s.GameInfo.Explosions
  snapBoxes : s1.GameInfo.Boxes = s.GameInfo.Boxes
  snapEffects : s1.GameInfo.StatusEffects = s.GameInfo.StatusEffects
  numberOfBombs : ∀ o : Nat, (s1.playerMem o).NumberOfBombs
    = (s.playerMem o).NumberOfBombs + ((fired.filter (fun b => b.Owner == o)).length : Int)

/-- Every row of the grid has `cols` cells. -/
def RectGrid (g : List (List Terrain)) (cols : Nat) : Prop :=
  ∀ row ∈ g, row.length = cols

instance (g : List (List Terrain)) (cols : Nat) : Decidable (RectGrid g cols) := by
  unfold RectGrid
  exact inferInstance

/-- The state of the world while the explosions of the bomb on tile (3,1) are being
processed: a rectangular grid, no boxes, and either the block on (3,3) still stands,
is the only destroyable tile and nothing is logged (`hit = false`), or no tile is
destroyable and the log holds the one record for (3,3) (`hit = true`). -/
structure BlastInv (cols : Nat) (hit : Bool) (s : MultiPlayerGameSceneHost) : Prop where
  rect : RectGrid s.staticEntities cols
  boxes : s.boxes = []
  onlyTile : ∀ (x y : Int) (t : Terrain), tileAt s.staticEntities x y = some t →
    t.IsDestroyable = true → hit = false ∧ x = 3 ∧ y = 3
  brick : hit = false → ∃ t, tileAt s.staticEntities 3 3 = some t ∧ t.IsDestroyable = true
  log : s.GameInfo.TerrainChanges = if hit then [{ X := 3, Y := 3, To := "GRASS" }] else []

/-- The state of the world `k` ticks after the bomb `b0` was placed, while its fuse
burns: the bomb is the only one, nothing explodes, nothing is logged. -/
structure FuseInv (g : List (List Terrain)) (b0 : Bomb) (k : Nat)
    (s : MultiPlayerGameSceneHost) : Prop where
  grid : s.staticEntities = g
  bombs : s.bombs = [{ b0 with time := 180 - (k : Int) }]
  snap : s.GameInfo.Bombs.length = 1
  explosions : s.explosions = []
  snapExplosions : s.GameInfo.Explosions = []
  boxes : s.boxes = []
  log : s.GameInfo.TerrainChanges = []

/-! ## Example worlds -/

/-- An empty snapshot in state "running". -/
def emptyGameInfo : ProtoGameInfo :=
  { GameState := GameStateRunning, Level := "", TerrainChanges := [], Players := [],
    Monsters := [], Bombs := [], Explosions := [], Boxes := [], StatusEffects := [] }

/-- A 5x5 map, all grass except two destroyable blocks on tiles (1,2) and (1,3). -/
def twoBricksGrid : List (List Terrain) :=
  (List.range 5).map fun x => (List.range 5).map fun y =>
    if x = 1 ∧ (y = 2 ∨ y = 3) then NewDestroyAbleSolid (x * 16) (y * 16)
    else NewGrass (x * 16) (y * 16)

/-- A host whose only bomb, of range 2 on tile (1,1), is on its last tick, in
`twoBricksGrid`. -/
def twoBricksHost : MultiPlayerGameSceneHost :=
  { staticEntities := twoBricksGrid,
    bombs := [{ NewBomb 0 0 2 16 16 with time := 1 }],
    explosions := [], boxes := [], statusEffects := [],
    playerMem := fun _ => NewPlayer 0 0, rand := ⟨fun _ => 0, 0⟩,
    GameInfo := { emptyGameInfo with Bombs := [ProtoEntity.at 16 16] } }

/-- A 5x5 map of walls with three grass tiles: (1,1) and (1,2) form a dead end,
(3,3) is walled in. -/
def deadEndGrid : List (List Terrain) :=
  (List.range 5).map fun x => (List.range 5).map fun y =>
    if (x = 1 ∧ (y = 1 ∨ y = 2)) ∨ (x = 3 ∧ y = 3) then NewGrass (x * 16) (y * 16)
    else NewWall (x * 16) (y * 16)

/-- A host in `deadEndGrid`, 89 ticks after a bomb on tile (1,1) went off (its two
explosions are on their last tick, mirrored in the snapshot), with a second bomb on
tile (3,3) on its last tick. -/
def deadEndHost : MultiPlayerGameSceneHost :=
  { staticEntities := deadEndGrid,
    bombs := [{ NewBomb 0 0 2 48 48 with time := 1 }],
    explosions := [{ X := 16, Y := 16, time := 1 }, { X := 16, Y := 32, time := 1 }],
    boxes := [], statusEffects := [],
    playerMem := fun _ => NewPlayer 0 0, rand := ⟨fun _ => 0, 0⟩,
    GameInfo := { emptyGameInfo with
      Bombs := [ProtoEntity.at 48 48],
      Explosions := [ProtoEntity.at 16 16, ProtoEntity.at 16 32] } }

/-- A 5x5 map of grass with one destroyable block on tile (3,3). -/
def oneBrickGrid : List (List Terrain) :=
  (List.range 5).map fun x => (List.range 5).map fun y =>
    if x = 3 ∧ y = 3 then NewDestroyAbleSolid (x * 16) (y * 16) else NewGrass (x * 16) (y * 16)

/-- A host in `oneBrickGrid` on which a range-2 bomb has just been placed on tile (3,1). -/
def oneBrickHost : MultiPlayerGameSceneHost :=
  { staticEntities := oneBrickGrid,
    bombs := [NewBomb 0 0 2 (3 * 16) (1 * 16)],
    explosions := [], boxes := [], statusEffects := [],
    playerMem := fun _ => NewPlayer 0 0, rand := ⟨fun _ => 0, 0⟩,
    GameInfo := { emptyGameInfo with Bombs := [ProtoEntity.at 48 16] } }

/-! ## gorilla/websocket: close codes and error tests

The transport library is not part of the repository; the two error tests below follow
its documentation. -/

/-- An `error` value as the session loops see it: a `*websocket.CloseError` with its
code and text, or any other error. -/
inductive WsError where
  | closeError (Code : Int) (Text : String)
  | other (text : String)
deriving DecidableEq, Repr

/-- `websocket.CloseNormalClosure`. -/
def CloseNormalClosure : Int := 1000

/-- `websocket.CloseGoingAway`. -/
def CloseGoingAway : Int := 1001

/-- `websocket.CloseAbnormalClosure`. -/
def CloseAbnormalClosure : Int := 1006

/-- `websocket.IsCloseError`: the error is a `*CloseError` whose code is one of
`codes`. -/
def IsCloseError (err : WsError) (codes : List Int) : Bool :=
  match err with
  | .closeError c _ => codes.contains c
  | .other _ => false

/-- `websocket.IsUnexpectedCloseError`: the error is a `*CloseError` whose code is
not one of `codes`. -/
def IsUnexpectedCloseError (err : WsError) (codes : List Int) : Bool :=
  match err with
  | .closeError c _ => !codes.contains c
  | .other _ => false

/-! ## game/multiplayer/client.go -/

/-- The `GameClient` struct without its connection; `Player` is the record the
client owns. -/
structure GameClient where
  GameInfo : ProtoGameInfo
  Ping : Int
  Player : ProtoPlayer

/-- What one call of `conn.ReadJSON` meets on the client's connection: a snapshot, a
close frame sent by the peer, or a failure without a close frame (a dropped
connection surfaces as `CloseError` 1006, made up locally by the library). -/
inductive ClientRead where
  | message (info : ProtoGameInfo)
  | closeFrame (code : Int) (text : String)
  | failure (err : WsError)

/-- One iteration of the client's loop as the outside world determines it: the
controls the scene has stored in `gc.Player` by then, the error of the write (if any),
what the read meets, and the time the round trip took. -/
structure ClientExchange where
  Control : PlayerControls
  writeErr : Option WsError
  read : ClientRead
  elapsed : Int

/-- What the client's goroutine does that is visible from outside. -/
inductive ClientEvent where
  | writeJSON (p : ProtoPlayer)
  | readJSON
  | closeHandler (code : Int) (text : String)
  | sleep (ms : Nat)

/-- `conn.ReadJSON(&gc.GameInfo)` with the handler registered by `SetCloseHandler`
in `NewGameClient`: the library runs the handler when, and only when, the read
receives a close frame, and then (the handler of `mainMenuScene` returning nil)
returns the `CloseError` of that frame. -/
def ClientRead.ReadJSON : ClientRead → List ClientEvent × Except WsError ProtoGameInfo
  | .message info => ([.readJSON], .ok info)
  | .closeFrame code text => ([.readJSON, .closeHandler code text], .error (.closeError code text))
  | .failure err => ([.readJSON], .error err)

/-- A run of `handleWebsocketConnection` against a finite script: the client at the
end, what was done, and whether the function has returned (if not, the script ran
out with the loop still going). -/
structure ClientRun where
  gc : GameClient
  trace : List ClientEvent
  returned : Bool

/-- The run `r` with the events `evs` put before it. -/
def ClientRun.after (evs : List ClientEvent) (r : ClientRun) : ClientRun :=
  { r with trace := evs ++ r.trace }

/-- The colour loop of `handleWebsocketConnection` (lines 80-85): the colour of the
first snapshot player with the client's username. -/
def GameClient.copyColor (gc : GameClient) : GameClient :=
  match gc.GameInfo.Players.find? (fun player => player.Username == gc.Player.Username) with
  | some player => { gc with Player := { gc.Player with Color := player.Color } }
  | none => gc

/-- `GameClient.handleWebsocketConnection` (lines 55-91), one script entry per
iteration. -/
def GameClient.handleWebsocketConnection (gc : GameClient) :
    List ClientExchange → ClientRun
  | [] => { gc := gc, trace := [], returned := false }
  | ex :: rest =>
    let gc := { gc with Player := { gc.Player with Control := ex.Control } }
    match ex.writeErr with
    | some err =>
      if IsCloseError err [CloseGoingAway, CloseAbnormalClosure] then
        { gc := gc, trace := [.writeJSON gc.Player], returned := true }
      else
        (GameClient.handleWebsocketConnection gc rest).after [.writeJSON gc.Player]
    | none =>
      match ex.read.ReadJSON with
      | (evs, .error err) =>
        if IsCloseError err [CloseGoingAway, CloseAbnormalClosure] then
          { gc := gc, trace := .writeJSON gc.Player :: evs, returned := true }
        else
          (GameClient.handleWebsocketConnection gc rest).after (.writeJSON gc.Player :: evs)
      | (evs, .ok info) =>
        let gc1 := ({ gc with GameInfo := info } : GameClient).copyColor
        let gc1 := { gc1 with Ping := ex.elapsed }
        (GameClient.handleWebsocketConnection gc1 rest).after
          (.writeJSON gc.Player :: evs ++ [.sleep 16])

/-- How often the close callback ran in a trace. -/
def closeHandlerCalls (trace : List ClientEvent) : Nat :=
  (trace.filter fun e => match e with
    | .closeHandler _ _ => true
    | _ => false).length

/-- How many reads and writes a trace holds. -/
def clientTransfers (trace : List ClientEvent) : Nat :=
  (trace.filter fun e => match e with
    | .writeJSON _ => true
    | .readJSON => true
    | _ => false).length
/-- The error, if any, with which an iteration of the client's loop ends: that of
the write, else that of the read. -/
def ClientExchange.error (ex : ClientExchange) : Option WsError :=
  match ex.writeErr with
  | some err => some err
  | none =>
    match ex.read.ReadJSON.2 with
    | .error err => some err
    | .ok _ => none

/-- Whether the read of an iteration takes place and receives a close frame. -/
def ClientExchange.receivesCloseFrame (ex : ClientExchange) : Bool :=
  match ex.writeErr, ex.read with
  | none, .closeFrame _ _ => true
  | _, _ => false

/-- The zero value of `ProtoPlayer`. -/
def ProtoPlayer.zero : ProtoPlayer :=
  { Username := "", Ping := 0, X := 0, Y := 0,
    Control := ⟨false, false, false, false, false, false⟩,
    Color := (0, 0, 0, 0), IsDead := false, Score := 0 }

/-- A client as `NewGameClient` leaves it, for the user "guest". -/
def guestClient : GameClient :=
  { GameInfo := { GameState := "", Level := "", TerrainChanges := [], Players := [],
                  Monsters := [], Bombs := [], Explosions := [], Boxes := [],
                  StatusEffects := [] },
    Ping := 0,
    Player := { ProtoPlayer.zero with Username := "guest" } }

/-- An iteration of the client's loop whose write succeeds and whose read fails
with `err`, no close frame having arrived. -/
def readFails (err : WsError) : ClientExchange :=
  { Control := ⟨false, false, false, false, false, false⟩, writeErr := none,
    read := .failure err, elapsed := 0 }

/-- An iteration of the client's loop whose write fails with `err`. -/
def writeFails (err : WsError) : ClientExchange :=
  { Control := ⟨false, false, false, false, false, false⟩, writeErr := some err,
    read := .failure err, elapsed := 0 }

/-! ## game/multiplayer/server.go -/

/-- A `*ProtoPlayer` obtained as `&s.GameInfo.Players[index]`: the backing array of
the slice at that moment, and the index into it. -/
structure PlayerPtr where
  array : Nat
  index : Nat
deriving DecidableEq, Repr

/-- The `User` struct, with the fields of the embedded `UserInfo`. -/
structure User where
  Username : String
  UserID : String
  IP : String
  Player : Option PlayerPtr
deriving DecidableEq, Repr

/-- The `GameServer` struct and the memory its pointers reach. `GameInfo.Players` holds
the elements of the slice, which live in the backing array `playersArray` of capacity
`playersCap`; `retired` gives the contents of the backing arrays the slice has left
behind, which pointers taken earlier still refer to. The map `clients` is a list of
entries keyed by connection, and `rand` is the global `math/rand` source. -/
structure GameServer where
  GameInfo : ProtoGameInfo
  playersArray : Nat
  playersCap : Nat
  retired : Nat → List ProtoPlayer
  Colors : List (Nat × Nat × Nat × Nat)
  clients : List (Nat × User)
  rand : Rand

/-- `NewGameServer`: `Players` is `make([]ProtoPlayer, 1, 10)`. -/
def NewGameServer (rand : Rand) : GameServer :=
  { GameInfo :=
      { GameState := GameStateLobby, Level := "", TerrainChanges := [],
        Players := [ProtoPlayer.zero], Monsters := [], Bombs := [], Explosions := [],
        Boxes := [], StatusEffects := [] },
    playersArray := 0,
    playersCap := 10,
    retired := fun _ => [],
    Colors := [(255, 0, 0, 255), (0, 255, 0, 255), (0, 0, 255, 255), (255, 255, 0, 255),
               (0, 255, 255, 255), (255, 0, 255, 255), (255, 255, 255, 255)],
    clients := [],
    rand := rand }

/-- The map read `s.clients[conn]`. -/
def GameServer.client (s : GameServer) (conn : Nat) : Option User :=
  s.clients.lookup conn

/-- The map write `s.clients[conn] = u`. -/
def GameServer.setClient (s : GameServer) (conn : Nat) (u : User) : GameServer :=
  { s with clients := (conn, u) :: s.clients.filter fun e => e.1 != conn }

/-- `delete(s.clients, conn)`. -/
def GameServer.deleteClient (s : GameServer) (conn : Nat) : GameServer :=
  { s with clients := s.clients.filter fun e => e.1 != conn }

/-- The element `l[i]` replaced by `f l[i]`; nothing happens when `i` is out of
range. -/
def sliceModify {α : Type} (l : List α) (i : Nat) (f : α → α) : List α :=
  match l[i]? with
  | some x => l.set i (f x)
  | none => l

/-- The read `*p` of a player pointer. -/
def GameServer.load (s : GameServer) (p : PlayerPtr) : Option ProtoPlayer :=
  if p.array = s.playersArray then s.GameInfo.Players[p.index]?
  else (s.retired p.array)[p.index]?

/-- A write through a player pointer, `*p = f(*p)`: it lands in the array the pointer
was taken from, which is the one behind `GameInfo.Players` only as long as the slice
has not been reallocated since. -/
def GameServer.store (s : GameServer) (p : PlayerPtr) (f : ProtoPlayer → ProtoPlayer) :
    GameServer :=
  if p.array = s.playersArray then
    { s with GameInfo := { s.GameInfo with Players := sliceModify s.GameInfo.Players p.index f } }
  else
    { s with retired := fun a =>
        if a = p.array then sliceModify (s.retired a) p.index f else s.retired a }

/-- `s.GameInfo.Players = append(s.GameInfo.Players, p)`: in place while the length is
below the capacity, otherwise into a new backing array of twice the capacity (the
runtime may round the new capacity up further), the old array staying as it was. -/
def GameServer.appendPlayer (s : GameServer) (p : ProtoPlayer) : GameServer :=
  if s.GameInfo.Players.length < s.playersCap then
    { s with GameInfo := { s.GameInfo with Players := s.GameInfo.Players ++ [p] } }
  else
    { s with
      GameInfo := { s.GameInfo with Players := s.GameInfo.Players ++ [p] },
      retired := fun a => if a = s.playersArray then s.GameInfo.Players else s.retired a,
      playersArray := s.playersArray + 1,
      playersCap := max (2 * s.playersCap) (s.GameInfo.Players.length + 1) }

/-- How the part of `websocketHandler` before its loop (lines 112-133) ends. -/
inductive AcceptOutcome where
  | accepted
  | sendFailed
  | panicked
deriving DecidableEq, Repr

/-- Lines 123-127 of `websocketHandler`: append a record at a random position for the
connection `conn` of `user`, and keep a pointer to it in the map entry. -/
def GameServer.acceptRecord (s : GameServer) (conn : Nat) (user : User) :
    GameServer × PlayerPtr :=
  let (rx, r) := s.rand.Intn 14
  let (ry, r) := r.Intn 14
  let s := { s with rand := r }
  let s := s.appendPlayer { ProtoPlayer.zero with X := (rx : ℚ) * 16 + 20, Y := (ry : ℚ) * 16 + 20 }
  let ptr : PlayerPtr := ⟨s.playersArray, s.GameInfo.Players.length - 1⟩
  (s.setClient conn { user with Player := some ptr }, ptr)

/-- Lines 130-133 of `websocketHandler`: draw a palette index, give that colour to the
record behind `ptr`, move the last palette entry into the slot and cut the palette by
one. `rand.Intn` panics when its argument is 0. -/
def GameServer.drawColor (s : GameServer) (ptr : PlayerPtr) : GameServer × AcceptOutcome :=
  if s.Colors.length = 0 then (s, .panicked)
  else
    let (randColor, r) := s.rand.Intn s.Colors.length
    let s := { s with rand := r }
    match s.Colors[randColor]?, s.Colors.getLast? with
    | some c, some last =>
      let s := s.store ptr fun p => { p with Color := c }
      ({ s with Colors := (s.Colors.set randColor last).dropLast }, .accepted)
    | _, _ => (s, .panicked)

/-- Lines 112-133 of `websocketHandler` for a connection `conn` that has been
upgraded: register the user with the fresh id `uuid`, send the id (`sendFails` when
that write fails), note the address, append the record and draw its colour. -/
def GameServer.accept (s : GameServer) (conn : Nat) (uuid remoteAddr : String)
    (sendFails : Bool) : GameServer × AcceptOutcome :=
  let user : User := { Username := "", UserID := uuid, IP := "", Player := none }
  let s := s.setClient conn user
  if sendFails then (s, .sendFailed)
  else
    let user := { user with IP := remoteAddr }
    let s := s.setClient conn user
    let (s, ptr) := s.acceptRecord conn user
    s.drawColor ptr

/-- The deferred function of `websocketHandler` (lines 95-103), apart from
`conn.Close()`. -/
def GameServer.cleanup (s : GameServer) (conn : Nat) : GameServer :=
  let s :=
    match s.client conn with
    | some client =>
      match client.Player with
      | some ptr =>
        let s := s.store ptr fun p => { p with IsDead := true }
        match s.load ptr with
        | some p => { s with Colors := s.Colors ++ [p.Color] }
        | none => s
      | none => s
    | none => s
  s.deleteClient conn

/-- What one call of `conn.ReadJSON` does in the handler's loop: deliver a record,
fail with an error, or panic inside the library. -/
inductive HostRead where
  | message (p : ProtoPlayer)
  | failure (err : WsError)
  | panicked (msg : String)

/-- What one call of `conn.WriteJSON` does in the handler's loop. -/
inductive HostWrite where
  | done
  | failure (err : WsError)
  | panicked (msg : String)

/-- One iteration of the handler's loop as the outside world determines it. -/
structure HostExchange where
  read : HostRead
  write : HostWrite
  elapsed : Int

/-- What the handler does that is visible from outside. -/
inductive HostEvent where
  | readJSON
  | writeJSON (info : ProtoGameInfo)
  | sleep (ms : Nat)

/-- The read wrapped in its recovering closure (lines 148-156): a panic becomes the
error `&websocket.CloseError{Code: websocket.CloseAbnormalClosure, Text: "Connection failed"}`. -/
def HostRead.result : HostRead → Except WsError ProtoPlayer
  | .message p => .ok p
  | .failure err => .error err
  | .panicked _ => .error (.closeError CloseAbnormalClosure "Connection failed")

/-- The write wrapped in its recovering closure (lines 176-184). -/
def HostWrite.result : HostWrite → Option WsError
  | .done => none
  | .failure err => some err
  | .panicked _ => some (.closeError CloseAbnormalClosure "Connection failed")

/-- The test on an error in the handler's loop (lines 161-162 and 189-190). -/
def hostClosed (err : WsError) : Bool :=
  IsCloseError err [CloseGoingAway, CloseAbnormalClosure] ||
    IsUnexpectedCloseError err [CloseGoingAway, CloseAbnormalClosure]

/-- A run of the handler's loop against a finite script: the server at the end, what
was done, and whether the loop has been left (if not, the script ran out with the
loop still going). -/
structure HostRun where
  s : GameServer
  trace : List HostEvent
  returned : Bool

/-- The run `r` with the events `evs` put before it. -/
def HostRun.after (evs : List HostEvent) (r : HostRun) : HostRun :=
  { r with trace := evs ++ r.trace }

/-- The loop of `websocketHandler` (lines 144-200) for the connection `conn`, one
script entry per iteration. A missing map entry makes `s.clients[conn].Username`
a nil dereference; the deferred `recover` of line 138 then ends the handler. -/
def GameServer.handlerLoop (s : GameServer) (conn : Nat) : List HostExchange → HostRun
  | [] => { s := s, trace := [], returned := false }
  | ex :: rest =>
    match ex.read.result with
    | .error err =>
      if hostClosed err then { s := s, trace := [.readJSON], returned := true }
      else (GameServer.handlerLoop s conn rest).after [.readJSON, .sleep 100]
    | .ok receivedMessage =>
      match s.client conn with
      | none => { s := s, trace := [.readJSON], returned := true }
      | some user =>
        let s := s.setClient conn { user with Username := receivedMessage.Username }
        match user.Player with
        | none => { s := s, trace := [.readJSON], returned := true }
        | some ptr =>
          let s := s.store ptr fun p =>
            { p with Username := receivedMessage.Username, Control := receivedMessage.Control }
          let sent := s.GameInfo
          match ex.write.result with
          | some err =>
            if hostClosed err then
              { s := s, trace := [.readJSON, .writeJSON sent], returned := true }
            else
              let s := s.store ptr fun p => { p with Ping := ex.elapsed }
              (GameServer.handlerLoop s conn rest).after [.readJSON, .writeJSON sent, .sleep 16]
          | none =>
            let s := s.store ptr fun p => { p with Ping := ex.elapsed }
            (GameServer.handlerLoop s conn rest).after [.readJSON, .writeJSON sent, .sleep 16]

/-- The body of `websocketHandler` for an upgraded connection: `accept`, then the
loop, and once the loop is left (or `accept` did not get through) the deferred
cleanup. -/
def GameServer.websocketHandler (s : GameServer) (conn : Nat) (uuid remoteAddr : String)
    (sendFails : Bool) (script : List HostExchange) : HostRun :=
  match s.accept conn uuid remoteAddr sendFails with
  | (s, .accepted) =>
    let run := s.handlerLoop conn script
    if run.returned then { run with s := run.s.cleanup conn } else run
  | (s, _) => { s := s.cleanup conn, trace := [], returned := true }
/-- An iteration of the handler's loop whose read fails with `err`. -/
def hostReadFails (err : WsError) : HostExchange :=
  { read := .failure err, write := .done, elapsed := 0 }

/-- An iteration of the handler's loop that receives `p` and answers. -/
def hostReceives (p : ProtoPlayer) : HostExchange :=
  { read := .message p, write := .done, elapsed := 0 }

/-- Whether the library panics in the read of an iteration of the handler's loop, or
in its write after a read that delivered a record. -/
def HostExchange.panics (ex : HostExchange) : Bool :=
  match ex.read, ex.write with
  | .panicked _, _ => true
  | .message _, .panicked _ => true
  | _, _ => false

/-- A host that has accepted connection 1. -/
def oneGuestServer : GameServer :=
  ((NewGameServer ⟨fun _ => 0, 0⟩).accept 1 "id-1" "10.0.0.1:5000" false).1

/-- The handler of a new connection `conn` up to its first read: the connection is
accepted and nothing has arrived yet. -/
def GameServer.connect (s : GameServer) (conn : Nat) : GameServer :=
  (s.websocketHandler conn "id" "10.0.0.1:5000" false []).s

/-- The rest of the handler of `conn` when its next read fails with "going away"
(1001): the loop is left and the deferred cleanup runs. -/
def GameServer.disconnect (s : GameServer) (conn : Nat) : GameServer :=
  (s.handlerLoop conn [hostReadFails (.closeError CloseGoingAway "")]).s.cleanup conn

/-- A new host to which connections 1 to 7 have been accepted: the palette is used
up. -/
def fullServer : GameServer :=
  [1, 2, 3, 4, 5, 6, 7].foldl GameServer.connect (NewGameServer ⟨fun _ => 0, 0⟩)

/-- The host of `fullServer` after connection 7 has left and 8 has come, 8 has left
and 9 has come, 9 has left and 10 has come: ten records have been appended to the
one for the host. -/
def crowdedServer : GameServer :=
  (((((fullServer.disconnect 7).connect 8).disconnect 8).connect 9).disconnect 9).connect 10

/-! ## game/entities/effect.go: constructors -/

/-- `NewBombEffect`. -/
def NewBombEffect (x y : Int) : Effect := { X := x, Y := y, StatusEffect := some NewBombInc }

/-- `NewRadiusEffect`. -/
def NewRadiusEffect (x y : Int) : Effect := { X := x, Y := y, StatusEffect := some NewRadiusInc }

/-- `NewSkullDebuff`: `NewSkullDeb` draws the kind of debuff with `rand.Intn(4)`. -/
def NewSkullDebuff (x y : Int) (r : Rand) : Effect × Rand :=
  let (t, r) := r.Intn 4
  ({ X := x, Y := y, StatusEffect := some (NewSkullDeb t) }, r)

/-- `NewRollerEffect`. -/
def NewRollerEffect (x y : Int) : Effect := { X := x, Y := y, StatusEffect := some NewRollerInc }

/-- `NewObstacleEffect`. -/
def NewObstacleEffect (x y : Int) : Effect :=
  { X := x, Y := y, StatusEffect := some NewObstacleInc }

/-- `NewDetonatorEffect`. -/
def NewDetonatorEffect (x y : Int) : Effect :=
  { X := x, Y := y, StatusEffect := some NewDetonatorInc }

/-- `NewGhostEffect`. -/
def NewGhostEffect (x y : Int) : Effect := { X := x, Y := y, StatusEffect := some NewGhostInc }

/-- `NewInvincibilityEffect`. -/
def NewInvincibilityEffect (x y : Int) : Effect :=
  { X := x, Y := y, StatusEffect := some NewInvincibilityInc }

/-! ## scenes/loadLevel.go -/

/-- The decimal digits `cs` read as a number; `none` when `cs` is empty or holds
anything but digits. -/
def atoiDigits (cs : List Char) : Option Nat :=
  if cs = [] then none
  else cs.foldl (fun acc c =>
    match acc with
    | some n => if c.isDigit then some (10 * n + (c.toNat - 48)) else none
    | none => none) (some 0)

/-- `strconv.Atoi` (standard library): an optional sign and decimal digits, within
the range of a 64-bit `int`; `none` stands for a non-nil error. -/
def Atoi (s : String) : Option Int :=
  match s.data with
  | '-' :: cs =>
    match atoiDigits cs with
    | some n => if n ≤ 2 ^ 63 then some (-(n : Int)) else none
    | none => none
  | '+' :: cs =>
    match atoiDigits cs with
    | some n => if n < 2 ^ 63 then some (n : Int) else none
    | none => none
  | cs =>
    match atoiDigits cs with
    | some n => if n < 2 ^ 63 then some (n : Int) else none
    | none => none

/-- The grid branch of the loop of `LoadLevelFromTextFile` (lines 42-54): the row
made from the tokens of line `rowIndex`. -/
def loadGridRow (rowIndex : Nat) (parts : List String) : List Terrain :=
  parts.enum.map fun (colIndex, char) =>
    if char = "SOLID" then NewWall ((colIndex : Int) * 16) ((rowIndex : Int) * 16)
    else NewGrass ((colIndex : Int) * 16) ((rowIndex : Int) * 16)

/-- The `switch parts[0]` of `LoadLevelFromTextFile` (lines 66-108) for the entity
type `kind` and the parsed tile coordinates `x`, `y`; the products `x*16` and `y*16`
are taken without the wrap-around of a 64-bit `int`. -/
def loadEntity (s : GameScene) (kind : String) (x y : Int) : GameScene :=
  let xPos : Int := x * 16
  let yPos : Int := y * 16
  if kind = "PLAYER" then
    { s with players := [NewPlayer (xPos : ℚ) (xPos : ℚ)] }
  else if kind = "RADIUSINC" then
    { s with statusEffects := s.statusEffects ++ [NewRadiusEffect xPos yPos] }
  else if kind = "SKULLDEB" then
    let (e, r) := NewSkullDebuff xPos yPos s.rand
    { s with statusEffects := s.statusEffects ++ [e], rand := r }
  else if kind = "BOMBINC" then
    { s with statusEffects := s.statusEffects ++ [NewBombEffect xPos yPos] }
  else if kind = "INVINC" then
    { s with statusEffects := s.statusEffects ++ [NewInvincibilityEffect xPos yPos] }
  else if kind = "DETONATOR" then
    { s with statusEffects := s.statusEffects ++ [NewDetonatorEffect xPos yPos] }
  else if kind = "ROLLER" then
    { s with statusEffects := s.statusEffects ++ [NewRollerEffect xPos yPos] }
  else if kind = "GHOSTINC" then
    { s with statusEffects := s.statusEffects ++ [NewGhostEffect xPos yPos] }
  else if kind = "OBSTACLE" then
    { s with statusEffects := s.statusEffects ++ [NewObstacleEffect xPos yPos] }
  else if kind = "GHOST" then
    { s with monsters := s.monsters ++ [NewGhost (xPos : ℚ) (yPos : ℚ) (16 * 17) (16 * 17)] }
  else if kind = "SLIME" then
    let (m, r) := NewSlime (xPos : ℚ) (yPos : ℚ) s.rand
    { s with monsters := s.monsters ++ [m], rand := r }
  else if kind = "BALLOON" then
    let (m, r) := NewBallon (xPos : ℚ) (yPos : ℚ) s.rand
    { s with monsters := s.monsters ++ [m], rand := r }
  else if kind = "ONION" then
    let (m, r) := NewOnion (xPos : ℚ) (yPos : ℚ) s.rand
    { s with monsters := s.monsters ++ [m], rand := r }
  else if kind = "BOX" then
    { s with boxes := s.boxes ++ [NewBox xPos yPos false] }
  else s

/-- One pass of the loop of `LoadLevelFromTextFile` (lines 39-110), on the scene and
`rowIndex`, for a line given by its tokens `parts = strings.Split(line, " ")`. `none`
is an index out of range, on `parts[2]` or on `s.staticEntities[rowIndex]`. The two
`continue` statements skip `rowIndex++`. -/
def loadLine (st : GameScene × Nat) (parts : List String) : Option (GameScene × Nat) :=
  let (s, rowIndex) := st
  if rowIndex < 17 then
    if rowIndex < s.staticEntities.length then
      some ({ s with staticEntities := s.staticEntities.set rowIndex (loadGridRow rowIndex parts) },
            rowIndex + 1)
    else none
  else if parts.length < 2 then some (s, rowIndex)
  else
    match parts[1]?, parts[2]? with
    | some p1, some p2 =>
      match Atoi p1, Atoi p2 with
      | some x, some y =>
        match parts[0]? with
        | some kind => some (loadEntity s kind x y, rowIndex + 1)
        | none => none
      | _, _ => some (s, rowIndex)
    | _, _ => none

/-- The loop of `LoadLevelFromTextFile` over the lines of the file. -/
def loadLines : List (List String) → GameScene × Nat → Option (GameScene × Nat)
  | [], st => some st
  | parts :: rest, st =>
    match loadLine st parts with
    | some st => loadLines rest st
    | none => none

/-- `LoadLevelFromTextFile` on a file given by its lines, each split at the spaces;
`rand` is the global `math/rand` source. `staticEntities` starts as
`make([][]entities.Terrain, 17)`, seventeen nil rows. -/
def LoadLevelFromTextFile (lines : List (List String)) (rand : Rand) : Option GameScene :=
  let s : GameScene :=
    { staticEntities := List.replicate 17 [], bombs := [], explosions := [], boxes := [],
      statusEffects := [], playerMem := fun _ => NewPlayer 0 0, rand := rand }
  match loadLines lines (s, 0) with
  | some (s, _) => some s
  | none => none

/-- A level file of seventeen rows of five open cells, followed by the entity
lines `entityLines`. -/
def openLevel (entityLines : List (List String)) : List (List String) :=
  List.replicate 17 ["GRASS", "GRASS", "GRASS", "GRASS", "GRASS"] ++ entityLines

/-! ## scenes/multiplayerJoin.go -/

/-- The `MultiPlayerGameSceneJoin` struct; `Client.GameInfo` is the snapshot last
received, and `terrainChange` the number of log entries already replayed. -/
structure MultiPlayerGameSceneJoin extends GameScene where
  Client : GameClient
  terrainChange : Nat

/-- `NewMultiPlayerGameSceneJoin`, on the lines of the level file named by
`client.GameInfo.Level`. -/
def NewMultiPlayerGameSceneJoin (client : GameClient) (lines : List (List String))
    (rand : Rand) : Option MultiPlayerGameSceneJoin :=
  match LoadLevelFromTextFile lines rand with
  | some scene => some { toGameScene := scene, Client := client, terrainChange := 0 }
  | none => none

/-- The monster loop of `Update` (lines 65-69): the monsters that have a snapshot
entry at their index move to it. -/
def joinMoveMonsters (monsters : List Monster) (snapshot : List ProtoEntity) : List Monster :=
  monsters.enum.map fun (i, entity) =>
    match snapshot[i]? with
    | some e => entity.MoveTo e.X e.Y
    | none => entity

/-- One pass of the rebuild loop of `Update` (lines 80-99): the `switch effect.Type`
has eight cases and no default. Pickups have whole coordinates in this development;
a snapshot coordinate is cut to its integer part. -/
def joinRebuildEffect (acc : List Effect × Rand) (effect : ProtoEntity) : List Effect × Rand :=
  let (effects, r) := acc
  let x : Int := ⌊effect.X⌋
  let y : Int := ⌊effect.Y⌋
  if effect.Type_ = "SkullDebuff" then
    let (e, r) := NewSkullDebuff x y r
    (effects ++ [e], r)
  else if effect.Type_ = "BombCountIncrease" then (effects ++ [NewBombEffect x y], r)
  else if effect.Type_ = "RadiusIncrease" then (effects ++ [NewRadiusEffect x y], r)
  else if effect.Type_ = "RollerIncrease" then (effects ++ [NewRollerEffect x y], r)
  else if effect.Type_ = "ObstacleIncrease" then (effects ++ [NewObstacleEffect x y], r)
  else if effect.Type_ = "DetonatorIncrease" then (effects ++ [NewDetonatorEffect x y], r)
  else if effect.Type_ = "GhostIncrease" then (effects ++ [NewGhostEffect x y], r)
  else if effect.Type_ = "InvincibilityIncrease" then
    (effects ++ [NewInvincibilityEffect x y], r)
  else (effects, r)

/-- The position loop of `Update` (lines 102-111): a pickup moves to its snapshot
entry when it is more than half a unit away from it on an axis. -/
def joinNudgeEffects (effects : List Effect) (snapshot : List ProtoEntity) : List Effect :=
  effects.enum.map fun (i, effect) =>
    match snapshot[i]? with
    | some serverEffect =>
      if |(effect.X : ℚ) - serverEffect.X| > 0.5 ∨ |(effect.Y : ℚ) - serverEffect.Y| > 0.5 then
        { effect with X := ⌊serverEffect.X⌋, Y := ⌊serverEffect.Y⌋ }
      else effect
    | none => effect

/-- The status-effect block of `Update` (lines 72-112). -/
def joinSyncEffects (effects : List Effect) (snapshot : List ProtoEntity) (r : Rand) :
    List Effect × Rand :=
  if snapshot.length ≠ effects.length then snapshot.foldl joinRebuildEffect ([], r)
  else (joinNudgeEffects effects snapshot, r)

/-- The backward loops of `Update` (lines 130-140 and 147-157), with `i + 1` passes
to go: `for i := len(l) - 1; i >= 0; i--`, updating `l[i]` and, when it has expired,
overwriting it with the last element and dropping the last (or emptying a list of
one). `none` is an index out of range. -/
def joinSweep {α : Type} (update : α → α × Bool) : Nat → List α → Option (List α)
  | 0, l => some l
  | i + 1, l =>
    match l[i]? with
    | none => none
    | some e =>
      let l := l.set i (update e).1
      if (update e).2 then
        if l.length > 1 then
          match sliceSetToLast l i with
          | none => none
          | some l =>
            match sliceDropLast l with
            | none => none
            | some l => joinSweep update i l
        else joinSweep update i []
      else joinSweep update i l

/-- The explosions `Update` appends (lines 125-127): one for each snapshot entry from
index `len(s.explosions)` on. -/
def joinNewExplosions (explosions : List Explosion) (snapshot : List ProtoEntity) :
    List Explosion :=
  (snapshot.drop explosions.length).map fun e => NewExplosion ⌊e.X⌋ ⌊e.Y⌋

/-- The bombs `Update` appends (lines 142-144): one for each snapshot entry from index
`len(s.bombs)` on, of range 1 and without owner (written 0), at the addresses from
`bombAddr` on. -/
def joinNewBombs (bombs : List Bomb) (snapshot : List ProtoEntity) (bombAddr : Nat) :
    List Bomb :=
  (snapshot.drop bombs.length).enum.map fun (k, e) => NewBomb (bombAddr + k) 0 1 ⌊e.X⌋ ⌊e.Y⌋

/-- The player block of `Update` (lines 159-164): all players are made anew when the
counts differ. -/
def joinSyncPlayers (players : List Player) (snapshot : List ProtoPlayer) : List Player :=
  if players.length ≠ snapshot.length then snapshot.map fun v => NewPlayer v.X v.Y
  else players

/-- The body of the terrain loop of `Update` (lines 167-173) for one log entry. -/
def joinReplayStep (g : List (List Terrain)) (terrainChange : ProtoTerrainChange) :
    Option (List (List Terrain)) :=
  let inRange : Bool :=
    decide (terrainChange.X ≥ 0) && decide (terrainChange.X < g.length) &&
    decide (terrainChange.Y ≥ 0) && decide (g.length > 0) &&
    (match lenRow0 g with
     | some n => decide (terrainChange.Y < n)
     | none => false)
  if inRange then
    setTile g terrainChange.X terrainChange.Y
      (NewGrass (terrainChange.X * 16) (terrainChange.Y * 16))
  else some g

/-- The terrain loop of `Update` (lines 166-175),
`for s.terrainChange < len(s.Client.GameInfo.TerrainChanges)`, with `fuel` passes
allowed. -/
def joinReplayLoop (log : List ProtoTerrainChange) :
    Nat → List (List Terrain) → Nat → Option (List (List Terrain) × Nat)
  | fuel, g, cursor =>
    if cursor < log.length then
      match fuel with
      | 0 => none
      | fuel + 1 =>
        match log[cursor]? with
        | none => none
        | some terrainChange =>
          match joinReplayStep g terrainChange with
          | none => none
          | some g => joinReplayLoop log fuel g (cursor + 1)
    else some (g, cursor)

/-- The terrain loop of `Update` with as many passes as there are entries from the
cursor on. -/
def joinTerrainReplay (g : List (List Terrain)) (cursor : Nat)
    (log : List ProtoTerrainChange) : Option (List (List Terrain) × Nat) :=
  joinReplayLoop log (log.length - cursor) g cursor

/-- `MultiPlayerGameSceneJoin.Update` (lines 51-178) for the controls `input` read
from the input devices; `bombAddr` is the first free address for new bombs. The
change of scene at the end of a game, the animation step of the pickups and the
colour overlay of the players are outside the modelled state. -/
def MultiPlayerGameSceneJoin.Update (s : MultiPlayerGameSceneJoin) (input : PlayerControls)
    (bombAddr : Nat) : Option MultiPlayerGameSceneJoin :=
  let info := s.Client.GameInfo
  let client : GameClient := { s.Client with Player := { s.Client.Player with Control := input } }
  let monsters := joinMoveMonsters s.monsters info.Monsters
  let (statusEffects, rand) := joinSyncEffects s.statusEffects info.StatusEffects s.rand
  let explosions := s.explosions ++ joinNewExplosions s.explosions info.Explosions
  match joinSweep Explosion.Update explosions.length explosions with
  | none => none
  | some explosions =>
    let bombs := s.bombs ++ joinNewBombs s.bombs info.Bombs bombAddr
    match joinSweep Bomb.Update bombs.length bombs with
    | none => none
    | some bombs =>
      let players := joinSyncPlayers s.players info.Players
      match joinTerrainReplay s.staticEntities s.terrainChange info.TerrainChanges with
      | none => none
      | some (staticEntities, terrainChange) =>
        some { s with
          Client := client, monsters := monsters, statusEffects := statusEffects,
          rand := rand, explosions := explosions, bombs := bombs, players := players,
          staticEntities := staticEntities, terrainChange := terrainChange }
/-- The scene after the client's goroutine has stored a received snapshot in
`Client.GameInfo`. -/
def MultiPlayerGameSceneJoin.receive (s : MultiPlayerGameSceneJoin) (info : ProtoGameInfo) :
    MultiPlayerGameSceneJoin :=
  { s with Client := { s.Client with GameInfo := info } }

/-- What one client tick meets: the snapshot held at that moment, the controls, and
the first free address for new bombs. -/
structure JoinFrame where
  info : ProtoGameInfo
  input : PlayerControls
  bombAddr : Nat

/-- Client ticks in a row, each on the snapshot of its frame. -/
def joinTicks : List JoinFrame → MultiPlayerGameSceneJoin → Option MultiPlayerGameSceneJoin
  | [], s => some s
  | f :: rest, s =>
    match (s.receive f.info).Update f.input f.bombAddr with
    | some s => joinTicks rest s
    | none => none

/-- Replaying one log entry, in the words of the specification: if the grid has a
tile at the entry's coordinates, that tile is replaced with grass; otherwise the grid
stays as it is. -/
def grassAt (g : List (List Terrain)) (c : ProtoTerrainChange) : List (List Terrain) :=
  match tileAt g c.X c.Y with
  | some _ =>
    g.set c.X.toNat ((g.getD c.X.toNat []).set c.Y.toNat (NewGrass (c.X * 16) (c.Y * 16)))
  | none => g

/-- The grid after each entry of `log` has been replayed once, in order. -/
def grassAtAll (g : List (List Terrain)) (log : List ProtoTerrainChange) :
    List (List Terrain) :=
  log.foldl grassAt g

/-- A snapshot of a running game that holds nothing but the terrain log `log`. -/
def logOnly (log : List ProtoTerrainChange) : ProtoGameInfo :=
  { emptyGameInfo with TerrainChanges := log }

/-- The scene `NewMultiPlayerGameSceneJoin` makes for `guestClient` from the level file
`openLevel []`: seventeen rows of five grass tiles and no actors. -/
def openJoinScene : MultiPlayerGameSceneJoin :=
  { staticEntities := (List.range 17).map fun rowIndex =>
      loadGridRow rowIndex ["GRASS", "GRASS", "GRASS", "GRASS", "GRASS"],
    bombs := [], explosions := [], boxes := [], statusEffects := [],
    playerMem := fun _ => NewPlayer 0 0, rand := ⟨fun _ => 0, 0⟩,
    Client := guestClient, terrainChange := 0 }

/-- A level file of two lines, the second shorter than the first. -/
def jaggedLevel : List (List String) := [["GRASS", "GRASS"], ["GRASS"]]

/-- The eight type names for which the client's rebuild loop has a case. -/
def knownEffectTypes : List String :=
  ["SkullDebuff", "BombCountIncrease", "RadiusIncrease", "RollerIncrease", "ObstacleIncrease",
   "DetonatorIncrease", "GhostIncrease", "InvincibilityIncrease"]

/-- A snapshot with one player, one monster, one bomb, one explosion, one box and one
bomb-count pickup. -/
def oneOfEachSnapshot : ProtoGameInfo :=
  { emptyGameInfo with
    Players := [{ ProtoPlayer.zero with Username := "guest", X := 20, Y := 20 }],
    Monsters := [{ ProtoEntity.at 16 16 with Type_ := "Ghost" }],
    Bombs := [ProtoEntity.at 32 32],
    Explosions := [ProtoEntity.at 32 48],
    Boxes := [ProtoEntity.at 48 48],
    StatusEffects := [{ ProtoEntity.at 64 64 with Type_ := "BombCountIncrease" }] }

/-! ## game/entities/explosion.go: successive updates -/

/-- The flags returned by `n` successive calls of `Explosion.Update` on the same
explosion, in call order. -/
def Explosion.updateResults : Nat → Explosion → List Bool
  | 0, _ => []
  | n + 1, e => (e.Update).2 :: Explosion.updateResults n (e.Update).1

/-! ## scenes/sceneManager.go -/

/-- `transitionMaxCount`. -/
def transitionMaxCount : Int := 20

/-- The `sceneManager` struct without its two images; `Scene` is the type of the
scenes it manages, `none` a nil scene. -/
structure sceneManager (Scene : Type) where
  current : Option Scene
  next : Option Scene
  transitionCount : Int

/-- `NewSceneManager`. -/
def NewSceneManager (Scene : Type) : sceneManager Scene :=
  { current := none, next := none, transitionCount := 0 }

/-- `sceneManager.GoTo`. -/
def sceneManager.GoTo {Scene : Type} (s : sceneManager Scene) (scene : Scene) :
    sceneManager Scene :=
  match s.current with
  | none => { s with current := some scene }
  | some _ => { s with next := some scene, transitionCount := transitionMaxCount }

/-- `sceneManager.Update`. The call `s.current.Update(...)` is given by `sceneUpdate`:
the scene as the call leaves it, and the scenes the call passes to `GoTo` of this
manager, in order. `none` is the nil dereference of a call on a nil `current`. -/
def sceneManager.Update {Scene : Type} (sceneUpdate : Scene → Scene × List Scene)
    (s : sceneManager Scene) : Option (sceneManager Scene) :=
  if s.transitionCount = 0 then
    match s.current with
    | none => none
    | some scene =>
      some ((sceneUpdate scene).2.foldl sceneManager.GoTo
        { s with current := some (sceneUpdate scene).1 })
  else
    let s := { s with transitionCount := s.transitionCount - 1 }
    if s.transitionCount > 0 then some s
    else some { s with current := s.next, next := none }

/-- The manager after `n` successive calls of `sceneManager.Update`. -/
def sceneManager.Updates {Scene : Type} (sceneUpdate : Scene → Scene × List Scene) :
    Nat → sceneManager Scene → Option (sceneManager Scene)
  | 0, s => some s
  | n + 1, s =>
    match s.Update sceneUpdate with
    | some s => sceneManager.Updates sceneUpdate n s
    | none => none

/-- The `mockScene` of `sceneManager_test.go`. -/
structure mockScene where
  updated : Bool
  drawn : Bool
deriving DecidableEq, Repr

/-- `mockScene.Update`, which calls no `GoTo`. -/
def mockScene.Update (m : mockScene) : mockScene × List mockScene :=
  ({ m with updated := true }, [])

/-! ## scenes/gameScene.go: explosion propagation (lines 144-175) -/

/-- Condition of the first loop of the single-player tick,
`y+j < len(s.staticEntities) && (s.staticEntities[x][y+j].IsDestroyable() || ...)`; `none`
is an index out of range. -/
def singleCondDown (g : List (List Terrain)) (x y j : Int) : Option Bool :=
  if y + j < g.length then
    match tileAt g x (y + j) with
    | none => none
    | some t => some t.letsExplosionThrough
  else some false

/-- Condition of the second loop (`y-j >= 0 && ...`). -/
def singleCondUp (g : List (List Terrain)) (x y j : Int) : Option Bool :=
  if y - j ≥ 0 then
    match tileAt g x (y - j) with
    | none => none
    | some t => some t.letsExplosionThrough
  else some false

/-- Condition of the third loop (`x+j < len(s.staticEntities) && ...`). -/
def singleCondRight (g : List (List Terrain)) (x y j : Int) : Option Bool :=
  if x + j < g.length then
    match tileAt g (x + j) y with
    | none => none
    | some t => some t.letsExplosionThrough
  else some false

/-- Condition of the fourth loop (`x-j >= 0 && ...`). -/
def singleCondLeft (g : List (List Terrain)) (x y j : Int) : Option Bool :=
  if x - j ≥ 0 then
    match tileAt g (x - j) y with
    | none => none
    | some t => some t.letsExplosionThrough
  else some false

/-- Everything a detonation on tile `(x, y)` appends to `s.explosions` in the
single-player tick: the centre, then the four loops in source order. The loops have
the shape of the host's (`hostAxisLoop`) and append the same explosions; only the
conditions differ. -/
def singleSpawnExplosions (g : List (List Terrain)) (x y range : Int) :
    Option (List Explosion) :=
  match hostAxisLoop (singleCondDown g x y) (fun j => NewExplosion (x * 16) ((y + j) * 16))
      range.toNat 1 [] with
  | none => none
  | some down =>
    match hostAxisLoop (singleCondUp g x y) (fun j => NewExplosion (x * 16) ((y - j) * 16))
        range.toNat 1 [] with
    | none => none
    | some up =>
      match hostAxisLoop (singleCondRight g x y) (fun j => NewExplosion ((x + j) * 16) (y * 16))
          range.toNat 1 [] with
      | none => none
      | some right =>
        match hostAxisLoop (singleCondLeft g x y) (fun j => NewExplosion ((x - j) * 16) (y * 16))
            range.toNat 1 [] with
        | none => none
        | some left => some (NewExplosion (x * 16) (y * 16) :: (down ++ up ++ right ++ left))

/-! ## scenes/gameScene.go: bomb loop (lines 142-187) -/

/-- The state of the loop `for i, bomb := range s.bombs`. The range expression is
evaluated once, so the loop visits the slots the slice had when it started and reads
slot `i` of the backing array in pass `i`; `slots` are those slots, and `s.bombs` is
at any moment their first `len`. -/
structure SingleBombLoop where
  scene : GameScene
  slots : List Bomb
  len : Nat

/-- The body of `if bomb.Update() { ... }` in pass `i`, for the bomb `bomb` read from
slot `i`: spawn the explosions, `s.bombs[i].Owner.NumberOfBombs++`, and the
swap-remove `if i < len(s.bombs)-1 { s.bombs[i] = s.bombs[len(s.bombs)-1] }`,
`s.bombs = s.bombs[:len(s.bombs)-1]`. `none` is an index out of range. -/
def singleDetonate (st : SingleBombLoop) (i : Nat) (bomb : Bomb) : Option SingleBombLoop :=
  let (x, y) := bomb.TilePosition
  match singleSpawnExplosions st.scene.staticEntities x y bomb.ExplosionRange with
  | none => none
  | some spawned =>
    if i < st.len then
      match st.slots[i]?, st.slots[st.len - 1]? with
      | some atI, some last =>
        some { scene := { st.scene with
                 explosions := st.scene.explosions ++ spawned,
                 playerMem := incNumberOfBombs st.scene.playerMem atI.Owner },
               slots := if i + 1 < st.len then st.slots.set i last else st.slots,
               len := st.len - 1 }
      | _, _ => none
    else none

/-- The passes `i`, `i + 1`, ... of the loop, `fuel` of them. A slot holds a pointer:
`bomb.Update()` changes the bomb itself, so every slot that points to the same bomb
(the same `addr`) shows it updated. -/
def singleBombLoop : Nat → Nat → SingleBombLoop → Option SingleBombLoop
  | 0, _, st => some st
  | fuel + 1, i, st =>
    match st.slots[i]? with
    | none => none
    | some bomb =>
      let r := bomb.Update
      let st := { st with slots := st.slots.map fun c => if c.addr = bomb.addr then r.1 else c }
      if r.2 then
        match singleDetonate st i r.1 with
        | none => none
        | some st => singleBombLoop fuel (i + 1) st
      else singleBombLoop fuel (i + 1) st

/-- Lines 142-187 of `GameScene.Update`: the loop over the `len(s.bombs)` slots, and
`s.bombs` as it leaves them. -/
def singleBombPhase (s : GameScene) : Option GameScene :=
  match singleBombLoop s.bombs.length 0 { scene := s, slots := s.bombs, len := s.bombs.length } with
  | none => none
  | some st => some { st.scene with bombs := st.slots.take st.len }

/-- The calls `b.Detonate()` of `Player.Update` on the bombs at the addresses
`addrs`. -/
def detonateBombs (addrs : List Nat) (bombs : List Bomb) : List Bomb :=
  bombs.map fun b => if b.addr ∈ addrs then b.Detonate else b

/-- `entity.TilePosition` of a terrain tile. -/
def Terrain.TilePosition (t : Terrain) : Int × Int := (t.X / 16, t.Y / 16)
/-- A level file of seventeen rows of five cells, all open except the second cell of
the first row. -/
def cornerWallLevel : List (List String) :=
  ["GRASS", "SOLID", "GRASS", "GRASS", "GRASS"] ::
    List.replicate 16 ["GRASS", "GRASS", "GRASS", "GRASS", "GRASS"]

/-- A level file of seventeen rows of twenty open cells. -/
def wideLevel : List (List String) :=
  List.replicate 17 (List.replicate 20 "GRASS")

/-- A player at address 0 who holds the detonator effect, has placed two bombs, at
addresses 10 and 11, and presses ability two. -/
def detonatorPlayer : Player :=
  { NewPlayer 20 20 with
    State := some NewDetonatorInc, NumberOfBombs := 0, manualDetonateBombs := [10, 11],
    Control := ⟨false, false, false, false, false, true⟩ }

/-- A single-player scene on the map of `openLevel []` with `detonatorPlayer` and the
two manual bombs, on tiles (1,1) and (3,1). -/
def twoManualBombsScene : GameScene :=
  { staticEntities := openJoinScene.staticEntities,
    bombs := [{ NewBomb 10 0 2 16 16 with manualDetonate := true },
              { NewBomb 11 0 2 48 16 with manualDetonate := true }],
    explosions := [], boxes := [], statusEffects := [],
    playerMem := fun _ => detonatorPlayer, rand := ⟨fun _ => 0, 0⟩,
    players := [detonatorPlayer] }

/-! ## scenes/multiplayerHost.go: players loop (lines 103-190) -/

/-- The host scene together with the memory of `s.players`. Bombs keep pointers to
their owners (`Bomb.Owner`, an address in `playerMem`), and the owners are elements
of the slice `s.players`; so the elements of that slice are kept in `playerMem`, at
the addresses `playersBase`, ..., `playersBase + playersLen - 1`, in a backing array
of capacity `playersCap`. `heapTop` is the first address not yet handed out to a
backing array, `nextBomb` the address of the next bomb. The list field `players` is
not used on the host. -/
structure HostWorld extends MultiPlayerGameSceneHost where
  playersBase : Nat
  playersLen : Nat
  playersCap : Nat
  heapTop : Nat
  nextBomb : Nat

/-- The address of `s.players[i]`; `none` is an index out of range. -/
def HostWorld.playerAddr (w : HostWorld) (i : Nat) : Option Nat :=
  if i < w.playersLen then some (w.playersBase + i) else none

/-- The element `s.players[i]`. -/
def HostWorld.player (w : HostWorld) (i : Nat) : Option Player :=
  match w.playerAddr i with
  | some a => some (w.playerMem a)
  | none => none

/-- A write to the player object at address `a`. -/
def writePlayer (mem : Nat → Player) (a : Nat) (p : Player) : Nat → Player :=
  fun b => if b = a then p else mem b

/-- `s.players = append(s.players, p)`: in place while the length is below the
capacity; otherwise the elements are copied into a new backing array of twice the
capacity (at least one more than the length), at the addresses from `heapTop` on,
and the old array stays where it was, with its contents. -/
def HostWorld.appendPlayer (w : HostWorld) (p : Player) : HostWorld :=
  if w.playersLen < w.playersCap then
    { w with
      playerMem := writePlayer w.playerMem (w.playersBase + w.playersLen) p,
      playersLen := w.playersLen + 1 }
  else
    let newCap := max (2 * w.playersCap) (w.playersLen + 1)
    { w with
      playerMem := fun a =>
        if w.heapTop ≤ a ∧ a < w.heapTop + w.playersLen then
          w.playerMem (w.playersBase + (a - w.heapTop))
        else if a = w.heapTop + w.playersLen then p
        else w.playerMem a,
      playersBase := w.heapTop,
      playersLen := w.playersLen + 1,
      playersCap := newCap,
      heapTop := w.heapTop + newCap }

/-- An entry of `playerCollision`, by the type of `collision.Other.GetParent()`; `sepX`
and `sepY` are the separating vector. For a pickup, `statusEffect` is the effect of
the pickup collided with and `found` the indices `j` of `s.statusEffects` whose
collider is the colliding shape. The collision library is not part of the
repository; its answers are inputs. -/
inductive Collision where
  | nil
  | bomb (sepX sepY : ℚ)
  | explosion
  | box (sepX sepY : ℚ)
  | effect (statusEffect : Option StatusEffect) (found : List Nat)
  | terrain (solid : Bool) (sepX sepY : ℚ)
  | monster

/-- `s.players[i].GetCollider().Move(sepX, sepY)`. -/
def Player.moveBy (p : Player) (sepX sepY : ℚ) : Player :=
  { p with X := p.X + sepX, Y := p.Y + sepY }

/-- The removal loop of the pickup case (lines 166-176) over the sorted indices; `none`
is an index out of range. -/
def hostRemoveEffects : List Nat → MultiPlayerGameSceneHost → Option MultiPlayerGameSceneHost
  | [], s => some s
  | index :: rest, s =>
    if index < s.statusEffects.length ∧ index < s.GameInfo.StatusEffects.length then
      match swapRemoveBoth s.statusEffects s.GameInfo.StatusEffects index with
      | some (es, ps) =>
        hostRemoveEffects rest
          { s with statusEffects := es, GameInfo := { s.GameInfo with StatusEffects := ps } }
      | none => none
    else hostRemoveEffects rest s

/-- The indices `found` in descending order, as `sort.Sort(sort.Reverse(...))` leaves
them. -/
def sortReverse (found : List Nat) : List Nat :=
  found.insertionSort fun a b => b ≤ a

/-- The writes `s.Server.GameInfo.Players[i].IsDead = true`; `none` is an index out of
range. -/
def markDead (players : List ProtoPlayer) (i : Nat) : Option (List ProtoPlayer) :=
  match players[i]? with
  | some r => some (players.set i { r with IsDead := true })
  | none => none

/-- The body of the collision loop (lines 137-186) for player `i`, whose object is at
address `a`. -/
def hostCollide (w : HostWorld) (i a : Nat) (c : Collision) : Option HostWorld :=
  let p := w.playerMem a
  match c with
  | .nil => some w
  | .bomb sepX sepY =>
    if !(p.stateIs "GhostIncrease") then
      some { w with playerMem := writePlayer w.playerMem a (p.moveBy sepX sepY) }
    else some w
  | .explosion =>
    if !(p.stateIs "InvincibilityIncrease") then
      match markDead w.GameInfo.Players i with
      | some ps => some { w with GameInfo := { w.GameInfo with Players := ps } }
      | none => none
    else some w
  | .box sepX sepY =>
    if !(p.stateIs "GhostIncrease") then
      some { w with playerMem := writePlayer w.playerMem a (p.moveBy sepX sepY) }
    else some w
  | .effect statusEffect found =>
    let state := found.foldl (fun st j =>
      match w.statusEffects[j]? with
      | some e => e.StatusEffect
      | none => st) statusEffect
    let w := { w with playerMem := writePlayer w.playerMem a { p with State := state } }
    match hostRemoveEffects (sortReverse found) w.toMultiPlayerGameSceneHost with
    | some s => some { w with toMultiPlayerGameSceneHost := s }
    | none => none
  | .terrain solid sepX sepY =>
    if solid then
      some { w with playerMem := writePlayer w.playerMem a (p.moveBy sepX sepY) }
    else some w
  | .monster =>
    if !(p.stateIs "InvincibilityIncrease") then
      match markDead w.GameInfo.Players i with
      | some ps => some { w with GameInfo := { w.GameInfo with Players := ps } }
      | none => none
    else some w

/-- The collision loop (lines 136-187). -/
def hostCollisions (i a : Nat) : List Collision → HostWorld → Option HostWorld
  | [], w => some w
  | c :: rest, w =>
    match hostCollide w i a c with
    | some w => hostCollisions i a rest w
    | none => none

/-- The pass of the players loop for index `i` and the record `v` read from
`s.Server.GameInfo.Players[i]` (lines 104-190); `collisions` is what
`CheckCollisions` answers for this player. `none` is an index out of range. -/
def hostPlayerPass (w : HostWorld) (i : Nat) (v : ProtoPlayer) (collisions : List Collision) :
    Option HostWorld :=
  if v.IsDead then some w
  else
    match w.playerAddr i with
    | none => none
    | some a0 =>
      let w := { w with playerMem := writePlayer w.playerMem a0 { w.playerMem a0 with Control := v.Control } }
      let w :=
        if w.GameInfo.Players.length > w.playersLen then w.appendPlayer (NewPlayer v.X v.Y)
        else w
      match w.playerAddr i with
      | none => none
      | some a =>
        let u := (w.playerMem a).Update a w.nextBomb
        let w := { w with
          playerMem := writePlayer w.playerMem a u.player,
          bombs := detonateBombs u.detonated w.bombs }
        let w :=
          match u.bomb with
          | some newBomb =>
            { w with
              bombs := w.bombs ++ [newBomb],
              GameInfo := { w.GameInfo with Bombs := w.GameInfo.Bombs ++ [ProtoEntity.at newBomb.X newBomb.Y] },
              nextBomb := w.nextBomb + 1 }
          | none => w
        let w :=
          match u.box with
          | some newBox =>
            { w with
              boxes := w.boxes ++ [newBox],
              GameInfo := { w.GameInfo with Boxes := w.GameInfo.Boxes ++ [ProtoEntity.at newBox.X newBox.Y] } }
          | none => w
        match hostCollisions i a collisions w with
        | none => none
        | some w =>
          match w.GameInfo.Players[i]? with
          | none => none
          | some r =>
            some { w with
              GameInfo := { w.GameInfo with
                Players := w.GameInfo.Players.set i
                  { r with X := (w.playerMem a).X, Y := (w.playerMem a).Y } } }

/-- The loop `for i, v := range s.Server.GameInfo.Players` from index `i` on, `fuel`
passes: the range visits the records the slice had when the loop started, and reads
record `i` in pass `i`. -/
def hostPlayersFrom (collisions : Nat → List Collision) :
    Nat → Nat → HostWorld → Option HostWorld
  | 0, _, w => some w
  | fuel + 1, i, w =>
    match w.GameInfo.Players[i]? with
    | none => none
    | some v =>
      match hostPlayerPass w i v (collisions i) with
      | some w => hostPlayersFrom collisions fuel (i + 1) w
      | none => none

/-- Lines 67-72 of `MultiPlayerGameSceneHost.Update`: the host's input is written into
`s.Server.GameInfo.Players[0].Control`; `none` is the index out of range. -/
def hostControls (info : ProtoGameInfo) (input : PlayerControls) : Option ProtoGameInfo :=
  match info.Players[0]? with
  | some r => some { info with Players := info.Players.set 0 { r with Control := input } }
  | none => none

/-- `MultiPlayerGameSceneHost.Update` without its loops over monsters, boxes and
pickups (lines 75-101, which have no pass while the scene has none of them) and
without the change of scene at the end of a round (62-64): the host's input (lines
67-72), the players loop (103-190), then the bomb loop, the explosion loop and the
round-end check (192-301). `input` is what the keyboard reports this tick and
`collisions i` what the collision space answers for player `i`. -/
def hostTick (w : HostWorld) (input : PlayerControls) (collisions : Nat → List Collision) :
    Option HostWorld :=
  match hostControls w.GameInfo input with
  | none => none
  | some info =>
    let w := { w with GameInfo := info }
    match hostPlayersFrom collisions w.GameInfo.Players.length 0 w with
    | none => none
    | some w =>
      match hostUpdateWorld w.toMultiPlayerGameSceneHost with
      | none => none
      | some s => some { w with toMultiPlayerGameSceneHost := s }

/-- `GameServer.websocketHandler`, lines 123-126, as the host scene sees it: a
participant connects and a record with the drawn position is appended to
`GameInfo.Players`, which the scene reads through `s.Server`. -/
def hostAccept (w : HostWorld) (x y : ℚ) : HostWorld :=
  { w with
    GameInfo := { w.GameInfo with
      Players := w.GameInfo.Players ++ [{ ProtoPlayer.zero with X := x, Y := y }] } }

/-- What happens to a hosted round, in order: a tick of the host scene, or a
participant connecting between two ticks. -/
inductive HostStep where
  | tick (input : PlayerControls) (collisions : Nat → List Collision)
  | accept (x y : ℚ)

/-- The host world after the given steps. -/
def hostRun : List HostStep → HostWorld → Option HostWorld
  | [], w => some w
  | .tick input collisions :: rest, w =>
    match hostTick w input collisions with
    | some w => hostRun rest w
    | none => none
  | .accept x y :: rest, w => hostRun rest (hostAccept w x y)

/-- `NewMultiPlayerGameSceneHost` on a loaded level and the server's `GameInfo`. The
loader leaves `s.players` empty or with one player, in a slice of that capacity; with
none, the host's player is appended at (1, 1), which reads
`s.Server.GameInfo.Players[0].Color`. The players are laid out in `playerMem` from
address 0. `none` is an index out of range (no record for the host, or a level
without rows) or a pickup without effect. -/
def NewMultiPlayerGameSceneHost (scene : GameScene) (info : ProtoGameInfo) : Option HostWorld :=
  let players : Option (List Player) :=
    if scene.players.length = 0 then
      match info.Players[0]? with
      | some _ => some (scene.players ++ [NewPlayer 1 1])
      | none => none
    else some scene.players
  match players, scene.staticEntities[0]? with
  | some players, some _ =>
    let effects : Option (List ProtoEntity) :=
      scene.statusEffects.mapM fun e =>
        match e.StatusEffect with
        | some st =>
          some { X := (e.X : ℚ), Y := (e.Y : ℚ), IsDead := false, Type_ := st.GetName,
                 CurrentAnimation := "" }
        | none => none
    match effects with
    | some effects =>
      some
        { scene with
          playerMem := fun a =>
            match players[a]? with
            | some p => p
            | none => scene.playerMem a,
          players := [],
          GameInfo := { info with
            GameState := GameStateRunning,
            Monsters := List.replicate scene.monsters.length (ProtoEntity.at 0 0),
            Boxes := List.replicate scene.boxes.length (ProtoEntity.at 0 0),
            StatusEffects := effects },
          playersBase := 0,
          playersLen := players.length,
          playersCap := players.length,
          heapTop := players.length,
          nextBomb := 0 }
    | none => none
  | _, _ => none

/-- No key pressed. -/
def noKeys : PlayerControls := ⟨false, false, false, false, false, false⟩

/-- The bomb key (ability one) just pressed. -/
def bombKey : PlayerControls := ⟨false, false, false, false, true, false⟩

/-- The down and right keys held. -/
def downRightKeys : PlayerControls := ⟨false, true, false, true, false, false⟩

/-- A hosted round on the open level (no monsters, boxes or pickups) with the host as
only participant. -/
def hostAloneWorld : Option HostWorld :=
  match LoadLevelFromTextFile (openLevel []) ⟨fun _ => 0, 0⟩ with
  | some scene =>
    NewMultiPlayerGameSceneHost scene { emptyGameInfo with Players := [ProtoPlayer.zero] }
  | none => none

/-- The host presses the bomb key in the first tick and walks down and right for
sixty ticks, to (37, 37), off the row and the column of the bomb. No collision is
reported. -/
def placeAndWalkSteps : List HostStep :=
  [HostStep.tick bombKey fun _ => []]
    ++ List.replicate 60 (HostStep.tick downRightKeys fun _ => [])

/-- `n` ticks with no key pressed and no collision. -/
def idleSteps (n : Nat) : List HostStep :=
  List.replicate n (HostStep.tick noKeys fun _ => [])

/-- The round of `hostAloneWorld` in which, after `placeAndWalkSteps`, a participant
connects, with its record at (36, 36), and `n` idle ticks follow. -/
def lateJoinWorld (n : Nat) : Option HostWorld :=
  hostAloneWorld.bind (hostRun (placeAndWalkSteps ++ [HostStep.accept 36 36] ++ idleSteps n))

/-- The same round without the participant connecting. -/
def noJoinWorld (n : Nat) : Option HostWorld :=
  hostAloneWorld.bind (hostRun (placeAndWalkSteps ++ idleSteps n))

/-- What the claim counts for the player at index `i`: `NumberOfBombs` of
`s.players[i]` and the number of bombs in `s.bombs`. -/
def bombAllowance (w : HostWorld) (i : Nat) : Option (Int × Nat) :=
  match w.player i with
  | some p => some (p.NumberOfBombs, w.bombs.length)
  | none => none

/-! ## Proof vocabulary: the terrain across a host tick -/

/-- No tile of the grid is destroyable. -/
def NoDestroyable (g : List (List Terrain)) : Prop :=
  ∀ row ∈ g, ∀ t ∈ row, t.IsDestroyable = false

instance (g : List (List Terrain)) : Decidable (NoDestroyable g) := by
  unfold NoDestroyable
  exact inferInstance

/-- What a piece of the host tick does to the terrain: the log of terrain changes
only grows at its end, and while no tile is destroyable neither the grid nor the log
changes. -/
def TerrainFrame (s s1 : MultiPlayerGameSceneHost) : Prop :=
  s.GameInfo.TerrainChanges <+: s1.GameInfo.TerrainChanges ∧
  (NoDestroyable s.staticEntities →
    s1.staticEntities = s.staticEntities ∧
    s1.GameInfo.TerrainChanges = s.GameInfo.TerrainChanges)

/-- The explosion `e` lies on a destroyable tile of the grid `g`, read as the host
reads it. -/
def onDestroyable (g : List (List Terrain)) (e : Explosion) : Bool :=
  match tileAt g e.TilePosition.1 e.TilePosition.2 with
  | some t => t.IsDestroyable
  | none => false

/-! # Theorems -/

/-! ## Bomb fuse -/

theorem Bomb.updateResults_of_fuse (n : Nat) :
    ∀ b : Bomb, b.manualDetonate = false → (n : Int) < b.time →
      Bomb.updateResults n b = List.replicate n false ∧
      (Bomb.afterUpdates n b).time = b.time - n ∧
      (Bomb.afterUpdates n b).manualDetonate = false := by
  induction n with
  | zero => intro b hm _; simp [Bomb.updateResults, Bomb.afterUpdates, hm]
  | succ n ih =>
    intro b hm ht
    have hstep : b.Update = ({ b with time := b.time - 1 }, decide (b.time - 1 ≤ 0)) := by
      simp [Bomb.Update, hm]
    have hpos : ¬ (b.time - 1 ≤ 0) := by push_cast at ht; omega
    have h := ih { b with time := b.time - 1 } hm (by push_cast at ht; show (n : Int) < b.time - 1; omega)
    simp only [Bomb.updateResults, Bomb.afterUpdates, hstep, List.replicate_succ]
    refine ⟨?_, ?_, h.2.2⟩
    · simp [h.1, hpos]
    · rw [h.2.1]; push_cast; ring

theorem Bomb.updateResults_append (m n : Nat) (b : Bomb) :
    Bomb.updateResults (m + n) b
      = Bomb.updateResults m b ++ Bomb.updateResults n (Bomb.afterUpdates m b) := by
  induction m generalizing b with
  | zero => simp [Bomb.updateResults, Bomb.afterUpdates]
  | succ m ih =>
    have : m + 1 + n = (m + n) + 1 := by omega
    rw [this]
    simp [Bomb.updateResults, Bomb.afterUpdates, ih]

/-- C1: a bomb made by `NewBomb` answers `false` to each of the first 179 calls of
`Bomb.Update` and `true` to the 180th. -/
theorem NewBomb_update_fuse (addr Owner : Nat) (ExplosionRange x y : Int) :
    Bomb.updateResults 180 (NewBomb addr Owner ExplosionRange x y)
      = List.replicate 179 false ++ [true] := by
  obtain ⟨h1, h2, h3⟩ := Bomb.updateResults_of_fuse 179 (NewBomb addr Owner ExplosionRange x y) rfl
    (by show ((179 : Nat) : Int) < 180; decide)
  have ht : (Bomb.afterUpdates 179 (NewBomb addr Owner ExplosionRange x y)).time = 1 := by
    rw [h2]; show (180 : Int) - (179 : Nat) = 1; decide
  have hlast : Bomb.updateResults 1 (Bomb.afterUpdates 179 (NewBomb addr Owner ExplosionRange x y))
      = [true] := by
    simp [Bomb.updateResults, Bomb.Update, h3, ht]
  have hsplit := Bomb.updateResults_append 179 1 (NewBomb addr Owner ExplosionRange x y)
  rw [h1, hlast] at hsplit
  exact hsplit

/-! ## Status effects -/

theorem StatusEffect.holdsThenResets_of_step (e : StatusEffect) (p : Player) (d : Nat)
    (modified baseline : Player → Prop) (good : StatusEffect → Prop)
    (h0 : good e) (hd : e.duration = d) (hd1 : 1 ≤ d)
    (hstep : ∀ (e1 : StatusEffect) (q : Player), good e1 →
      good (e1.Update q).1 ∧ (e1.Update q).1.duration = e1.duration - 1 ∧
      (e1.Update q).2.2 = decide (e1.duration - 1 ≤ 0) ∧
      (0 < e1.duration - 1 → modified (e1.Update q).2.1) ∧
      (e1.duration - 1 ≤ 0 → baseline (e1.Update q).2.1)) :
    e.HoldsThenResets p d modified baseline := by
  have hinv : ∀ k : Nat, good (e.calls p k).1 ∧ (e.calls p k).1.duration = d - k := by
    intro k
    induction k with
    | zero => simpa [StatusEffect.calls] using ⟨h0, hd⟩
    | succ k ih =>
      obtain ⟨hg, hdur, -, -, -⟩ := hstep (e.calls p k).1 (e.calls p k).2.1 ih.1
      refine ⟨hg, ?_⟩
      show ((e.calls p k).1.Update (e.calls p k).2.1).1.duration = _
      rw [hdur, ih.2]; push_cast; ring
  have hcall : ∀ k : Nat,
      (e.calls p (k + 1)).2.2 = decide ((d : Int) - (k + 1 : Nat) ≤ 0) ∧
      (0 < (d : Int) - (k + 1 : Nat) → modified (e.calls p (k + 1)).2.1) ∧
      ((d : Int) - (k + 1 : Nat) ≤ 0 → baseline (e.calls p (k + 1)).2.1) := by
    intro k
    obtain ⟨-, -, hflag, hmod, hbase⟩ := hstep (e.calls p k).1 (e.calls p k).2.1 (hinv k).1
    rw [(hinv k).2] at hflag hmod hbase
    have hk : (d : Int) - (k : Nat) - 1 = (d : Int) - (k + 1 : Nat) := by push_cast; ring
    rw [hk] at hflag hmod hbase
    exact ⟨hflag, hmod, hbase⟩
  refine ⟨?_, ?_, ?_⟩
  · intro k hk1 hkd
    obtain ⟨k, rfl⟩ : ∃ j, k = j + 1 := ⟨k - 1, by omega⟩
    obtain ⟨hflag, hmod, -⟩ := hcall k
    have hpos : 0 < (d : Int) - (k + 1 : Nat) := by omega
    refine ⟨hmod hpos, ?_⟩
    rw [hflag]; simp; omega
  · obtain ⟨j, rfl⟩ : ∃ j, d = j + 1 := ⟨d - 1, by omega⟩
    exact (hcall j).2.2 (by simp)
  · obtain ⟨j, rfl⟩ : ∃ j, d = j + 1 := ⟨d - 1, by omega⟩
    rw [(hcall j).1]; simp

theorem radiusInc_holdsThenResets (p : Player) :
    NewRadiusInc.HoldsThenResets p 1800 (fun q => q.BombRange = 5) (fun q => q.BombRange = 2) := by
  apply StatusEffect.holdsThenResets_of_step _ _ _ _ _ (fun e => ∃ d, e = .radiusInc d)
    ⟨_, rfl⟩ rfl (by decide)
  rintro e1 q ⟨d, rfl⟩
  refine ⟨⟨_, rfl⟩, rfl, rfl, ?_, ?_⟩
  · intro h
    have : ¬ (d - 1 ≤ 0) := by simp [StatusEffect.duration] at h; omega
    simp [StatusEffect.Update, this]
  · intro h
    have : d - 1 ≤ 0 := by simpa [StatusEffect.duration] using h
    simp [StatusEffect.Update, this]

theorem rollerInc_holdsThenResets (p : Player) :
    NewRollerInc.HoldsThenResets p 1800 (fun q => q.speed = 1.2) (fun q => q.speed = 0.6) := by
  apply StatusEffect.holdsThenResets_of_step _ _ _ _ _ (fun e => ∃ d, e = .rollerInc d)
    ⟨_, rfl⟩ rfl (by decide)
  rintro e1 q ⟨d, rfl⟩
  refine ⟨⟨_, rfl⟩, rfl, rfl, ?_, ?_⟩
  · intro h
    have : ¬ (d - 1 ≤ 0) := by simp [StatusEffect.duration] at h; omega
    simp [StatusEffect.Update, this]
  · intro h
    have : d - 1 ≤ 0 := by simpa [StatusEffect.duration] using h
    simp [StatusEffect.Update, this]

theorem skate_holdsThenResets (p : Player) :
    NewSkate.HoldsThenResets p 60 (fun q => q.speed = 1) (fun q => q.speed = 0.6) := by
  apply StatusEffect.holdsThenResets_of_step _ _ _ _ _ (fun e => ∃ d, e = .skate d)
    ⟨_, rfl⟩ rfl (by decide)
  rintro e1 q ⟨d, rfl⟩
  refine ⟨⟨_, rfl⟩, rfl, rfl, ?_, ?_⟩
  · intro h
    have : ¬ (d - 1 ≤ 0) := by simp [StatusEffect.duration] at h; omega
    simp [StatusEffect.Update, this]
  · intro h
    have : d - 1 ≤ 0 := by simpa [StatusEffect.duration] using h
    simp [StatusEffect.Update, this]

/-- The skull debuff whose type came from the draw `r`, given what its `Update` does
to the attribute before and at expiry. -/
theorem skullDeb_holdsThenResets (p : Player) (r : Int) (modified baseline : Player → Prop)
    (hmod : ∀ (q : Player) (d : Int), ¬ (d - 1 ≤ 0) →
      modified ((StatusEffect.skullDeb d (r + 1)).Update q).2.1)
    (hbase : ∀ (q : Player) (d : Int), d - 1 ≤ 0 →
      baseline ((StatusEffect.skullDeb d (r + 1)).Update q).2.1) :
    (NewSkullDeb r).HoldsThenResets p 1800 modified baseline := by
  apply StatusEffect.holdsThenResets_of_step _ _ _ _ _ (fun e => ∃ d, e = .skullDeb d (r + 1))
    ⟨_, rfl⟩ rfl (by decide)
  rintro e1 q ⟨d, rfl⟩
  by_cases hd : d - 1 ≤ 0
  · refine ⟨⟨d - 1, ?_⟩, ?_, ?_, ?_, ?_⟩
    · simp [StatusEffect.Update, hd]
    · simp [StatusEffect.Update, hd, StatusEffect.duration]
    · simp [StatusEffect.Update, hd, StatusEffect.duration]
    · intro h; simp [StatusEffect.duration] at h; omega
    · intro _; exact hbase q d hd
  · refine ⟨⟨d - 1, ?_⟩, ?_, ?_, ?_, ?_⟩
    · simp [StatusEffect.Update, hd]
    · simp [StatusEffect.Update, hd, StatusEffect.duration]
    · simp [StatusEffect.Update, hd, StatusEffect.duration]
    · intro _; exact hmod q d hd
    · intro h; simp [StatusEffect.duration] at h; omega

/-- C8: the radius-increase, roller, skate and skull-debuff effects (initial
durations 1800, 1800, 60, 1800) keep the player's attribute at its modified value
after each of the first `d - 1` calls of `Update`, all of which return `false`; the
`d`-th call returns `true` and resets the attribute to its baseline (speed 0.6, bomb
range 2, can-place-bomb true, auto-place false). The four skull cases are the four
values of `rand.Intn(4)`. -/
theorem statusEffect_reset_at_expiry (p : Player) :
    NewRadiusInc.HoldsThenResets p 1800 (fun q => q.BombRange = 5) (fun q => q.BombRange = 2) ∧
    NewRollerInc.HoldsThenResets p 1800 (fun q => q.speed = 1.2) (fun q => q.speed = 0.6) ∧
    NewSkate.HoldsThenResets p 60 (fun q => q.speed = 1) (fun q => q.speed = 0.6) ∧
    (NewSkullDeb 0).HoldsThenResets p 1800 (fun q => q.speed = 0.3) (fun q => q.speed = 0.6) ∧
    (NewSkullDeb 1).HoldsThenResets p 1800
      (fun q => q.BombRange = 1) (fun q => q.BombRange = 2) ∧
    (NewSkullDeb 2).HoldsThenResets p 1800
      (fun q => q.canPlaceBomb = false) (fun q => q.canPlaceBomb = true) ∧
    (NewSkullDeb 3).HoldsThenResets p 1800
      (fun q => q.autoPlaceBomb = true) (fun q => q.autoPlaceBomb = false) := by
  refine ⟨radiusInc_holdsThenResets p, rollerInc_holdsThenResets p, skate_holdsThenResets p,
    ?_, ?_, ?_, ?_⟩
  · apply skullDeb_holdsThenResets
    · intro q d hd; simp [StatusEffect.Update, hd]
    · intro q d hd; simp [StatusEffect.Update, hd]
  · apply skullDeb_holdsThenResets
    · intro q d hd; simp [StatusEffect.Update, hd]
    · intro q d hd; simp [StatusEffect.Update, hd]
  · apply skullDeb_holdsThenResets
    · intro q d hd; simp [StatusEffect.Update, hd]
    · intro q d hd; simp [StatusEffect.Update, hd]
  · apply skullDeb_holdsThenResets
    · intro q d hd; simp [StatusEffect.Update, hd]
    · intro q d hd; simp [StatusEffect.Update, hd]

/-- Witness for C8: the radius effect on a fresh player after the first call. -/
theorem statusEffect_reset_at_expiry_witness :
    (NewRadiusInc.calls (NewPlayer 0 0) 1).2.1.BombRange = 5 ∧
      (NewRadiusInc.calls (NewPlayer 0 0) 1).2.2 = false :=
  (statusEffect_reset_at_expiry (NewPlayer 0 0)).1.1 1 (by decide) (by decide)

/-! ## Monsters -/

theorem Float64.gt_asymm {a b : Float64} (h : a.gt b = true) : b.gt a = false := by
  cases a <;> cases b <;> simp_all [Float64.gt]
  · exact le_of_lt h

/-- Spot checks of `Float64.round` against the `float64` values: 10 and the least
positive value are kept, 1/10 goes to its nearest `float64`, ties go to the even
neighbour (2^53 + 1 down, 2^53 + 3 up, 2^-1075 to zero), 1 + 2^-60 loses its last
bit, and the largest finite value is followed by infinity. -/
theorem Float64.round_values :
    Float64.round 10 = .finite 10 ∧
    Float64.round (1 / 10) = .finite (3602879701896397 / 36028797018963968) ∧
    Float64.round (pow2 53 + 1) = .finite (pow2 53) ∧
    Float64.round (pow2 53 + 3) = .finite (pow2 53 + 4) ∧
    Float64.round (-(1 + pow2 (-60))) = .finite (-1) ∧
    Float64.round (pow2 (-1074)) = .finite (pow2 (-1074)) ∧
    Float64.round (pow2 (-1075)) = .finite 0 ∧
    Float64.round (pow2 1024 - pow2 971) = .finite (pow2 1024 - pow2 971) ∧
    Float64.round (pow2 1024 - pow2 970) = .inf false := by
  refine ⟨?_, ?_, ?_, ?_, ?_, ?_, ?_, ?_, ?_⟩ <;> decide!

theorem directionTowardsTarget_of_exact (monsterX monsterY targetX targetY : ℚ)
    (hx : Float64.round (targetX - monsterX) = .finite (targetX - monsterX))
    (hy : Float64.round (targetY - monsterY) = .finite (targetY - monsterY)) :
    Float64.directionTowardsTarget (.finite monsterX) (.finite monsterY) (.finite targetX)
        (.finite targetY)
      = directionTowardsTarget monsterX monsterY targetX targetY := by
  simp only [Float64.directionTowardsTarget, Float64.sub, hx, hy, Float64.abs, Float64.gt,
    directionTowardsTarget, decide_eq_true_eq]

/-- C10: `directionTowardsTarget` answers along the axis with the larger absolute
delta, towards the target, the deltas being the `float64` differences `dx` and `dy`
the function computes: 3 (right) when |dx| > |dy| and dx > 0, 2 (left) when
|dx| > |dy| and dx < 0, 1 (down) when |dy| > |dx| and dy > 0, 0 (up) when
|dy| > |dx| and dy < 0, for all `float64` arguments; a monster at (0,0) goes right
for target (10,0) and down for target (0,10). The differences are rounded: for a
monster at (-1, 0) and the target (2^-60, 1) the computed dx is 1, not above dy, and
the answer is 1. -/
theorem directionTowardsTarget_larger_axis (monsterX monsterY targetX targetY : Float64) :
    ((targetX.sub monsterX).abs.gt (targetY.sub monsterY).abs = true →
      (targetX.sub monsterX).gt (.finite 0) = true →
      Float64.directionTowardsTarget monsterX monsterY targetX targetY = 3) ∧
    ((targetX.sub monsterX).abs.gt (targetY.sub monsterY).abs = true →
      (Float64.finite 0).gt (targetX.sub monsterX) = true →
      Float64.directionTowardsTarget monsterX monsterY targetX targetY = 2) ∧
    ((targetY.sub monsterY).abs.gt (targetX.sub monsterX).abs = true →
      (targetY.sub monsterY).gt (.finite 0) = true →
      Float64.directionTowardsTarget monsterX monsterY targetX targetY = 1) ∧
    ((targetY.sub monsterY).abs.gt (targetX.sub monsterX).abs = true →
      (Float64.finite 0).gt (targetY.sub monsterY) = true →
      Float64.directionTowardsTarget monsterX monsterY targetX targetY = 0) ∧
    Float64.directionTowardsTarget (.finite 0) (.finite 0) (.finite 10) (.finite 0) = 3 ∧
    Float64.directionTowardsTarget (.finite 0) (.finite 0) (.finite 0) (.finite 10) = 1 ∧
    (Float64.finite (pow2 (-60))).sub (.finite (-1)) = .finite 1 ∧
    Float64.directionTowardsTarget (.finite (-1)) (.finite 0) (.finite (pow2 (-60))) (.finite 1)
      = 1 := by
  refine ⟨?_, ?_, ?_, ?_, ?_, ?_, ?_, ?_⟩
  · intro h1 h2
    simp only [Float64.directionTowardsTarget, h1, h2, if_true]
  · intro h1 h2
    simp only [Float64.directionTowardsTarget, h1, Float64.gt_asymm h2, if_true,
      Bool.false_eq_true, if_false]
  · intro h1 h2
    simp only [Float64.directionTowardsTarget, Float64.gt_asymm h1, h2, if_true,
      Bool.false_eq_true, if_false]
  · intro h1 h2
    simp only [Float64.directionTowardsTarget, Float64.gt_asymm h1, Float64.gt_asymm h2,
      Bool.false_eq_true, if_false]
  · decide!
  · decide!
  · decide!
  · decide!

/-- Witness for C10: the test case "Balra" (monster (0,0), target (-1,0)). -/
theorem directionTowardsTarget_larger_axis_witness :
    Float64.directionTowardsTarget (.finite 0) (.finite 0) (.finite (-1)) (.finite 0) = 2 :=
  (directionTowardsTarget_larger_axis (.finite 0) (.finite 0) (.finite (-1)) (.finite 0)).2.1
    (by decide!) (by decide!)

/-! ## Obstacle grant -/

theorem Player.moveIf_frame (p : Player) (c : Bool) (dx dy : ℚ) (k : String) :
    (p.moveIf c dx dy k).State = p.State ∧
    (p.moveIf c dx dy k).NumberOfObstacles = p.NumberOfObstacles ∧
    (p.moveIf c dx dy k).Control = p.Control ∧
    (p.moveIf c dx dy k).autoPlaceBomb = p.autoPlaceBomb ∧
    (p.moveIf c dx dy k).NumberOfBombs = p.NumberOfBombs := by
  unfold Player.moveIf
  split_ifs <;> simp

theorem Player.move_frame (p : Player) :
    p.move.State = p.State ∧ p.move.NumberOfObstacles = p.NumberOfObstacles ∧
    p.move.Control = p.Control ∧ p.move.autoPlaceBomb = p.autoPlaceBomb ∧
    p.move.NumberOfBombs = p.NumberOfBombs := by
  simp only [Player.move, Player.moveIf_frame, and_self]

theorem Player.PlaceBomb_frame (p : Player) (self addr : Nat) :
    (p.PlaceBomb self addr).1.State = p.State ∧
    (p.PlaceBomb self addr).1.NumberOfObstacles = p.NumberOfObstacles ∧
    (p.PlaceBomb self addr).1.Control = p.Control ∧
    (p.PlaceBomb self addr).1.autoPlaceBomb = p.autoPlaceBomb := by
  unfold Player.PlaceBomb
  split_ifs <;> simp

theorem Player.bombStep_frame (p : Player) (self addr : Nat) :
    (p.bombStep self addr).1.State = p.State ∧
    (p.bombStep self addr).1.NumberOfObstacles = p.NumberOfObstacles ∧
    (p.bombStep self addr).1.Control = p.Control ∧
    (p.bombStep self addr).1.autoPlaceBomb = p.autoPlaceBomb := by
  unfold Player.bombStep
  split_ifs
  · exact Player.PlaceBomb_frame p self addr
  · exact Player.PlaceBomb_frame p self addr
  · simp

theorem Player.detonateManual_frame (p : Player) :
    p.detonateManual.1.State = p.State ∧
    p.detonateManual.1.NumberOfObstacles = p.NumberOfObstacles ∧
    p.detonateManual.1.Control = p.Control ∧
    p.detonateManual.1.autoPlaceBomb = p.autoPlaceBomb := by
  unfold Player.detonateManual
  split_ifs <;> simp

theorem Player.obstacleStep_frame (p : Player) :
    p.obstacleStep.1.State = p.State ∧
    p.obstacleStep.1.Control = p.Control ∧
    p.obstacleStep.1.autoPlaceBomb = p.autoPlaceBomb := by
  unfold Player.obstacleStep Player.PlaceObstacle
  split_ifs <;> simp

theorem Player.obstacleStep_count_of_idle (p : Player)
    (h : p.Control.Ability2 = false ∨ p.stateIs "ObstacleIncrease" = false) :
    p.obstacleStep.1.NumberOfObstacles = p.NumberOfObstacles := by
  unfold Player.obstacleStep
  rcases h with h | h <;> simp [h]

theorem Player.Update_player (p : Player) (self addr : Nat) :
    (p.Update self addr).player
      = ((p.updateState.detonateManual.1.obstacleStep.1).bombStep self addr).1.move := rfl

theorem Player.Update_State (p : Player) (self addr : Nat) :
    (p.Update self addr).player.State = p.updateState.State := by
  rw [Player.Update_player, (Player.move_frame _).1, (Player.bombStep_frame _ _ _).1,
    (Player.obstacleStep_frame _).1, (Player.detonateManual_frame _).1]

theorem Player.Update_Control (p : Player) (self addr : Nat) :
    (p.Update self addr).player.Control = p.updateState.Control := by
  rw [Player.Update_player, (Player.move_frame _).2.2.1, (Player.bombStep_frame _ _ _).2.2.1,
    (Player.obstacleStep_frame _).2.1, (Player.detonateManual_frame _).2.2.1]

theorem Player.Update_autoPlaceBomb (p : Player) (self addr : Nat) :
    (p.Update self addr).player.autoPlaceBomb = p.updateState.autoPlaceBomb := by
  rw [Player.Update_player, (Player.move_frame _).2.2.2.1, (Player.bombStep_frame _ _ _).2.2.2,
    (Player.obstacleStep_frame _).2.2, (Player.detonateManual_frame _).2.2.2]

theorem Player.Update_NumberOfObstacles (p : Player) (self addr : Nat)
    (h : p.updateState.Control.Ability2 = false ∨
      p.updateState.stateIs "ObstacleIncrease" = false) :
    (p.Update self addr).player.NumberOfObstacles = p.updateState.NumberOfObstacles := by
  have hd := Player.detonateManual_frame p.updateState
  rw [Player.Update_player, (Player.move_frame _).2.1, (Player.bombStep_frame _ _ _).2.1,
    Player.obstacleStep_count_of_idle, hd.2.1]
  unfold Player.stateIs at h ⊢
  rw [hd.1, hd.2.2.1]
  exact h

theorem Player.updateState_obstacleInc (p : Player) (d : Int) (a : Bool)
    (hs : p.State = some (.obstacleInc d a)) :
    p.updateState.Control = p.Control ∧ p.updateState.autoPlaceBomb = p.autoPlaceBomb ∧
    p.updateState.State = (if d - 1 ≤ 0 then none else some (.obstacleInc (d - 1) true)) ∧
    p.updateState.NumberOfObstacles
      = (if d - 1 ≤ 0 then p.NumberOfObstacles
          else if a then p.NumberOfObstacles else p.NumberOfObstacles + 3) := by
  by_cases hd : d - 1 ≤ 0
  · simp [Player.updateState, hs, StatusEffect.Update, hd]
  · cases a <;> simp [Player.updateState, hs, StatusEffect.Update, hd]

theorem Player.update_obstacleInc_idle (p : Player) (self addr : Nat) (d : Int) (a : Bool)
    (hc : p.Control = ⟨false, false, false, false, false, false⟩)
    (ha : p.autoPlaceBomb = false) (hs : p.State = some (.obstacleInc d a)) :
    (p.Update self addr).player.Control = ⟨false, false, false, false, false, false⟩ ∧
    (p.Update self addr).player.autoPlaceBomb = false ∧
    (p.Update self addr).player.State
      = (if d - 1 ≤ 0 then none else some (.obstacleInc (d - 1) true)) ∧
    (p.Update self addr).player.NumberOfObstacles
      = (if d - 1 ≤ 0 then p.NumberOfObstacles
          else if a then p.NumberOfObstacles else p.NumberOfObstacles + 3) := by
  obtain ⟨h1, h2, h3, h4⟩ := Player.updateState_obstacleInc p d a hs
  refine ⟨?_, ?_, ?_, ?_⟩
  · rw [Player.Update_Control, h1, hc]
  · rw [Player.Update_autoPlaceBomb, h2, ha]
  · rw [Player.Update_State, h3]
  · rw [Player.Update_NumberOfObstacles _ _ _ (Or.inl (by rw [h1, hc])), h4]

theorem Player.afterUpdates_obstacleInc_idle (p : Player) (self addr : Nat)
    (hc : p.Control = ⟨false, false, false, false, false, false⟩)
    (ha : p.autoPlaceBomb = false) (hs : p.State = some NewObstacleInc) (k : Nat)
    (hk : k < 1800) :
    (Player.afterUpdates self addr (k + 1) p).Control
        = ⟨false, false, false, false, false, false⟩ ∧
    (Player.afterUpdates self addr (k + 1) p).autoPlaceBomb = false ∧
    (Player.afterUpdates self addr (k + 1) p).State
      = (if k + 1 = 1800 then none else some (.obstacleInc (1800 - (k + 1 : Nat)) true)) ∧
    (Player.afterUpdates self addr (k + 1) p).NumberOfObstacles = p.NumberOfObstacles + 3 := by
  induction k with
  | zero =>
    have h := Player.update_obstacleInc_idle p self (addr + 0) 1800 false hc ha hs
    simpa [Player.afterUpdates] using h
  | succ k ih =>
    obtain ⟨h1, h2, h3, h4⟩ := ih (by omega)
    have hne : ¬ (k + 1 = 1800) := by omega
    rw [if_neg hne] at h3
    have h := Player.update_obstacleInc_idle (Player.afterUpdates self addr (k + 1) p) self
      (addr + (k + 1)) _ true h1 h2 h3
    obtain ⟨g1, g2, g3, g4⟩ := h
    refine ⟨g1, g2, ?_, ?_⟩
    · show ((Player.afterUpdates self addr (k + 1) p).Update self (addr + (k + 1))).player.State = _
      rw [g3]
      by_cases hk2 : k + 1 + 1 = 1800
      · have : (1800 : Int) - ((k + 1 : Nat) : Int) - 1 ≤ 0 := by omega
        rw [if_pos hk2, if_pos this]
      · have : ¬ ((1800 : Int) - ((k + 1 : Nat) : Int) - 1 ≤ 0) := by omega
        have e : (1800 : Int) - ((k + 1 : Nat) : Int) - 1 = 1800 - ((k + 1 + 1 : Nat) : Int) := by
          omega
        rw [if_neg hk2, if_neg this, e]
    · show ((Player.afterUpdates self addr (k + 1) p).Update self
        (addr + (k + 1))).player.NumberOfObstacles = _
      rw [g4, h4]; simp

/-- C9 (as stated, refuted): a fresh player (obstacle count 0) who picks up the
obstacle-increase effect and then stays idle has, once the effect has expired on the
1800th `Player.Update`, an obstacle count of 3, not the 0 it had before. -/
theorem obstacleInc_count_not_restored :
    ({ NewPlayer 0 0 with State := some NewObstacleInc } : Player).NumberOfObstacles = 0 ∧
    (Player.afterUpdates 0 0 1800 { NewPlayer 0 0 with State := some NewObstacleInc }).State
      = none ∧
    (Player.afterUpdates 0 0 1800
      { NewPlayer 0 0 with State := some NewObstacleInc }).NumberOfObstacles = 3 := by
  have h := Player.afterUpdates_obstacleInc_idle
    { NewPlayer 0 0 with State := some NewObstacleInc } 0 0 rfl rfl rfl 1799 (by decide)
  refine ⟨rfl, ?_, ?_⟩
  · simpa using h.2.2.1
  · simpa [NewPlayer] using h.2.2.2

/-- C9 (amended): the call of `Player.Update` on which an obstacle-increase effect
expires clears the player's `State` and leaves `NumberOfObstacles` as it was before
the call, whatever the controls; nothing is taken back. -/
theorem obstacleInc_expiry_keeps_count (p : Player) (self addr : Nat) (d : Int) (applied : Bool)
    (hs : p.State = some (.obstacleInc d applied)) (hd : d - 1 ≤ 0) :
    (p.Update self addr).player.State = none ∧
    (p.Update self addr).player.NumberOfObstacles = p.NumberOfObstacles := by
  obtain ⟨-, -, h3, h4⟩ := Player.updateState_obstacleInc p d applied hs
  rw [if_pos hd] at h3 h4
  refine ⟨by rw [Player.Update_State, h3], ?_⟩
  rw [Player.Update_NumberOfObstacles _ _ _ (Or.inr (by simp [Player.stateIs, h3])), h4]

/-- Witness for C9 (amended): an effect on its last tick, ability two held down. -/
theorem obstacleInc_expiry_keeps_count_witness :
    (({ NewPlayer 0 0 with
          State := some (.obstacleInc 1 true), NumberOfObstacles := 3,
          Control := ⟨false, false, false, false, false, true⟩ } : Player).Update 0 0).player.State
        = none ∧
    (({ NewPlayer 0 0 with
          State := some (.obstacleInc 1 true), NumberOfObstacles := 3,
          Control := ⟨false, false, false, false, false, true⟩ } : Player).Update 0 0
      ).player.NumberOfObstacles = 3 :=
  obstacleInc_expiry_keeps_count _ 0 0 1 true rfl (by decide)


/-! ## Host: round end -/

theorem hostRoundEndLoop_Players (ps : List ProtoPlayer) (gi : ProtoGameInfo) :
    (hostRoundEndLoop ps gi).Players = gi.Players := by
  induction ps with
  | nil => rfl
  | cons p rest ih => unfold hostRoundEndLoop; split_ifs <;> simp [ih]

theorem hostRoundEndLoop_GameState (ps : List ProtoPlayer) (gi : ProtoGameInfo) :
    (hostRoundEndLoop ps gi).GameState
      = if ps.all (fun p => p.IsDead) then gi.GameState else GameStateRunning := by
  induction ps with
  | nil => rfl
  | cons p rest ih =>
    unfold hostRoundEndLoop
    cases hp : p.IsDead <;> simp [hp, ih]

theorem hostRoundEnd_spec (gi : ProtoGameInfo) :
    (hostRoundEnd gi).Players = gi.Players ∧
    (hostRoundEnd gi).GameState
      = if gi.Players.all (fun p => p.IsDead) then GameStateEnd else GameStateRunning := by
  unfold hostRoundEnd
  exact ⟨hostRoundEndLoop_Players _ _, hostRoundEndLoop_GameState _ _⟩

/-- C6: the round-end check that closes every host tick leaves the Participant
Records as they are and sets `GameState` to "end" if every record has `IsDead` set and
to "running" otherwise; so the snapshot a tick leaves behind has that `GameState`. -/
theorem hostUpdate_gameState :
    (∀ gi : ProtoGameInfo,
      (hostRoundEnd gi).Players = gi.Players ∧
      (hostRoundEnd gi).GameState
        = if gi.Players.all (fun p => p.IsDead) then GameStateEnd else GameStateRunning) ∧
    (∀ s : MultiPlayerGameSceneHost,
      match hostUpdateWorld s with
      | none => True
      | some s1 =>
        s1.GameInfo.GameState
          = if s1.GameInfo.Players.all (fun p => p.IsDead) then GameStateEnd
            else GameStateRunning) ∧
    GameStateEnd = "end" ∧ GameStateRunning = "running" := by
  refine ⟨hostRoundEnd_spec, ?_, rfl, rfl⟩
  intro s
  unfold hostUpdateWorld
  cases hostBombPhase s with
  | none => trivial
  | some s1 =>
    show match (match hostExplosionPhase s1 with
      | none => none
      | some s => some { s with GameInfo := hostRoundEnd s.GameInfo }) with
      | none => True
      | some s1 => _
    cases hostExplosionPhase s1 with
    | none => trivial
    | some s2 =>
      have h := hostRoundEnd_spec s2.GameInfo
      show (hostRoundEnd s2.GameInfo).GameState
        = if (hostRoundEnd s2.GameInfo).Players.all (fun p => p.IsDead) then GameStateEnd
          else GameStateRunning
      rw [h.1, h.2]

/-! ## Host: concrete runs -/

/-- The loops themselves do not stop at a destroyable tile: on `twoBricksGrid`, a grid
with two destroyable tiles that no level file yields, the bomb on tile (1,1) with
range 2 goes off and, in the same tick, both destroyable tiles (1,2) and (1,3), which
lie on one axis, are turned to grass and logged. -/
theorem host_destroys_two_tiles_on_one_axis :
    (tileAt twoBricksHost.staticEntities 1 2).map Terrain.IsDestroyable = some true ∧
    (tileAt twoBricksHost.staticEntities 1 3).map Terrain.IsDestroyable = some true ∧
    (hostUpdateWorld twoBricksHost).map (fun s => s.GameInfo.TerrainChanges)
      = some [{ X := 1, Y := 2, To := "GRASS" }, { X := 1, Y := 3, To := "GRASS" }] ∧
    (hostUpdateWorld twoBricksHost).map
        (fun s => (tileAt s.staticEntities 1 2, tileAt s.staticEntities 1 3))
      = some (some (NewGrass 16 32), some (NewGrass 16 48)) := by
  decide

/-- C7 (failing input): `deadEndHost` starts the tick with every snapshot sequence as
long as its live list; the bomb goes off, the two old explosions expire, and the tick
ends with one live explosion and an empty snapshot `Explosions`. In the open
`twoBricksGrid` the same tick faults on `Explosions[i]` instead. -/
theorem host_explosions_not_mirrored :
    deadEndHost.GameInfo.Bombs.length = deadEndHost.bombs.length ∧
    deadEndHost.GameInfo.Explosions.length = deadEndHost.explosions.length ∧
    deadEndHost.GameInfo.Boxes.length = deadEndHost.boxes.length ∧
    deadEndHost.GameInfo.StatusEffects.length = deadEndHost.statusEffects.length ∧
    (hostUpdateWorld deadEndHost).map
        (fun s => (s.explosions.length, s.GameInfo.Explosions.length)) = some (1, 0) ∧
    (hostUpdateWorld
        { deadEndHost with
          staticEntities := twoBricksGrid,
          bombs := [{ NewBomb 0 0 2 48 48 with time := 1 }] }).isNone = true := by
  decide


/-! ## Host: explosion propagation -/

theorem hostAxisLoop_spec (cond : Int → Option Bool) (spawn : Int → Explosion) (n : Nat) :
    ∀ (j : Int) (acc es : List Explosion), hostAxisLoop cond spawn n j acc = some es →
      ∃ k : Nat, k ≤ n ∧ es = acc ++ (List.range k).map (fun i => spawn (j + (i : Nat))) ∧
        ∀ i : Nat, i < k → cond (j + (i : Nat)) = some true := by
  induction n with
  | zero =>
    intro j acc es h
    simp only [hostAxisLoop, Option.some.injEq] at h
    exact ⟨0, le_refl _, by simp [h], by intro i hi; omega⟩
  | succ n ih =>
    intro j acc es h
    unfold hostAxisLoop at h
    cases hc : cond j with
    | none => simp [hc] at h
    | some b =>
      cases b with
      | false =>
        simp only [hc, Option.some.injEq] at h
        exact ⟨0, Nat.zero_le _, by simp [h], by intro i hi; omega⟩
      | true =>
        simp only [hc] at h
        obtain ⟨k, hk, hes, hall⟩ := ih (j + 1) (acc ++ [spawn j]) es h
        refine ⟨k + 1, by omega, ?_, ?_⟩
        · rw [hes, List.range_succ_eq_map, List.map_cons, List.map_map]
          simp only [List.append_assoc, List.singleton_append, Nat.cast_zero, add_zero]
          congr 2
          apply List.map_congr_left
          intro i _
          simp only [Function.comp, Nat.cast_succ]
          congr 1
          ring
        · intro i hi
          cases i with
          | zero => simpa using hc
          | succ i =>
            have := hall i (by omega)
            rw [← this]
            congr 1
            push_cast
            ring

theorem tileAt_of_hostCondDown {g : List (List Terrain)} {x y j : Int}
    (h : hostCondDown g x y j = some true) :
    ∃ t, tileAt g x (y + j) = some t ∧ t.letsExplosionThrough = true := by
  unfold hostCondDown at h
  split_ifs at h with h1
  · split at h
    · simp at h
    · split_ifs at h with h2
      · split at h
        · simp at h
        · rename_i t ht
          exact ⟨t, ht, by simpa using h⟩
      · simp at h
  · simp at h

theorem tileAt_of_hostCondUp {g : List (List Terrain)} {x y j : Int}
    (h : hostCondUp g x y j = some true) :
    ∃ t, tileAt g x (y - j) = some t ∧ t.letsExplosionThrough = true := by
  unfold hostCondUp at h
  split_ifs at h with h1
  · split at h
    · simp at h
    · split_ifs at h with h2
      · split at h
        · simp at h
        · rename_i t ht
          exact ⟨t, ht, by simpa using h⟩
      · simp at h
  · simp at h

theorem tileAt_of_hostCondRight {g : List (List Terrain)} {x y j : Int}
    (h : hostCondRight g x y j = some true) :
    ∃ t, tileAt g (x + j) y = some t ∧ t.letsExplosionThrough = true := by
  unfold hostCondRight at h
  split_ifs at h with h1
  · split at h
    · simp at h
    · split_ifs at h with h2
      · split at h
        · simp at h
        · rename_i t ht
          exact ⟨t, ht, by simpa using h⟩
      · simp at h
  · simp at h

theorem tileAt_of_hostCondLeft {g : List (List Terrain)} {x y j : Int}
    (h : hostCondLeft g x y j = some true) :
    ∃ t, tileAt g (x - j) y = some t ∧ t.letsExplosionThrough = true := by
  unfold hostCondLeft at h
  split_ifs at h with h1
  · split at h
    · simp at h
    · split_ifs at h with h2
      · split at h
        · simp at h
        · rename_i t ht
          exact ⟨t, ht, by simpa using h⟩
      · simp at h
  · simp at h

/-- What one axis loop appends: explosions on the tiles at distances `1..k` for some
`k` not above the range, every one of those tiles letting the explosion through. -/
theorem hostAxis_spec (g : List (List Terrain)) (x y range : Int) :
    (∀ es, hostAxisDown g x y range = some es →
      ∃ k : Nat, k ≤ range.toNat ∧
        es = (List.range k).map (fun i => NewExplosion (x * 16) ((y + (1 + (i : Nat))) * 16)) ∧
        ∀ i : Nat, i < k →
          ∃ t, tileAt g x (y + (1 + (i : Nat))) = some t ∧ t.letsExplosionThrough = true) ∧
    (∀ es, hostAxisUp g x y range = some es →
      ∃ k : Nat, k ≤ range.toNat ∧
        es = (List.range k).map (fun i => NewExplosion (x * 16) ((y - (1 + (i : Nat))) * 16)) ∧
        ∀ i : Nat, i < k →
          ∃ t, tileAt g x (y - (1 + (i : Nat))) = some t ∧ t.letsExplosionThrough = true) ∧
    (∀ es, hostAxisRight g x y range = some es →
      ∃ k : Nat, k ≤ range.toNat ∧
        es = (List.range k).map (fun i => NewExplosion ((x + (1 + (i : Nat))) * 16) (y * 16)) ∧
        ∀ i : Nat, i < k →
          ∃ t, tileAt g (x + (1 + (i : Nat))) y = some t ∧ t.letsExplosionThrough = true) ∧
    (∀ es, hostAxisLeft g x y range = some es →
      ∃ k : Nat, k ≤ range.toNat ∧
        es = (List.range k).map (fun i => NewExplosion ((x - (1 + (i : Nat))) * 16) (y * 16)) ∧
        ∀ i : Nat, i < k →
          ∃ t, tileAt g (x - (1 + (i : Nat))) y = some t ∧ t.letsExplosionThrough = true) := by
  refine ⟨?_, ?_, ?_, ?_⟩
  · intro es h
    obtain ⟨k, hk, hes, hall⟩ := hostAxisLoop_spec _ _ _ _ _ _ h
    exact ⟨k, hk, by simpa using hes, fun i hi => tileAt_of_hostCondDown (hall i hi)⟩
  · intro es h
    obtain ⟨k, hk, hes, hall⟩ := hostAxisLoop_spec _ _ _ _ _ _ h
    exact ⟨k, hk, by simpa using hes, fun i hi => tileAt_of_hostCondUp (hall i hi)⟩
  · intro es h
    obtain ⟨k, hk, hes, hall⟩ := hostAxisLoop_spec _ _ _ _ _ _ h
    exact ⟨k, hk, by simpa using hes, fun i hi => tileAt_of_hostCondRight (hall i hi)⟩
  · intro es h
    obtain ⟨k, hk, hes, hall⟩ := hostAxisLoop_spec _ _ _ _ _ _ h
    exact ⟨k, hk, by simpa using hes, fun i hi => tileAt_of_hostCondLeft (hall i hi)⟩

theorem NewExplosion_TilePosition (a b : Int) :
    (NewExplosion (a * 16) (b * 16)).TilePosition = (a, b) := by
  simp [NewExplosion, Explosion.TilePosition]

theorem hostSpawnExplosions_eq {g : List (List Terrain)} {x y range : Int} {es : List Explosion}
    (h : hostSpawnExplosions g x y range = some es) :
    ∃ down up right left,
      hostAxisDown g x y range = some down ∧ hostAxisUp g x y range = some up ∧
      hostAxisRight g x y range = some right ∧ hostAxisLeft g x y range = some left ∧
      es = NewExplosion (x * 16) (y * 16) :: (down ++ up ++ right ++ left) := by
  unfold hostSpawnExplosions at h
  cases hd : hostAxisDown g x y range with
  | none => simp [hd] at h
  | some down =>
    cases hu : hostAxisUp g x y range with
    | none => simp [hd, hu] at h
    | some up =>
      cases hr : hostAxisRight g x y range with
      | none => simp [hd, hu, hr] at h
      | some right =>
        cases hl : hostAxisLeft g x y range with
        | none => simp [hd, hu, hr, hl] at h
        | some left =>
          simp only [hd, hu, hr, hl, Option.some.injEq] at h
          exact ⟨down, up, right, left, rfl, rfl, rfl, rfl, h.symm⟩

/-- The tile of every explosion a detonation on `(x, y)` spawns: the centre, or a tile
at some distance `d ≥ 1` along one axis with every tile from distance 1 to `d` on that
axis letting the explosion through. -/
theorem hostSpawnExplosions_tiles {g : List (List Terrain)} {x y range : Int}
    {es : List Explosion} (h : hostSpawnExplosions g x y range = some es)
    {e : Explosion} (he : e ∈ es) :
    e.TilePosition = (x, y) ∨
    ∃ d : Int, 1 ≤ d ∧ d ≤ range ∧
      ((e.TilePosition = (x, y + d) ∧ ∀ c : Int, 1 ≤ c → c ≤ d →
          ∃ t, tileAt g x (y + c) = some t ∧ t.letsExplosionThrough = true) ∨
       (e.TilePosition = (x, y - d) ∧ ∀ c : Int, 1 ≤ c → c ≤ d →
          ∃ t, tileAt g x (y - c) = some t ∧ t.letsExplosionThrough = true) ∨
       (e.TilePosition = (x + d, y) ∧ ∀ c : Int, 1 ≤ c → c ≤ d →
          ∃ t, tileAt g (x + c) y = some t ∧ t.letsExplosionThrough = true) ∨
       (e.TilePosition = (x - d, y) ∧ ∀ c : Int, 1 ≤ c → c ≤ d →
          ∃ t, tileAt g (x - c) y = some t ∧ t.letsExplosionThrough = true)) := by
  obtain ⟨down, up, right, left, hd, hu, hr, hl, rfl⟩ := hostSpawnExplosions_eq h
  obtain ⟨sd, su, sr, sl⟩ := hostAxis_spec g x y range
  have key : ∀ (k : Nat) (i : Nat) (c : Int), i < k → 1 ≤ c → c ≤ 1 + (i : Int) →
      ∃ i0 : Nat, i0 < k ∧ c = 1 + (i0 : Int) := by
    intro k i c hi h1 h2
    exact ⟨(c - 1).toNat, by omega, by omega⟩
  simp only [List.mem_cons, List.mem_append] at he
  rcases he with rfl | ((he | he) | he) | he
  · exact Or.inl (NewExplosion_TilePosition x y)
  · obtain ⟨k, hk, rfl, hall⟩ := sd down hd
    obtain ⟨i, hi, rfl⟩ := List.mem_map.mp he
    rw [List.mem_range] at hi
    refine Or.inr ⟨1 + (i : Int), by omega, by omega, Or.inl ⟨NewExplosion_TilePosition _ _, ?_⟩⟩
    intro c h1 h2
    obtain ⟨i0, hi0, rfl⟩ := key k i c hi h1 h2
    exact hall i0 hi0
  · obtain ⟨k, hk, rfl, hall⟩ := su up hu
    obtain ⟨i, hi, rfl⟩ := List.mem_map.mp he
    rw [List.mem_range] at hi
    refine Or.inr ⟨1 + (i : Int), by omega, by omega,
      Or.inr (Or.inl ⟨NewExplosion_TilePosition _ _, ?_⟩)⟩
    intro c h1 h2
    obtain ⟨i0, hi0, rfl⟩ := key k i c hi h1 h2
    exact hall i0 hi0
  · obtain ⟨k, hk, rfl, hall⟩ := sr right hr
    obtain ⟨i, hi, rfl⟩ := List.mem_map.mp he
    rw [List.mem_range] at hi
    refine Or.inr ⟨1 + (i : Int), by omega, by omega,
      Or.inr (Or.inr (Or.inl ⟨NewExplosion_TilePosition _ _, ?_⟩))⟩
    intro c h1 h2
    obtain ⟨i0, hi0, rfl⟩ := key k i c hi h1 h2
    exact hall i0 hi0
  · obtain ⟨k, hk, rfl, hall⟩ := sl left hl
    obtain ⟨i, hi, rfl⟩ := List.mem_map.mp he
    rw [List.mem_range] at hi
    refine Or.inr ⟨1 + (i : Int), by omega, by omega,
      Or.inr (Or.inr (Or.inr ⟨NewExplosion_TilePosition _ _, ?_⟩))⟩
    intro c h1 h2
    obtain ⟨i0, hi0, rfl⟩ := key k i c hi h1 h2
    exact hall i0 hi0

theorem Terrain.not_letsExplosionThrough {t : Terrain} (hs : t.IsSolid = true)
    (hd : t.IsDestroyable = false) : t.letsExplosionThrough = false := by
  simp [Terrain.letsExplosionThrough, hs, hd]

/-- C3: whatever the grid, the bomb tile `(x, y)` and the range, if the tile at
distance `d0 ≥ 1` along one of the four axes (read as the host reads it,
`staticEntities[x][y]`) is solid and not destroyable, no explosion spawned by the
detonation lies on that axis at distance `d0` or more. -/
theorem hostSpawnExplosions_stops_at_wall (g : List (List Terrain)) (x y range : Int)
    (es : List Explosion) (h : hostSpawnExplosions g x y range = some es)
    (d0 : Int) (hd0 : 1 ≤ d0) (t : Terrain) (hs : t.IsSolid = true)
    (hnd : t.IsDestroyable = false) :
    (tileAt g x (y + d0) = some t →
      ∀ e ∈ es, ∀ d : Int, d0 ≤ d → e.TilePosition ≠ (x, y + d)) ∧
    (tileAt g x (y - d0) = some t →
      ∀ e ∈ es, ∀ d : Int, d0 ≤ d → e.TilePosition ≠ (x, y - d)) ∧
    (tileAt g (x + d0) y = some t →
      ∀ e ∈ es, ∀ d : Int, d0 ≤ d → e.TilePosition ≠ (x + d, y)) ∧
    (tileAt g (x - d0) y = some t →
      ∀ e ∈ es, ∀ d : Int, d0 ≤ d → e.TilePosition ≠ (x - d, y)) := by
  have hblock := Terrain.not_letsExplosionThrough hs hnd
  refine ⟨?_, ?_, ?_, ?_⟩
  · intro ht e he d hd hpos
    rcases hostSpawnExplosions_tiles h he with hc | ⟨d1, h1, -, hc | hc | hc | hc⟩
    · rw [hc] at hpos; simp only [Prod.mk.injEq, true_and] at hpos; omega
    · obtain ⟨hp, hall⟩ := hc
      rw [hp] at hpos; simp only [Prod.mk.injEq, true_and] at hpos
      obtain ⟨t1, ht1, hl⟩ := hall d0 hd0 (by omega)
      rw [ht] at ht1; cases ht1; rw [hblock] at hl; cases hl
    · rw [hc.1] at hpos; simp only [Prod.mk.injEq, true_and] at hpos; omega
    · rw [hc.1] at hpos; simp only [Prod.mk.injEq] at hpos; omega
    · rw [hc.1] at hpos; simp only [Prod.mk.injEq] at hpos; omega
  · intro ht e he d hd hpos
    rcases hostSpawnExplosions_tiles h he with hc | ⟨d1, h1, -, hc | hc | hc | hc⟩
    · rw [hc] at hpos; simp only [Prod.mk.injEq, true_and] at hpos; omega
    · rw [hc.1] at hpos; simp only [Prod.mk.injEq, true_and] at hpos; omega
    · obtain ⟨hp, hall⟩ := hc
      rw [hp] at hpos; simp only [Prod.mk.injEq, true_and] at hpos
      obtain ⟨t1, ht1, hl⟩ := hall d0 hd0 (by omega)
      rw [ht] at ht1; cases ht1; rw [hblock] at hl; cases hl
    · rw [hc.1] at hpos; simp only [Prod.mk.injEq] at hpos; omega
    · rw [hc.1] at hpos; simp only [Prod.mk.injEq] at hpos; omega
  · intro ht e he d hd hpos
    rcases hostSpawnExplosions_tiles h he with hc | ⟨d1, h1, -, hc | hc | hc | hc⟩
    · rw [hc] at hpos; simp only [Prod.mk.injEq, and_true] at hpos; omega
    · rw [hc.1] at hpos; simp only [Prod.mk.injEq] at hpos; omega
    · rw [hc.1] at hpos; simp only [Prod.mk.injEq] at hpos; omega
    · obtain ⟨hp, hall⟩ := hc
      rw [hp] at hpos; simp only [Prod.mk.injEq, and_true] at hpos
      obtain ⟨t1, ht1, hl⟩ := hall d0 hd0 (by omega)
      rw [ht] at ht1; cases ht1; rw [hblock] at hl; cases hl
    · rw [hc.1] at hpos; simp only [Prod.mk.injEq, and_true] at hpos; omega
  · intro ht e he d hd hpos
    rcases hostSpawnExplosions_tiles h he with hc | ⟨d1, h1, -, hc | hc | hc | hc⟩
    · rw [hc] at hpos; simp only [Prod.mk.injEq, and_true] at hpos; omega
    · rw [hc.1] at hpos; simp only [Prod.mk.injEq] at hpos; omega
    · rw [hc.1] at hpos; simp only [Prod.mk.injEq] at hpos; omega
    · rw [hc.1] at hpos; simp only [Prod.mk.injEq, and_true] at hpos; omega
    · obtain ⟨hp, hall⟩ := hc
      rw [hp] at hpos; simp only [Prod.mk.injEq, and_true] at hpos
      obtain ⟨t1, ht1, hl⟩ := hall d0 hd0 (by omega)
      rw [ht] at ht1; cases ht1; rw [hblock] at hl; cases hl

/-- Witness for C3: in `deadEndGrid` the bomb on tile (1,1) with range 2 reaches
(1,2) only; the wall on (1,3) keeps every explosion off (1,3) and beyond. -/
theorem hostSpawnExplosions_stops_at_wall_witness :
    hostSpawnExplosions deadEndGrid 1 1 2 = some [NewExplosion 16 16, NewExplosion 16 32] ∧
    ∀ e ∈ [NewExplosion 16 16, NewExplosion 16 32], ∀ d : Int, 2 ≤ d →
      e.TilePosition ≠ (1, 1 + d) :=
  ⟨by decide,
    (hostSpawnExplosions_stops_at_wall deadEndGrid 1 1 2 _ (by decide) 2 (by decide)
      (NewWall 16 48) rfl rfl).1 (by decide)⟩

/-- Along each of the four axes a detonation puts an explosion on the tiles at
distances `1..k` and on no other, for some `k` not above `ExplosionRange`, and each
of these tiles is destroyable or not solid. -/
theorem hostAxis_reaches_up_to_range (g : List (List Terrain)) (x y range : Int) :
    (∀ es, hostAxisDown g x y range = some es →
      ∃ k : Nat, (k : Int) ≤ max range 0 ∧
        es = (List.range k).map (fun i => NewExplosion (x * 16) ((y + (1 + (i : Nat))) * 16)) ∧
        ∀ i : Nat, i < k → ∃ t, tileAt g x (y + (1 + (i : Nat))) = some t ∧
          (t.IsDestroyable = true ∨ t.IsSolid = false)) ∧
    (∀ es, hostAxisUp g x y range = some es →
      ∃ k : Nat, (k : Int) ≤ max range 0 ∧
        es = (List.range k).map (fun i => NewExplosion (x * 16) ((y - (1 + (i : Nat))) * 16)) ∧
        ∀ i : Nat, i < k → ∃ t, tileAt g x (y - (1 + (i : Nat))) = some t ∧
          (t.IsDestroyable = true ∨ t.IsSolid = false)) ∧
    (∀ es, hostAxisRight g x y range = some es →
      ∃ k : Nat, (k : Int) ≤ max range 0 ∧
        es = (List.range k).map (fun i => NewExplosion ((x + (1 + (i : Nat))) * 16) (y * 16)) ∧
        ∀ i : Nat, i < k → ∃ t, tileAt g (x + (1 + (i : Nat))) y = some t ∧
          (t.IsDestroyable = true ∨ t.IsSolid = false)) ∧
    (∀ es, hostAxisLeft g x y range = some es →
      ∃ k : Nat, (k : Int) ≤ max range 0 ∧
        es = (List.range k).map (fun i => NewExplosion ((x - (1 + (i : Nat))) * 16) (y * 16)) ∧
        ∀ i : Nat, i < k → ∃ t, tileAt g (x - (1 + (i : Nat))) y = some t ∧
          (t.IsDestroyable = true ∨ t.IsSolid = false)) := by
  have conv : ∀ t : Terrain, t.letsExplosionThrough = true →
      (t.IsDestroyable = true ∨ t.IsSolid = false) := by
    intro t ht
    simpa [Terrain.letsExplosionThrough] using ht
  have bound : ∀ k : Nat, k ≤ range.toNat → (k : Int) ≤ max range 0 := by
    intro k hk; omega
  obtain ⟨sd, su, sr, sl⟩ := hostAxis_spec g x y range
  refine ⟨?_, ?_, ?_, ?_⟩
  · intro es h
    obtain ⟨k, hk, hes, hall⟩ := sd es h
    exact ⟨k, bound k hk, hes, fun i hi => (hall i hi).imp fun t ht => ⟨ht.1, conv t ht.2⟩⟩
  · intro es h
    obtain ⟨k, hk, hes, hall⟩ := su es h
    exact ⟨k, bound k hk, hes, fun i hi => (hall i hi).imp fun t ht => ⟨ht.1, conv t ht.2⟩⟩
  · intro es h
    obtain ⟨k, hk, hes, hall⟩ := sr es h
    exact ⟨k, bound k hk, hes, fun i hi => (hall i hi).imp fun t ht => ⟨ht.1, conv t ht.2⟩⟩
  · intro es h
    obtain ⟨k, hk, hes, hall⟩ := sl es h
    exact ⟨k, bound k hk, hes, fun i hi => (hall i hi).imp fun t ht => ⟨ht.1, conv t ht.2⟩⟩

/-- The first axis of the bomb in `twoBricksGrid`. -/
theorem hostAxis_reaches_up_to_range_witness :
    ∃ k : Nat, (k : Int) ≤ max 2 0 ∧
      [NewExplosion 16 32, NewExplosion 16 48]
        = (List.range k).map (fun i => NewExplosion (1 * 16) ((1 + (1 + (i : Nat))) * 16)) ∧
      ∀ i : Nat, i < k → ∃ t, tileAt twoBricksGrid 1 (1 + (1 + (i : Nat))) = some t ∧
        (t.IsDestroyable = true ∨ t.IsSolid = false) :=
  (hostAxis_reaches_up_to_range twoBricksGrid 1 1 2).1 _ (by decide)

/-! ## Host: bomb loop -/

theorem rotateLast_nil {α : Type} : rotateLast ([] : List α) = [] := rfl

theorem rotateLast_concat {α : Type} (R : List α) (z : α) : rotateLast (R ++ [z]) = z :: R := by
  simp [rotateLast]

theorem List.eq_nil_or_snoc {α : Type} (l : List α) : l = [] ∨ ∃ R z, l = R ++ [z] := by
  by_cases h : l = []
  · exact Or.inl h
  · exact Or.inr ⟨l.dropLast, l.getLast h, (List.dropLast_append_getLast h).symm⟩

theorem List.getElem?_append_cons_length {α : Type} (a b : List α) (x : α) :
    (a ++ x :: b)[a.length]? = some x := by
  induction a with
  | nil => simp
  | cons y a ih => simpa using ih

theorem List.set_append_cons_length {α : Type} (a b : List α) (x y : α) :
    (a ++ x :: b).set a.length y = a ++ y :: b := by
  induction a with
  | nil => rfl
  | cons z a ih => simp [ih]

theorem rotateLast_perm {α : Type} (l : List α) : (rotateLast l).Perm l := by
  rcases List.eq_nil_or_snoc l with rfl | ⟨R, z, rfl⟩
  · exact List.Perm.refl _
  · rw [rotateLast_concat]
    exact (List.perm_append_singleton z R).symm

theorem rotateLast_length {α : Type} (l : List α) : (rotateLast l).length = l.length :=
  (rotateLast_perm l).length_eq

theorem sliceSetToLast_mid {α : Type} (done R : List α) (x z : α) :
    sliceSetToLast (done ++ x :: (R ++ [z])) done.length = some (done ++ z :: (R ++ [z])) := by
  have hlen : (done ++ x :: (R ++ [z])).length - 1 = (done ++ x :: R).length := by
    simp
  have hlast : (done ++ x :: (R ++ [z]))[(done ++ x :: (R ++ [z])).length - 1]? = some z := by
    rw [hlen, show done ++ x :: (R ++ [z]) = (done ++ x :: R) ++ z :: [] by simp]
    exact List.getElem?_append_cons_length _ _ _
  unfold sliceSetToLast
  rw [hlast]
  simp only [List.set_append_cons_length]
  simp

theorem sliceDropLast_concat {α : Type} (l : List α) (z : α) :
    sliceDropLast (l ++ [z]) = some l := by
  simp [sliceDropLast]

theorem swapRemoveBoth_pairs {α β : Type} (done rest : List (α × β)) (x : α × β) :
    swapRemoveBoth ((done ++ x :: rest).map Prod.fst) ((done ++ x :: rest).map Prod.snd)
        done.length
      = some ((done ++ rotateLast rest).map Prod.fst, (done ++ rotateLast rest).map Prod.snd) := by
  rcases List.eq_nil_or_snoc rest with rfl | ⟨R, z, rfl⟩
  · have h1 : ¬ (done.length + 1 < (List.map Prod.fst (done ++ [x])).length) := by simp
    unfold swapRemoveBoth
    simp only [h1, if_false, rotateLast_nil, List.append_nil]
    rw [List.map_append, List.map_append, List.map_singleton, List.map_singleton,
      sliceDropLast_concat, sliceDropLast_concat]
  · have h1 : done.length + 1 < (List.map Prod.fst (done ++ x :: (R ++ [z]))).length := by
      simp
    have e1 : List.map Prod.fst (done ++ x :: (R ++ [z]))
        = done.map Prod.fst ++ x.1 :: (R.map Prod.fst ++ [z.1]) := by simp
    have e2 : List.map Prod.snd (done ++ x :: (R ++ [z]))
        = done.map Prod.snd ++ x.2 :: (R.map Prod.snd ++ [z.2]) := by simp
    have s1 := sliceSetToLast_mid (done.map Prod.fst) (R.map Prod.fst) x.1 z.1
    have s2 := sliceSetToLast_mid (done.map Prod.snd) (R.map Prod.snd) x.2 z.2
    rw [List.length_map] at s1 s2
    have d1 : sliceDropLast (done.map Prod.fst ++ z.1 :: (R.map Prod.fst ++ [z.1]))
        = some (done.map Prod.fst ++ z.1 :: R.map Prod.fst) := by
      rw [show done.map Prod.fst ++ z.1 :: (R.map Prod.fst ++ [z.1])
        = (done.map Prod.fst ++ z.1 :: R.map Prod.fst) ++ [z.1] by simp]
      exact sliceDropLast_concat _ _
    have d2 : sliceDropLast (done.map Prod.snd ++ z.2 :: (R.map Prod.snd ++ [z.2]))
        = some (done.map Prod.snd ++ z.2 :: R.map Prod.snd) := by
      rw [show done.map Prod.snd ++ z.2 :: (R.map Prod.snd ++ [z.2])
        = (done.map Prod.snd ++ z.2 :: R.map Prod.snd) ++ [z.2] by simp]
      exact sliceDropLast_concat _ _
    unfold swapRemoveBoth
    simp only [h1, if_true]
    rw [e1, e2, s1, s2]
    simp only [d1, d2, rotateLast_concat]
    simp

theorem Bomb.Update_frame (b : Bomb) :
    b.Update.1.X = b.X ∧ b.Update.1.Y = b.Y ∧ b.Update.1.Owner = b.Owner ∧
    b.Update.1.ExplosionRange = b.ExplosionRange ∧ b.Update.1.TilePosition = b.TilePosition := by
  unfold Bomb.Update Bomb.TilePosition
  split_ifs <;> simp

theorem hostBombLoop_pairs (fuel : Nat) :
    ∀ (todo done : List (Bomb × ProtoEntity)) (s : MultiPlayerGameSceneHost),
      todo.length = fuel →
      s.bombs = (done ++ todo).map Prod.fst →
      s.GameInfo.Bombs = (done ++ todo).map Prod.snd →
      (∀ pb ∈ todo, (hostSpawnExplosions s.staticEntities pb.1.TilePosition.1
        pb.1.TilePosition.2 pb.1.ExplosionRange).isSome = true) →
      ∃ (s1 : MultiPlayerGameSceneHost) (kept : List (Bomb × ProtoEntity)),
        hostBombLoop fuel done.length s = some s1 ∧
        s1.bombs = (done ++ kept).map Prod.fst ∧
        s1.GameInfo.Bombs = (done ++ kept).map Prod.snd ∧
        kept.Perm ((todo.filter (fun pb => !pb.1.Update.2)).map
          (fun pb => (pb.1.Update.1, pb.2))) ∧
        BombLoopFrame s s1 ((todo.filter (fun pb => pb.1.Update.2)).map Prod.fst) := by
  induction fuel with
  | zero =>
    intro todo done s hlen hb hp _
    have : todo = [] := List.length_eq_zero.mp hlen
    subst this
    refine ⟨s, [], ?_, hb, hp, by simp, ?_⟩
    · simp [hostBombLoop, hb]
    · exact ⟨rfl, rfl, rfl, rfl, rfl, rfl, rfl, rfl, rfl, by simp⟩
  | succ fuel ih =>
    intro todo done s hlen hb hp hsafe
    obtain ⟨⟨b, p⟩, rest, rfl⟩ : ∃ x rest, todo = x :: rest := by
      cases todo with
      | nil => simp at hlen
      | cons x rest => exact ⟨x, rest, rfl⟩
    have hrest : rest.length = fuel := by simpa using hlen
    have hget : s.bombs[done.length]? = some b := by
      rw [hb, List.map_append, List.map_cons]
      have := List.getElem?_append_cons_length (done.map Prod.fst) (rest.map Prod.fst) b
      rwa [List.length_map] at this
    have hset : s.bombs.set done.length b.Update.1
        = (done ++ (b.Update.1, p) :: rest).map Prod.fst := by
      rw [hb, List.map_append, List.map_cons, List.map_append, List.map_cons]
      have := List.set_append_cons_length (done.map Prod.fst) (rest.map Prod.fst) b b.Update.1
      rwa [List.length_map] at this
    unfold hostBombLoop
    simp only [hget]
    cases hfire : b.Update.2 with
    | false =>
      simp only [Bool.false_eq_true, if_false]
      have hsafe1 : ∀ pb ∈ rest, (hostSpawnExplosions s.staticEntities pb.1.TilePosition.1
          pb.1.TilePosition.2 pb.1.ExplosionRange).isSome = true :=
        fun pb hpb => hsafe pb (List.mem_cons_of_mem _ hpb)
      obtain ⟨s1, kept, hrun, hb1, hp1, hperm, hframe⟩ :=
        ih rest (done ++ [(b.Update.1, p)])
          { s with bombs := s.bombs.set done.length b.Update.1 } hrest
          (by rw [hset]; simp) (by rw [hp]; simp) hsafe1
      refine ⟨s1, (b.Update.1, p) :: kept, ?_, ?_, ?_, ?_, ?_⟩
      · simpa using hrun
      · simpa using hb1
      · simpa using hp1
      · simp only [List.filter_cons, hfire, Bool.not_false, if_true, List.map_cons]
        exact List.Perm.cons _ hperm
      · simp only [List.filter_cons, hfire, Bool.false_eq_true, if_false]
        exact ⟨hframe.1, hframe.2, hframe.3, hframe.4, hframe.5, hframe.6, hframe.7, hframe.8,
          hframe.9, hframe.10⟩
    | true =>
      simp only [if_true]
      have hs := hsafe (b, p) (List.mem_cons_self _ _)
      obtain ⟨spawned, hspawn⟩ := Option.isSome_iff_exists.mp hs
      have hfr := Bomb.Update_frame b
      have hswap := swapRemoveBoth_pairs done rest (b.Update.1, p)
      have hdet : hostDetonate { s with bombs := s.bombs.set done.length b.Update.1 }
          done.length b.Update.1
          = some { s with
              explosions := s.explosions ++ spawned,
              playerMem := incNumberOfBombs s.playerMem b.Owner,
              bombs := (done ++ rotateLast rest).map Prod.fst,
              GameInfo := { s.GameInfo with Bombs := (done ++ rotateLast rest).map Prod.snd } } := by
        unfold hostDetonate
        simp only [hfr.2.2.2.2, hfr.2.2.2.1, hfr.2.2.1, hspawn, hset]
        have hp2 : s.GameInfo.Bombs = List.map Prod.snd (done ++ (b.Update.1, p) :: rest) := by
          rw [hp]; simp
        rw [hp2, hswap]
      rw [hdet]
      have hsafe1 : ∀ pb ∈ rotateLast rest,
          (hostSpawnExplosions s.staticEntities pb.1.TilePosition.1
            pb.1.TilePosition.2 pb.1.ExplosionRange).isSome = true :=
        fun pb hpb => hsafe pb (List.mem_cons_of_mem _ ((rotateLast_perm rest).mem_iff.mp hpb))
      obtain ⟨s1, kept, hrun, hb1, hp1, hperm, hframe⟩ :=
        ih (rotateLast rest) done
          { s with
              explosions := s.explosions ++ spawned,
              playerMem := incNumberOfBombs s.playerMem b.Owner,
              bombs := (done ++ rotateLast rest).map Prod.fst,
              GameInfo := { s.GameInfo with Bombs := (done ++ rotateLast rest).map Prod.snd } }
          (by rw [rotateLast_length, hrest]) rfl rfl hsafe1
      refine ⟨s1, kept, hrun, hb1, hp1, ?_, ?_⟩
      · simp only [List.filter_cons, hfire, Bool.not_true, Bool.false_eq_true, if_false]
        exact hperm.trans (((rotateLast_perm rest).filter _).map _)
      · simp only [List.filter_cons, hfire, if_true, List.map_cons]
        refine ⟨hframe.1, hframe.2, hframe.3, hframe.4, hframe.5, hframe.6, hframe.7, hframe.8,
          hframe.9, ?_⟩
        intro o
        have hcount : ((List.filter (fun b => b.Owner == o)
            (List.map Prod.fst (List.filter (fun pb => pb.1.Update.2) (rotateLast rest)))).length)
            = ((List.filter (fun b => b.Owner == o)
            (List.map Prod.fst (List.filter (fun pb => pb.1.Update.2) rest))).length) :=
          ((((rotateLast_perm rest).filter _).map _).filter _).length_eq
        rw [hframe.10 o, hcount]
        simp only [incNumberOfBombs, List.filter_cons]
        by_cases ho : o = b.Owner
        · subst ho; simp; ring
        · have : (b.Owner == o) = false := by
            simp only [beq_eq_false_iff_ne, ne_eq]
            exact fun h => ho h.symm
          simp [ho, this]

/-- The bomb loop of the host tick on the player objects in memory (snapshot `Bombs`
as long as the live list, propagation not faulting): the loop ends; the bombs left,
paired with their snapshot entries, are exactly the bombs whose `Update` did not
report detonation (updated), each still with its own entry; both lists have shrunk by
one per detonated bomb; and the object at each address has had `NumberOfBombs` raised
by one for each detonated bomb whose `Owner` is that address. Whether that object is
still an element of `s.players` is another matter. -/
theorem hostBombPhase_removes_detonated (s : MultiPlayerGameSceneHost)
    (hlen : s.GameInfo.Bombs.length = s.bombs.length)
    (hsafe : ∀ b ∈ s.bombs, (hostSpawnExplosions s.staticEntities b.TilePosition.1
      b.TilePosition.2 b.ExplosionRange).isSome = true) :
    ∃ s1 : MultiPlayerGameSceneHost, hostBombPhase s = some s1 ∧
      (s1.bombs.zip s1.GameInfo.Bombs).Perm
        (((s.bombs.zip s.GameInfo.Bombs).filter (fun pb => !pb.1.Update.2)).map
          (fun pb => (pb.1.Update.1, pb.2))) ∧
      s1.GameInfo.Bombs.length = s1.bombs.length ∧
      s1.bombs.length + (s.bombs.filter (fun b => b.Update.2)).length = s.bombs.length ∧
      s1.GameInfo.Bombs.length + (s.bombs.filter (fun b => b.Update.2)).length
        = s.GameInfo.Bombs.length ∧
      ∀ o : Nat, (s1.playerMem o).NumberOfBombs
        = (s.playerMem o).NumberOfBombs
          + ((s.bombs.filter (fun b => b.Update.2 && b.Owner == o)).length : Int) := by
  have hfst : (s.bombs.zip s.GameInfo.Bombs).map Prod.fst = s.bombs :=
    List.map_fst_zip _ _ (by omega)
  have hsnd : (s.bombs.zip s.GameInfo.Bombs).map Prod.snd = s.GameInfo.Bombs :=
    List.map_snd_zip _ _ (by omega)
  have hzlen : (s.bombs.zip s.GameInfo.Bombs).length = s.bombs.length := by
    rw [List.length_zip, hlen, Nat.min_self]
  obtain ⟨s1, kept, hrun, hb1, hp1, hperm, hframe⟩ :=
    hostBombLoop_pairs s.bombs.length (s.bombs.zip s.GameInfo.Bombs) [] s hzlen
      (by simpa using hfst.symm) (by simpa using hsnd.symm)
      (by
        intro pb hpb
        exact hsafe pb.1 (by rw [← hfst]; exact List.mem_map_of_mem _ hpb))
  have hfired : (List.filter (fun pb : Bomb × ProtoEntity => pb.1.Update.2)
      (s.bombs.zip s.GameInfo.Bombs)).map Prod.fst = s.bombs.filter (fun b => b.Update.2) := by
    conv_rhs => rw [← hfst]
    rw [List.filter_map]
    rfl
  have hkeptlen : kept.length + (s.bombs.filter (fun b => b.Update.2)).length
      = s.bombs.length := by
    rw [hperm.length_eq, List.length_map, ← hfired, List.length_map, ← hzlen]
    have := List.length_eq_length_filter_add (l := s.bombs.zip s.GameInfo.Bombs)
      (fun pb : Bomb × ProtoEntity => pb.1.Update.2)
    omega
  simp only [List.nil_append] at hb1 hp1
  refine ⟨s1, hrun, ?_, ?_, ?_, ?_, ?_⟩
  · rw [hb1, hp1,
      ← (List.zip_of_prod rfl rfl : kept = (kept.map Prod.fst).zip (kept.map Prod.snd))]
    exact hperm
  · rw [hb1, hp1, List.length_map, List.length_map]
  · rw [hb1, List.length_map]; exact hkeptlen
  · rw [hp1, List.length_map, hlen]; exact hkeptlen
  · intro o
    rw [hframe.numberOfBombs o, hfired, List.filter_filter]
    have : (fun a : Bomb => a.Owner == o && a.Update.2)
        = (fun b : Bomb => b.Update.2 && b.Owner == o) := by
      funext b
      exact Bool.and_comm _ _
    rw [this]

/-- The bomb loop on `twoBricksHost`, whose only bomb goes off. -/
theorem hostBombPhase_removes_detonated_witness :
    ∃ s1 : MultiPlayerGameSceneHost, hostBombPhase twoBricksHost = some s1 ∧
      (s1.bombs.zip s1.GameInfo.Bombs).Perm
        (((twoBricksHost.bombs.zip twoBricksHost.GameInfo.Bombs).filter
          (fun pb => !pb.1.Update.2)).map (fun pb => (pb.1.Update.1, pb.2))) ∧
      s1.GameInfo.Bombs.length = s1.bombs.length ∧
      s1.bombs.length + (twoBricksHost.bombs.filter (fun b => b.Update.2)).length
        = twoBricksHost.bombs.length ∧
      s1.GameInfo.Bombs.length + (twoBricksHost.bombs.filter (fun b => b.Update.2)).length
        = twoBricksHost.GameInfo.Bombs.length ∧
      ∀ o : Nat, (s1.playerMem o).NumberOfBombs
        = (twoBricksHost.playerMem o).NumberOfBombs
          + ((twoBricksHost.bombs.filter (fun b => b.Update.2 && b.Owner == o)).length : Int) :=
  hostBombPhase_removes_detonated twoBricksHost (by decide) (by decide)

/-! ## Host: grids -/

theorem tileAt_bounds {g : List (List Terrain)} {cols : Nat} (hrect : RectGrid g cols)
    {x y : Int} {t : Terrain} (h : tileAt g x y = some t) :
    0 ≤ x ∧ x < g.length ∧ 0 ≤ y ∧ y < cols := by
  unfold tileAt at h
  split_ifs at h with hneg
  cases hrow : g[x.toNat]? with
  | none => simp [hrow] at h
  | some row =>
    simp only [hrow] at h
    have hx : x.toNat < g.length := (List.getElem?_eq_some.mp hrow).1
    have hmem : row ∈ g := List.getElem?_mem hrow
    have hy : y.toNat < row.length := (List.getElem?_eq_some.mp h).1
    rw [hrect row hmem] at hy
    omega

theorem tileAt_some {g : List (List Terrain)} {cols : Nat} (hrect : RectGrid g cols)
    {x y : Int} (hx0 : 0 ≤ x) (hx : x < g.length) (hy0 : 0 ≤ y) (hy : y < cols) :
    ∃ t, tileAt g x y = some t := by
  have hxn : x.toNat < g.length := by omega
  have hrow : g[x.toNat]? = some g[x.toNat] := List.getElem?_eq_getElem hxn
  have hlen : (g[x.toNat]).length = cols := hrect _ (List.getElem_mem _)
  have hyn : y.toNat < (g[x.toNat]).length := by omega
  refine ⟨(g[x.toNat])[y.toNat], ?_⟩
  unfold tileAt
  rw [if_neg (by omega), hrow]
  exact List.getElem?_eq_getElem hyn

theorem lenRow0_rect {g : List (List Terrain)} {cols : Nat} (hrect : RectGrid g cols)
    (hpos : 0 < g.length) : lenRow0 g = some cols := by
  unfold lenRow0
  have hrow : g[0]? = some g[0] := List.getElem?_eq_getElem hpos
  rw [hrow]
  simp only [Option.some.injEq]
  exact hrect _ (List.getElem_mem _)

theorem setTile_spec {g : List (List Terrain)} {cols : Nat} (hrect : RectGrid g cols)
    {x y : Int} {t0 : Terrain} (h : tileAt g x y = some t0) (t : Terrain) :
    ∃ g1, setTile g x y t = some g1 ∧ RectGrid g1 cols ∧
      ∀ x1 y1 : Int, tileAt g1 x1 y1 = if x1 = x ∧ y1 = y then some t else tileAt g x1 y1 := by
  obtain ⟨hx0, hx, hy0, hy⟩ := tileAt_bounds hrect h
  have hxn : x.toNat < g.length := by omega
  have hrow : g[x.toNat]? = some g[x.toNat] := List.getElem?_eq_getElem hxn
  have hlen : (g[x.toNat]).length = cols := hrect _ (List.getElem_mem _)
  have hyn : y.toNat < (g[x.toNat]).length := by omega
  refine ⟨g.set x.toNat ((g[x.toNat]).set y.toNat t), ?_, ?_, ?_⟩
  · unfold setTile
    rw [if_neg (by omega), hrow]
    simp only [hyn, if_true]
  · intro row hmem
    rcases List.mem_or_eq_of_mem_set hmem with hm | rfl
    · exact hrect row hm
    · rw [List.length_set]; exact hlen
  · intro x1 y1
    unfold tileAt
    by_cases hneg : x1 < 0 ∨ y1 < 0
    · have : ¬ (x1 = x ∧ y1 = y) := by omega
      simp [hneg, this]
    · rw [if_neg hneg, if_neg hneg]
      by_cases hxe : x1 = x
      · subst hxe
        rw [List.getElem?_set_self hxn, hrow]
        simp only [true_and]
        by_cases hye : y1 = y
        · subst hye
          rw [List.getElem?_set_self hyn]; simp
        · have : y.toNat ≠ y1.toNat := by omega
          rw [List.getElem?_set_ne this]; simp [hye]
      · have : x.toNat ≠ x1.toNat := by omega
        rw [List.getElem?_set_ne this]
        simp [hxe]

theorem hostRoundEnd_frame (gi : ProtoGameInfo) :
    (hostRoundEnd gi).TerrainChanges = gi.TerrainChanges ∧
    (hostRoundEnd gi).Bombs = gi.Bombs ∧
    (hostRoundEnd gi).Explosions = gi.Explosions := by
  unfold hostRoundEnd
  generalize hgi : ({ gi with GameState := GameStateEnd } : ProtoGameInfo) = gi1
  have h1 : gi1.TerrainChanges = gi.TerrainChanges ∧ gi1.Bombs = gi.Bombs ∧
      gi1.Explosions = gi.Explosions := by subst hgi; exact ⟨rfl, rfl, rfl⟩
  clear hgi
  rw [← h1.1, ← h1.2.1, ← h1.2.2]
  clear h1
  induction gi.Players generalizing gi1 with
  | nil => exact ⟨rfl, rfl, rfl⟩
  | cons p rest ih =>
    unfold hostRoundEndLoop
    split_ifs
    · exact ⟨rfl, rfl, rfl⟩
    · exact ih gi1

/-! ## Host: a bomb on tile (3,1) -/

theorem BlastInv.of_not_destroyable {cols : Nat} {hit : Bool} {s : MultiPlayerGameSceneHost}
    (hinv : BlastInv cols hit s) (x y : Int)
    (hnd : ∀ t, tileAt s.staticEntities x y = some t → t.IsDestroyable = false) :
    BlastInv cols (hit || decide (x = 3 ∧ y = 3)) s := by
  have hsame : (hit || decide (x = 3 ∧ y = 3)) = hit := by
    cases hit with
    | true => rfl
    | false =>
      simp only [Bool.false_or, decide_eq_false_iff_not]
      rintro ⟨rfl, rfl⟩
      obtain ⟨t, ht, hd⟩ := hinv.brick rfl
      rw [hnd t ht] at hd
      cases hd
  rw [hsame]
  exact hinv

theorem hostDestroyTerrain_blast {cols : Nat} {hit : Bool} {s : MultiPlayerGameSceneHost}
    (hinv : BlastInv cols hit s) (x y : Int) :
    ∃ s1, hostDestroyTerrain s x y = some s1 ∧
      BlastInv cols (hit || decide (x = 3 ∧ y = 3)) s1 ∧
      s1.explosions = s.explosions ∧ s1.bombs = s.bombs ∧
      s1.GameInfo.Explosions = s.GameInfo.Explosions ∧
      s1.GameInfo.Bombs = s.GameInfo.Bombs := by
  unfold hostDestroyTerrain
  by_cases hg : x ≥ 0 ∧ x < s.staticEntities.length ∧ y ≥ 0 ∧ s.staticEntities.length > 0
  · simp only [hg, and_self, if_true, lenRow0_rect hinv.rect hg.2.2.2]
    by_cases hy : y < cols
    · obtain ⟨t, ht⟩ := tileAt_some hinv.rect hg.1 hg.2.1 hg.2.2.1 hy
      simp only [hy, if_true, ht]
      cases hdes : t.IsDestroyable with
      | false =>
        simp only [Bool.false_eq_true, if_false]
        refine ⟨s, rfl, hinv.of_not_destroyable x y ?_, rfl, rfl, rfl, rfl⟩
        intro t1 ht1
        rw [ht] at ht1; cases ht1; exact hdes
      | true =>
        obtain ⟨hhit, rfl, rfl⟩ := hinv.onlyTile x y t ht hdes
        subst hhit
        obtain ⟨g1, hset, hrect1, htile1⟩ :=
          setTile_spec hinv.rect ht (NewGrass (3 * 16) (3 * 16))
        simp only [if_true, hset]
        refine ⟨_, rfl, ?_, rfl, rfl, rfl, rfl⟩
        refine ⟨hrect1, hinv.boxes, ?_, ?_, ?_⟩
        · intro x1 y1 t1 ht1 hd1
          rw [htile1] at ht1
          split_ifs at ht1 with hpos
          · cases ht1; cases hd1
          · obtain ⟨-, hx, hy1⟩ := hinv.onlyTile x1 y1 t1 ht1 hd1
            exact absurd ⟨hx, hy1⟩ hpos
        · intro h; cases h
        · simp [hinv.log]
    · simp only [hy, if_false]
      refine ⟨s, rfl, hinv.of_not_destroyable x y ?_, rfl, rfl, rfl, rfl⟩
      intro t1 ht1
      exact absurd (tileAt_bounds hinv.rect ht1).2.2.2 hy
  · simp only [hg, if_false]
    refine ⟨s, rfl, hinv.of_not_destroyable x y ?_, rfl, rfl, rfl, rfl⟩
    intro t1 ht1
    obtain ⟨h1, h2, h3, -⟩ := tileAt_bounds hinv.rect ht1
    exact absurd ⟨h1, h2, h3, by omega⟩ hg

theorem hostKeepExplosion_blast {cols : Nat} {hit : Bool} {s : MultiPlayerGameSceneHost}
    (hinv : BlastInv cols hit s) (i : Nat) (hlen : s.GameInfo.Explosions.length = i)
    (e : Explosion) :
    ∃ s1, hostKeepExplosion s i e = some s1 ∧
      BlastInv cols (hit || decide (e.TilePosition.1 = 3 ∧ e.TilePosition.2 = 3)) s1 ∧
      s1.explosions = s.explosions ∧ s1.bombs = s.bombs ∧
      s1.GameInfo.Explosions.length = i + 1 ∧
      s1.GameInfo.Bombs = s.GameInfo.Bombs := by
  have hget : (s.GameInfo.Explosions ++ [ProtoEntity.at e.X e.Y])[i]?
      = some (ProtoEntity.at e.X e.Y) := by
    rw [← hlen]; exact List.getElem?_append_cons_length _ _ _
  have hinv1 : BlastInv cols hit
      { s with GameInfo := { s.GameInfo with
          Explosions := (s.GameInfo.Explosions ++ [ProtoEntity.at e.X e.Y]).set i
            { ProtoEntity.at e.X e.Y with X := e.X, Y := e.Y } } } :=
    ⟨hinv.rect, hinv.boxes, hinv.onlyTile, hinv.brick, hinv.log⟩
  obtain ⟨s1, hrun, hb, hex, hbs, hsx, hsb⟩ :=
    hostDestroyTerrain_blast hinv1 e.TilePosition.1 e.TilePosition.2
  refine ⟨s1, ?_, hb, hex, hbs, ?_, hsb⟩
  · unfold hostKeepExplosion
    simp only [ge_iff_le, hlen, le_refl, if_true, hget, hinv.boxes, hostBoxLoop]
    exact hrun
  · rw [hsx]
    simp [hlen]

theorem Explosion.Update_fresh (e : Explosion) (h : e.time = 90) :
    e.Update = ({ e with time := 89 }, false) := by
  simp [Explosion.Update, h]

theorem hostExplosionLoop_blast (fuel : Nat) :
    ∀ (todo done : List Explosion) (hit : Bool) (cols : Nat) (s : MultiPlayerGameSceneHost),
      todo.length = fuel → s.explosions = done ++ todo →
      s.GameInfo.Explosions.length = done.length →
      (∀ e ∈ todo, e.time = 90) → BlastInv cols hit s →
      ∃ s1, hostExplosionLoop fuel done.length s = some s1 ∧
        BlastInv cols
          (hit || todo.any (fun e => decide (e.TilePosition.1 = 3 ∧ e.TilePosition.2 = 3))) s1 ∧
        s1.bombs = s.bombs ∧ s1.GameInfo.Bombs = s.GameInfo.Bombs := by
  induction fuel with
  | zero =>
    intro todo done hit cols s hlen hex _ _ hinv
    have : todo = [] := List.length_eq_zero.mp hlen
    subst this
    refine ⟨s, ?_, by simpa using hinv, rfl, rfl⟩
    simp [hostExplosionLoop, hex]
  | succ fuel ih =>
    intro todo done hit cols s hlen hex hsnap hfresh hinv
    obtain ⟨e, rest, rfl⟩ : ∃ x rest, todo = x :: rest := by
      cases todo with
      | nil => simp at hlen
      | cons x rest => exact ⟨x, rest, rfl⟩
    have hrest : rest.length = fuel := by simpa using hlen
    have hget : s.explosions[done.length]? = some e := by
      rw [hex]; exact List.getElem?_append_cons_length _ _ _
    have hupd := Explosion.Update_fresh e (hfresh e (List.mem_cons_self _ _))
    have hset : s.explosions.set done.length { e with time := 89 }
        = done ++ { e with time := 89 } :: rest := by
      rw [hex]; exact List.set_append_cons_length _ _ _ _
    have hinv1 : BlastInv cols hit
        { s with explosions := s.explosions.set done.length { e with time := 89 } } :=
      ⟨hinv.rect, hinv.boxes, hinv.onlyTile, hinv.brick, hinv.log⟩
    obtain ⟨s1, hkeep, hb1, hex1, hbs1, hsx1, hsb1⟩ :=
      hostKeepExplosion_blast hinv1 done.length hsnap { e with time := 89 }
    obtain ⟨s2, hrun, hb2, hbs2, hsb2⟩ :=
      ih rest (done ++ [{ e with time := 89 }]) _ cols s1 hrest
        (by rw [hex1]; simp [hset]) (by rw [hsx1]; simp)
        (fun e1 he1 => hfresh e1 (List.mem_cons_of_mem _ he1)) hb1
    refine ⟨s2, ?_, ?_, ?_, ?_⟩
    · unfold hostExplosionLoop
      simp only [hget, hupd, Bool.false_eq_true, if_false, hkeep]
      simpa using hrun
    · have htile : ({ e with time := 89 } : Explosion).TilePosition = e.TilePosition := rfl
      rw [htile] at hb2
      simpa [List.any_cons, Bool.or_assoc] using hb2
    · rw [hbs2, hbs1]
    · rw [hsb2, hsb1]

theorem hostAxisLoop_total (cond : Int → Option Bool) (spawn : Int → Explosion) (n : Nat) :
    ∀ (j : Int) (acc : List Explosion), (∀ c : Int, j ≤ c → (cond c).isSome = true) →
      ∃ es, hostAxisLoop cond spawn n j acc = some es := by
  induction n with
  | zero => intro j acc _; exact ⟨acc, rfl⟩
  | succ n ih =>
    intro j acc h
    obtain ⟨b, hb⟩ := Option.isSome_iff_exists.mp (h j (le_refl _))
    unfold hostAxisLoop
    rw [hb]
    cases b with
    | false => exact ⟨acc, rfl⟩
    | true => exact ih (j + 1) _ (fun c hc => h c (by omega))

/-- On a rectangular, non-empty grid a detonation on a tile with non-negative
coordinates never indexes out of range. -/
theorem hostSpawnExplosions_total {g : List (List Terrain)} {cols : Nat}
    (hrect : RectGrid g cols) (hpos : 0 < g.length) {x y : Int} (hx : 0 ≤ x) (hy : 0 ≤ y)
    (range : Int) : ∃ es, hostSpawnExplosions g x y range = some es := by
  have hrow := lenRow0_rect hrect hpos
  have hd : ∀ c : Int, 1 ≤ c → (hostCondDown g x y c).isSome = true := by
    intro c hc
    unfold hostCondDown
    split_ifs with h1
    · rw [hrow]
      simp only
      split_ifs with h2
      · obtain ⟨t, ht⟩ := tileAt_some hrect hx h1.2.2.1 (by omega : 0 ≤ y + c) h2
        rw [ht]; rfl
      · rfl
    · rfl
  have hu : ∀ c : Int, 1 ≤ c → (hostCondUp g x y c).isSome = true := by
    intro c hc
    unfold hostCondUp
    split_ifs with h1
    · rw [hrow]
      simp only
      split_ifs with h2
      · obtain ⟨t, ht⟩ := tileAt_some hrect hx h1.2.2.1 h1.1 h2
        rw [ht]; rfl
      · rfl
    · rfl
  have hr : ∀ c : Int, 1 ≤ c → (hostCondRight g x y c).isSome = true := by
    intro c hc
    unfold hostCondRight
    split_ifs with h1
    · rw [hrow]
      simp only
      split_ifs with h2
      · obtain ⟨t, ht⟩ := tileAt_some hrect (by omega : 0 ≤ x + c) h2.2.2 hy h2.1
        rw [ht]; rfl
      · rfl
    · rfl
  have hl : ∀ c : Int, 1 ≤ c → (hostCondLeft g x y c).isSome = true := by
    intro c hc
    unfold hostCondLeft
    split_ifs with h1
    · rw [hrow]
      simp only
      split_ifs with h2
      · obtain ⟨t, ht⟩ := tileAt_some hrect h1.1 h2.2.2 hy h2.1
        rw [ht]; rfl
      · rfl
    · rfl
  obtain ⟨d, hd1⟩ := hostAxisLoop_total (hostCondDown g x y)
    (fun j => NewExplosion (x * 16) ((y + j) * 16)) range.toNat 1 [] hd
  obtain ⟨u, hu1⟩ := hostAxisLoop_total (hostCondUp g x y)
    (fun j => NewExplosion (x * 16) ((y - j) * 16)) range.toNat 1 [] hu
  obtain ⟨r, hr1⟩ := hostAxisLoop_total (hostCondRight g x y)
    (fun j => NewExplosion ((x + j) * 16) (y * 16)) range.toNat 1 [] hr
  obtain ⟨l, hl1⟩ := hostAxisLoop_total (hostCondLeft g x y)
    (fun j => NewExplosion ((x - j) * 16) (y * 16)) range.toNat 1 [] hl
  refine ⟨NewExplosion (x * 16) (y * 16) :: (d ++ u ++ r ++ l), ?_⟩
  unfold hostSpawnExplosions hostAxisDown hostAxisUp hostAxisRight hostAxisLeft
  rw [hd1, hu1, hr1, hl1]

theorem hostSpawnExplosions_fresh {g : List (List Terrain)} {x y range : Int}
    {es : List Explosion} (h : hostSpawnExplosions g x y range = some es) :
    ∀ e ∈ es, e.time = 90 := by
  obtain ⟨down, up, right, left, hd, hu, hr, hl, rfl⟩ := hostSpawnExplosions_eq h
  obtain ⟨sd, su, sr, sl⟩ := hostAxis_spec g x y range
  obtain ⟨_, _, rfl, _⟩ := sd down hd
  obtain ⟨_, _, rfl, _⟩ := su up hu
  obtain ⟨_, _, rfl, _⟩ := sr right hr
  obtain ⟨_, _, rfl, _⟩ := sl left hl
  intro e he
  simp only [List.mem_cons, List.mem_append, List.mem_map, List.mem_range] at he
  rcases he with rfl | ((⟨_, _, rfl⟩ | ⟨_, _, rfl⟩) | ⟨_, _, rfl⟩) | ⟨_, _, rfl⟩ <;> rfl

/-- The first loop of a range-2 bomb on tile (3,1) reaches (3,2) and (3,3) when (3,2)
is open and (3,3) destroyable. -/
theorem hostAxisDown_3_1 {g : List (List Terrain)} {cols : Nat} (hrect : RectGrid g cols)
    {t32 t33 : Terrain} (h32 : tileAt g 3 2 = some t32) (hopen : t32.IsSolid = false)
    (h33 : tileAt g 3 3 = some t33) (hd33 : t33.IsDestroyable = true) :
    hostAxisDown g 3 1 2 = some [NewExplosion 48 32, NewExplosion 48 48] := by
  obtain ⟨-, hlen, -, hcols⟩ := tileAt_bounds hrect h33
  have hrow := lenRow0_rect hrect (by omega : 0 < g.length)
  have c1 : hostCondDown g 3 1 1 = some true := by
    unfold hostCondDown
    rw [if_pos (by omega), hrow]
    simp only
    rw [if_pos (by omega), show (1 : Int) + 1 = 2 from rfl, h32]
    simp [Terrain.letsExplosionThrough, hopen]
  have c2 : hostCondDown g 3 1 2 = some true := by
    unfold hostCondDown
    rw [if_pos (by omega), hrow]
    simp only
    rw [if_pos (by omega), show (1 : Int) + 2 = 3 from rfl, h33]
    simp [Terrain.letsExplosionThrough, hd33]
  have e2 : (2 : Int).toNat = 2 := rfl
  unfold hostAxisDown
  rw [e2]
  unfold hostAxisLoop
  simp only [c1]
  unfold hostAxisLoop
  rw [show (1 : Int) + 1 = 2 from rfl]
  simp only [c2]
  unfold hostAxisLoop
  rfl

theorem hostUpdateWorld_fuse {g : List (List Terrain)} {b0 : Bomb} {k : Nat}
    {s : MultiPlayerGameSceneHost} (hinv : FuseInv g b0 k s)
    (hman : b0.manualDetonate = false) (hk : k < 179) :
    ∃ s1, hostUpdateWorld s = some s1 ∧ FuseInv g b0 (k + 1) s1 := by
  have hupd : ({ b0 with time := 180 - (k : Int) } : Bomb).Update
      = ({ b0 with time := 180 - ((k + 1 : Nat) : Int) }, false) := by
    unfold Bomb.Update
    simp only [hman, Bool.not_false, if_true, Prod.mk.injEq, decide_eq_false_iff_not]
    constructor
    · rw [show (180 : Int) - (k : Int) - 1 = 180 - ((k + 1 : Nat) : Int) by omega]
    · omega
  have hbomb : hostBombPhase s
      = some { s with bombs := [{ b0 with time := 180 - ((k + 1 : Nat) : Int) }] } := by
    unfold hostBombPhase
    rw [hinv.bombs]
    simp only [List.length_singleton]
    unfold hostBombLoop
    simp only [hinv.bombs, List.getElem?_cons_zero, hupd, Bool.false_eq_true, if_false,
      List.set_cons_zero]
    unfold hostBombLoop
    simp
  have hexp : hostExplosionPhase
      { s with bombs := [{ b0 with time := 180 - ((k + 1 : Nat) : Int) }] }
      = some { s with bombs := [{ b0 with time := 180 - ((k + 1 : Nat) : Int) }] } := by
    unfold hostExplosionPhase
    simp only [hinv.explosions, List.length_nil]
    unfold hostExplosionLoop
    simp [hinv.explosions]
  have hf := hostRoundEnd_frame s.GameInfo
  refine ⟨{ s with
      bombs := [{ b0 with time := 180 - ((k + 1 : Nat) : Int) }],
      GameInfo := hostRoundEnd s.GameInfo }, ?_, ?_⟩
  · unfold hostUpdateWorld
    rw [hbomb]
    simp only []
    rw [hexp]
  · refine ⟨hinv.grid, rfl, ?_, hinv.explosions, ?_, hinv.boxes, ?_⟩
    · show (hostRoundEnd s.GameInfo).Bombs.length = 1
      rw [hf.2.1]; exact hinv.snap
    · show (hostRoundEnd s.GameInfo).Explosions = []
      rw [hf.2.2]; exact hinv.snapExplosions
    · show (hostRoundEnd s.GameInfo).TerrainChanges = []
      rw [hf.1]; exact hinv.log

theorem hostUpdateWorldTimes_fuse {g : List (List Terrain)} {b0 : Bomb}
    {s : MultiPlayerGameSceneHost} (hinv : FuseInv g b0 0 s)
    (hman : b0.manualDetonate = false) (k : Nat) (hk : k ≤ 179) :
    ∃ sk, hostUpdateWorldTimes k s = some sk ∧ FuseInv g b0 k sk := by
  induction k with
  | zero => exact ⟨s, rfl, hinv⟩
  | succ k ih =>
    obtain ⟨sk, hrun, hk1⟩ := ih (by omega)
    obtain ⟨s1, hstep, hk2⟩ := hostUpdateWorld_fuse hk1 hman (by omega)
    refine ⟨s1, ?_, hk2⟩
    unfold hostUpdateWorldTimes
    rw [hrun]
    exact hstep

theorem hostBombPhase_last_tick {g : List (List Terrain)} {addr owner : Nat}
    {s : MultiPlayerGameSceneHost} (hinv : FuseInv g (NewBomb addr owner 2 48 16) 179 s)
    {spawned : List Explosion} (hspawn : hostSpawnExplosions g 3 1 2 = some spawned) :
    hostBombPhase s = some { s with
      explosions := spawned,
      playerMem := incNumberOfBombs s.playerMem owner,
      bombs := [],
      GameInfo := { s.GameInfo with Bombs := [] } } := by
  obtain ⟨p, hp⟩ : ∃ p, s.GameInfo.Bombs = [p] := List.length_eq_one.mp hinv.snap
  have hb : s.bombs = [{ NewBomb addr owner 2 48 16 with time := 1 }] := by
    rw [hinv.bombs]; rfl
  have hupd : ({ NewBomb addr owner 2 48 16 with time := 1 } : Bomb).Update
      = ({ NewBomb addr owner 2 48 16 with time := 0 }, true) := by
    simp [Bomb.Update, NewBomb]
  have htile : ({ NewBomb addr owner 2 48 16 with time := 0 } : Bomb).TilePosition = (3, 1) := by
    simp [Bomb.TilePosition, NewBomb]
  have hswap : ∀ b : Bomb, swapRemoveBoth [b] [p] 0 = some ([], []) := by
    intro b
    simp [swapRemoveBoth, sliceDropLast]
  have hdet : hostDetonate
      { s with bombs := [({ NewBomb addr owner 2 48 16 with time := 0 } : Bomb)] } 0
      { NewBomb addr owner 2 48 16 with time := 0 }
      = some { s with
          explosions := spawned,
          playerMem := incNumberOfBombs s.playerMem owner,
          bombs := [],
          GameInfo := { s.GameInfo with Bombs := [] } } := by
    unfold hostDetonate
    rw [htile]
    simp only [hinv.grid]
    have hr : ({ NewBomb addr owner 2 48 16 with time := 0 } : Bomb).ExplosionRange = 2 := rfl
    have ho : ({ NewBomb addr owner 2 48 16 with time := 0 } : Bomb).Owner = owner := rfl
    rw [hr, ho, hspawn]
    simp only [hp, hswap, hinv.explosions, List.nil_append]
  unfold hostBombPhase
  rw [hb]
  simp only [List.length_singleton]
  unfold hostBombLoop
  simp only [hb, List.getElem?_cons_zero, hupd, if_true, List.set_cons_zero, hdet]
  unfold hostBombLoop
  simp

/-- C5: on the host, in a rectangular grid (tiles as the host indexes them,
`staticEntities[x][y]`) whose only destroyable tile is (3,3) and whose tile (3,2) is
open, with no boxes and no explosion under way, a range-2 bomb placed on tile (3,1)
leaves the terrain log empty for 179 ticks, and after the 180th
tick the log holds exactly one Terrain Change Record, (3,3) to GRASS; no record exists
for any other tile, in particular none beyond a solid block. -/
theorem host_bomb_on_3_1_logs_only_3_3 (s : MultiPlayerGameSceneHost) (addr owner cols : Nat)
    (t32 t33 : Terrain)
    (hrect : RectGrid s.staticEntities cols)
    (h32 : tileAt s.staticEntities 3 2 = some t32) (hopen : t32.IsSolid = false)
    (h33 : tileAt s.staticEntities 3 3 = some t33) (hd33 : t33.IsDestroyable = true)
    (honly : ∀ (x y : Int) (t : Terrain), tileAt s.staticEntities x y = some t →
      t.IsDestroyable = true → x = 3 ∧ y = 3)
    (hbombs : s.bombs = [NewBomb addr owner 2 (3 * 16) (1 * 16)])
    (hsnap : s.GameInfo.Bombs.length = 1)
    (hexp : s.explosions = []) (hsexp : s.GameInfo.Explosions = [])
    (hboxes : s.boxes = []) (hlog : s.GameInfo.TerrainChanges = []) :
    (∀ k : Nat, k < 180 →
      ∃ sk, hostUpdateWorldTimes k s = some sk ∧ sk.GameInfo.TerrainChanges = []) ∧
    ∃ s1, hostUpdateWorldTimes 180 s = some s1 ∧
      s1.GameInfo.TerrainChanges = [{ X := 3, Y := 3, To := "GRASS" }] := by
  have hinv0 : FuseInv s.staticEntities (NewBomb addr owner 2 48 16) 0 s :=
    ⟨rfl, by rw [hbombs]; rfl, hsnap, hexp, hsexp, hboxes, hlog⟩
  constructor
  · intro k hk
    obtain ⟨sk, hrun, hinvk⟩ := hostUpdateWorldTimes_fuse hinv0 rfl k (by omega)
    exact ⟨sk, hrun, hinvk.log⟩
  · obtain ⟨sk, hrun, hinvk⟩ := hostUpdateWorldTimes_fuse hinv0 rfl 179 (le_refl _)
    obtain ⟨-, hlen, -, -⟩ := tileAt_bounds hrect h33
    obtain ⟨spawned, hspawn⟩ := hostSpawnExplosions_total hrect (by omega : 0 < s.staticEntities.length)
      (by decide : (0 : Int) ≤ 3) (by decide : (0 : Int) ≤ 1) 2
    have hbomb := hostBombPhase_last_tick hinvk hspawn
    have hfresh := hostSpawnExplosions_fresh hspawn
    have hmem : NewExplosion 48 48 ∈ spawned := by
      obtain ⟨down, up, right, left, hd, -, -, -, rfl⟩ := hostSpawnExplosions_eq hspawn
      rw [hostAxisDown_3_1 hrect h32 hopen h33 hd33] at hd
      cases hd
      simp
    have hany : spawned.any (fun e => decide (e.TilePosition.1 = 3 ∧ e.TilePosition.2 = 3))
        = true := by
      rw [List.any_eq_true]
      exact ⟨NewExplosion 48 48, hmem, by decide⟩
    have hblast : BlastInv cols false
        { sk with
          explosions := spawned,
          playerMem := incNumberOfBombs sk.playerMem owner,
          bombs := [],
          GameInfo := { sk.GameInfo with Bombs := [] } } := by
      refine ⟨?_, hinvk.boxes, ?_, ?_, ?_⟩
      · show RectGrid sk.staticEntities cols
        rw [hinvk.grid]; exact hrect
      · intro x y t ht hd
        have ht1 : tileAt s.staticEntities x y = some t := by rw [← hinvk.grid]; exact ht
        exact ⟨rfl, honly x y t ht1 hd⟩
      · intro _
        refine ⟨t33, ?_, hd33⟩
        show tileAt sk.staticEntities 3 3 = some t33
        rw [hinvk.grid]; exact h33
      · exact hinvk.log
    obtain ⟨s2, hloop, hb2, -, -⟩ :=
      hostExplosionLoop_blast spawned.length spawned [] false cols _ rfl
        (by simp) (by show sk.GameInfo.Explosions.length = 0; rw [hinvk.snapExplosions]; rfl)
        hfresh hblast
    rw [Bool.false_or, hany] at hb2
    refine ⟨{ s2 with GameInfo := hostRoundEnd s2.GameInfo }, ?_, ?_⟩
    · show hostUpdateWorldTimes (179 + 1) s = _
      unfold hostUpdateWorldTimes
      rw [hrun]
      simp only []
      unfold hostUpdateWorld
      rw [hbomb]
      simp only []
      unfold hostExplosionPhase
      simp only [List.length_nil] at hloop
      rw [hloop]
    · show (hostRoundEnd s2.GameInfo).TerrainChanges = _
      rw [(hostRoundEnd_frame _).1, hb2.log]
      rfl

theorem oneBrickGrid_rect : RectGrid oneBrickGrid 5 := by
  decide

theorem oneBrickGrid_only (x y : Int) (t : Terrain) (h : tileAt oneBrickGrid x y = some t)
    (hd : t.IsDestroyable = true) : x = 3 ∧ y = 3 := by
  obtain ⟨hx0, hx, hy0, hy⟩ := tileAt_bounds oneBrickGrid_rect h
  have hx5 : x < 5 := hx
  have key : ∀ i j : Fin 5,
      (tileAt oneBrickGrid (i.val : Int) (j.val : Int)).map Terrain.IsDestroyable = some true →
        i.val = 3 ∧ j.val = 3 := by decide
  have hxe : ((x.toNat : Nat) : Int) = x := Int.toNat_of_nonneg hx0
  have hye : ((y.toNat : Nat) : Int) = y := Int.toNat_of_nonneg hy0
  have := key ⟨x.toNat, by omega⟩ ⟨y.toNat, by omega⟩ (by
    show (tileAt oneBrickGrid ((x.toNat : Nat) : Int) ((y.toNat : Nat) : Int)).map _ = _
    rw [hxe, hye, h]
    simp [hd])
  simp only at this
  omega

/-- Witness for C5: a 5x5 map of grass with one destroyable block on (3,3). -/
theorem host_bomb_on_3_1_logs_only_3_3_witness :
    (∀ k : Nat, k < 180 →
      ∃ sk, hostUpdateWorldTimes k oneBrickHost = some sk ∧ sk.GameInfo.TerrainChanges = []) ∧
    ∃ s1, hostUpdateWorldTimes 180 oneBrickHost = some s1 ∧
      s1.GameInfo.TerrainChanges = [{ X := 3, Y := 3, To := "GRASS" }] :=
  host_bomb_on_3_1_logs_only_3_3 oneBrickHost 0 0 5 (NewGrass 48 32) (NewDestroyAbleSolid 48 48)
    oneBrickGrid_rect (by decide) rfl (by decide) rfl oneBrickGrid_only rfl rfl rfl rfl rfl rfl

/-! ## Monsters: equal deltas -/

/-- C11 (counterexample): a monster at (0,0) with its target at (1,1) has equal,
non-zero horizontal and vertical deltas, and `directionTowardsTarget` answers
1 (down), which is neither left (2) nor right (3). -/
theorem directionTowardsTarget_tie_goes_down :
    |(1 : ℚ) - 0| = |(1 : ℚ) - 0| ∧ (1 : ℚ) - 0 ≠ 0 ∧
    directionTowardsTarget 0 0 1 1 = 1 ∧
    directionTowardsTarget 0 0 1 1 ≠ 2 ∧ directionTowardsTarget 0 0 1 1 ≠ 3 := by
  norm_num [directionTowardsTarget]

/-- C11 (amended): when the horizontal and vertical absolute deltas are equal the
horizontal branch, guarded by the strict test |dx| > |dy|, is not taken: the answer
is 1 (down) when the target is below and 0 (up) otherwise, never 2 or 3. -/
theorem directionTowardsTarget_tie_vertical (monsterX monsterY targetX targetY : ℚ)
    (htie : |targetX - monsterX| = |targetY - monsterY|) :
    (targetY - monsterY > 0 →
      directionTowardsTarget monsterX monsterY targetX targetY = 1) ∧
    (targetY - monsterY < 0 →
      directionTowardsTarget monsterX monsterY targetX targetY = 0) ∧
    directionTowardsTarget monsterX monsterY targetX targetY ≠ 2 ∧
    directionTowardsTarget monsterX monsterY targetX targetY ≠ 3 := by
  have hno : ¬ |targetX - monsterX| > |targetY - monsterY| := by
    rw [htie]; exact lt_irrefl _
  refine ⟨?_, ?_, ?_, ?_⟩
  · intro h; simp only [directionTowardsTarget, if_neg hno, if_pos h]
  · intro h; simp only [directionTowardsTarget, if_neg hno, if_neg (not_lt.mpr h.le)]
  · simp only [directionTowardsTarget, if_neg hno]; split_ifs <;> decide
  · simp only [directionTowardsTarget, if_neg hno]; split_ifs <;> decide

/-- Witness for C11: monster (0,0), target (-2,-2): equal deltas, the answer is 0
(up). -/
theorem directionTowardsTarget_tie_vertical_witness :
    directionTowardsTarget 0 0 (-2) (-2) = 0 :=
  (directionTowardsTarget_tie_vertical 0 0 (-2) (-2) (by norm_num)).2.1 (by norm_num)

/-! ## Client session loop -/

/-- C15 (counterexample): the server's connection drops, so the client's read fails
with the abnormal-closure error 1006 that the library makes up locally. The loop
returns, and the close callback has run zero times, not once. -/
theorem client_abnormal_closure_runs_no_callback :
    (guestClient.handleWebsocketConnection
      [readFails (.closeError CloseAbnormalClosure "unexpected EOF")]).returned = true ∧
    closeHandlerCalls (guestClient.handleWebsocketConnection
      [readFails (.closeError CloseAbnormalClosure "unexpected EOF")]).trace = 0 := by
  constructor <;> rfl

/-- C15 (amended): when an iteration of the client's loop ends with a `CloseError`
of code 1001 or 1006, from its write or from its read, the loop returns in that
iteration and reads and writes nothing further: whatever the rest of the script, the
run is the run on that iteration alone. The loop itself never invokes the close
callback; it has run once if the read received a close frame from the peer (the
library calls it then) and not at all otherwise. -/
theorem client_close_error_stops_loop (gc : GameClient) (ex : ClientExchange)
    (post : List ClientExchange) (err : WsError)
    (herr : ex.error = some err)
    (hclose : IsCloseError err [CloseGoingAway, CloseAbnormalClosure] = true) :
    (gc.handleWebsocketConnection (ex :: post)).returned = true ∧
    gc.handleWebsocketConnection (ex :: post) = gc.handleWebsocketConnection [ex] ∧
    closeHandlerCalls (gc.handleWebsocketConnection (ex :: post)).trace
      = (if ex.receivesCloseFrame then 1 else 0) := by
  obtain ⟨ctl, w, r, el⟩ := ex
  cases w with
  | some e =>
    simp only [ClientExchange.error, Option.some.injEq] at herr
    subst herr
    simp [GameClient.handleWebsocketConnection, hclose, closeHandlerCalls,
      ClientExchange.receivesCloseFrame]
  | none =>
    cases r with
    | message info => simp [ClientExchange.error, ClientRead.ReadJSON] at herr
    | closeFrame code text =>
      simp only [ClientExchange.error, ClientRead.ReadJSON, Option.some.injEq] at herr
      subst herr
      simp [GameClient.handleWebsocketConnection, ClientRead.ReadJSON, hclose,
        closeHandlerCalls, ClientExchange.receivesCloseFrame]
    | failure e =>
      simp only [ClientExchange.error, ClientRead.ReadJSON, Option.some.injEq] at herr
      subst herr
      simp [GameClient.handleWebsocketConnection, ClientRead.ReadJSON, hclose,
        closeHandlerCalls, ClientExchange.receivesCloseFrame]

/-- Witness for C15: the write fails with "going away" (1001); the loop returns
although the script goes on. -/
theorem client_close_error_stops_loop_witness :
    (guestClient.handleWebsocketConnection
      [writeFails (.closeError CloseGoingAway ""), readFails (.other "timeout")]).returned
      = true :=
  (client_close_error_stops_loop guestClient (writeFails (.closeError CloseGoingAway ""))
    [readFails (.other "timeout")] (.closeError CloseGoingAway "") rfl rfl).1

/-! ## Host handler loop -/

theorem lookup_filter_ne {β : Type} (l : List (Nat × β)) (k : Nat) :
    (l.filter fun e => e.1 != k).lookup k = none := by
  induction l with
  | nil => rfl
  | cons e l ih =>
    by_cases h : e.1 = k
    · simp [List.filter_cons, h, ih]
    · rw [List.filter_cons]
      have h2 : (e.1 != k) = true := by simp [h]
      rw [if_pos h2]
      obtain ⟨a, b⟩ := e
      have h3 : (k == a) = false := by
        simp only [beq_eq_false_iff_ne, ne_eq]
        exact fun hk => h hk.symm
      simp only [List.lookup_cons, h3]
      exact ih

theorem GameServer.cleanup_client (s : GameServer) (conn : Nat) :
    (s.cleanup conn).client conn = none := by
  simp only [GameServer.cleanup, GameServer.deleteClient, GameServer.client]
  exact lookup_filter_ne _ _

theorem hostClosed_closeError (code : Int) (text : String) :
    hostClosed (.closeError code text) = true := by
  simp only [hostClosed, IsCloseError, IsUnexpectedCloseError]
  exact Bool.or_not_self _

/-- C16: the host's handler and the client's loop do not classify errors alike. A
read that fails with a close error of code 1000 (normal closure) ends the host's
handler loop, while the client's loop does not return on it and goes on to write and
read again. In general the host's loop is left on every close error, whatever its
code, and the client's only on the codes 1001 and 1006; on errors that are not close
errors both go on. -/
theorem host_leaves_on_normal_closure_client_stays (s : GameServer) (conn : Nat)
    (gc : GameClient) :
    (s.handlerLoop conn [hostReadFails (.closeError CloseNormalClosure "")]).returned = true ∧
    (gc.handleWebsocketConnection
      [readFails (.closeError CloseNormalClosure "")]).returned = false ∧
    clientTransfers (gc.handleWebsocketConnection
      [readFails (.closeError CloseNormalClosure ""),
       readFails (.closeError CloseNormalClosure "")]).trace = 4 ∧
    (∀ err, (s.handlerLoop conn [hostReadFails err]).returned = true ↔
      ∃ code text, err = .closeError code text) ∧
    (∀ err, (gc.handleWebsocketConnection [readFails err]).returned = true ↔
      ∃ text, err = .closeError CloseGoingAway text ∨
        err = .closeError CloseAbnormalClosure text) := by
  refine ⟨rfl, rfl, rfl, ?_, ?_⟩
  · intro err
    cases err with
    | closeError c t =>
      simp only [GameServer.handlerLoop, hostReadFails, HostRead.result,
        hostClosed_closeError, if_true]
      simp
    | other m =>
      simp [GameServer.handlerLoop, hostReadFails, HostRead.result, hostClosed,
        IsCloseError, IsUnexpectedCloseError, HostRun.after]
  · intro err
    cases err with
    | closeError c t =>
      by_cases h1 : c = CloseGoingAway
      · subst h1
        simp [GameClient.handleWebsocketConnection, readFails, ClientRead.ReadJSON,
          IsCloseError]
      · by_cases h2 : c = CloseAbnormalClosure
        · subst h2
          simp [GameClient.handleWebsocketConnection, readFails, ClientRead.ReadJSON,
            IsCloseError]
        · simp [GameClient.handleWebsocketConnection, readFails, ClientRead.ReadJSON,
            IsCloseError, h1, h2, ClientRun.after]
    | other m =>
      simp [GameClient.handleWebsocketConnection, readFails, ClientRead.ReadJSON,
        IsCloseError, ClientRun.after]

/-- C17 (counterexample): the library panics in the first read of the handler of
connection 1. The loop is left in that iteration: the only event is that read, and
the second entry of the script is never reached. -/
theorem host_read_panic_ends_loop :
    (oneGuestServer.handlerLoop 1
      [{ read := .panicked "decode", write := .done, elapsed := 0 },
       hostReceives ProtoPlayer.zero]).returned = true ∧
    (oneGuestServer.handlerLoop 1
      [{ read := .panicked "decode", write := .done, elapsed := 0 },
       hostReceives ProtoPlayer.zero]).trace.length = 1 := by
  constructor <;> rfl

/-- C17 (amended): a panic raised by the library in a read or a write of the host's
handler is recovered and turned into the close error 1006 ("Connection failed"),
which the loop treats as a closed connection: the loop is left in that iteration,
whatever the rest of the script (no further iteration takes place), and the deferred
cleanup then removes the connection's entry. -/
theorem host_panic_ends_session (s : GameServer) (conn : Nat) (ex : HostExchange)
    (post : List HostExchange) (hpanic : ex.panics = true) :
    (s.handlerLoop conn (ex :: post)).returned = true ∧
    s.handlerLoop conn (ex :: post) = s.handlerLoop conn [ex] ∧
    ((s.handlerLoop conn (ex :: post)).s.cleanup conn).client conn = none := by
  refine ⟨?_, ?_, GameServer.cleanup_client _ _⟩
  · obtain ⟨r, w, el⟩ := ex
    cases r with
    | panicked m => rfl
    | failure e => simp [HostExchange.panics] at hpanic
    | message p =>
      cases w with
      | panicked m =>
        simp only [GameServer.handlerLoop, HostRead.result, HostWrite.result,
          hostClosed_closeError, if_true]
        cases s.client conn with
        | none => rfl
        | some user =>
          obtain ⟨un, uid, ip, pl⟩ := user
          cases pl <;> rfl
      | done => simp [HostExchange.panics] at hpanic
      | failure e => simp [HostExchange.panics] at hpanic
  · obtain ⟨r, w, el⟩ := ex
    cases r with
    | panicked m => rfl
    | failure e => simp [HostExchange.panics] at hpanic
    | message p =>
      cases w with
      | panicked m =>
        simp only [GameServer.handlerLoop, HostRead.result, HostWrite.result,
          hostClosed_closeError, if_true]
      | done => simp [HostExchange.panics] at hpanic
      | failure e => simp [HostExchange.panics] at hpanic

/-- Witness for C17: the write of an iteration panics after its read delivered a
record. -/
theorem host_panic_ends_session_witness :
    (oneGuestServer.handlerLoop 1
      [{ read := .message ProtoPlayer.zero, write := .panicked "encode", elapsed := 0 },
       hostReceives ProtoPlayer.zero]).returned = true :=
  (host_panic_ends_session oneGuestServer 1
    { read := .message ProtoPlayer.zero, write := .panicked "encode", elapsed := 0 }
    [hostReceives ProtoPlayer.zero] rfl).1

/-! ## Host: accept and cleanup -/

/-- C19: on `crowdedServer` the record of connection 1 is `Players[1]`, but the
pointer kept for that connection refers to the backing array the slice had before the
tenth append reallocated it. When the handler of connection 1 terminates, the colour
goes back to the palette and `Players` keeps its length, but `Players[1]` is not
marked dead: the write `client.Player.IsDead = true` lands in the old array. For
connection 10, accepted after the reallocation, the record is marked. -/
theorem host_cleanup_misses_record_after_growth :
    crowdedServer.client 1 =
      some { Username := "", UserID := "id", IP := "10.0.0.1:5000", Player := some ⟨0, 1⟩ } ∧
    crowdedServer.playersArray = 1 ∧
    crowdedServer.GameInfo.Players.length = 11 ∧
    (crowdedServer.GameInfo.Players[1]?).map (fun p => p.IsDead) = some false ∧
    ((crowdedServer.disconnect 1).GameInfo.Players[1]?).map (fun p => p.IsDead) = some false ∧
    (crowdedServer.disconnect 1).GameInfo.Players.length = 11 ∧
    (crowdedServer.disconnect 1).Colors.length = crowdedServer.Colors.length + 1 ∧
    (crowdedServer.disconnect 1).client 1 = none ∧
    ((crowdedServer.disconnect 10).GameInfo.Players[10]?).map (fun p => p.IsDead) = some true := by
  refine ⟨?_, ?_, ?_, ?_, ?_, ?_, ?_, ?_, ?_⟩ <;> rfl
/-- C18: on `fullServer` the seven colours are taken, and connection 8 is accepted
all the same: its record is appended, and the draw `rand.Intn(len(s.Colors))` panics
on the empty palette. The palette does not shrink, the record keeps the zero colour,
which no palette entry ever had, and the deferred cleanup then puts that colour into
the palette. Up to that point each accept took one colour out of the palette: six are
left after the first, none after the seventh, and the seven participants hold seven
different colours. -/
theorem host_accept_on_empty_palette :
    ((NewGameServer ⟨fun _ => 0, 0⟩).connect 1).Colors.length = 6 ∧
    fullServer.Colors = [] ∧
    ((fullServer.clients.filterMap fun e =>
        (e.2.Player.bind fullServer.load).map fun p => p.Color).eraseDups).length = 7 ∧
    (fullServer.accept 8 "id" "10.0.0.1:5000" false).2 = .panicked ∧
    (fullServer.accept 8 "id" "10.0.0.1:5000" false).1.Colors = [] ∧
    (fullServer.accept 8 "id" "10.0.0.1:5000" false).1.GameInfo.Players.length = 9 ∧
    ((fullServer.accept 8 "id" "10.0.0.1:5000" false).1.GameInfo.Players[8]?).map
        (fun p => p.Color) = some (0, 0, 0, 0) ∧
    (fullServer.websocketHandler 8 "id" "10.0.0.1:5000" false []).s.Colors = [(0, 0, 0, 0)] := by
  refine ⟨?_, ?_, ?_, ?_, ?_, ?_, ?_, ?_⟩ <;> rfl

/-! ## Level files -/

/-- C20: in a level file whose entity lines are `PLAYER 1 2` and `BOX 1 2`, the box
is created at (16, 32) and the player at (16, 16): the `PLAYER` case passes `xPos`
for both coordinates. In general the `PLAYER` case creates the player at
(16*x, 16*x), while each of the thirteen other cases creates its entity at
(16*x, 16*y). -/
theorem loadLevel_player_line_ignores_y :
    (LoadLevelFromTextFile (openLevel [["PLAYER", "1", "2"], ["BOX", "1", "2"]])
        ⟨fun _ => 0, 0⟩).map (fun s => s.boxes.map fun b => (b.X, b.Y)) = some [(16, 32)] ∧
    (LoadLevelFromTextFile (openLevel [["PLAYER", "1", "2"], ["BOX", "1", "2"]])
        ⟨fun _ => 0, 0⟩).map (fun s => s.players.map fun p => (p.X, p.Y)) = some [(16, 16)] ∧
    (∀ (s : GameScene) (x y : Int),
      (loadEntity s "PLAYER" x y).players =
        [NewPlayer ((x * 16 : Int) : ℚ) ((x * 16 : Int) : ℚ)]) ∧
    (∀ (s : GameScene) (x y : Int),
      (loadEntity s "BOX" x y).boxes = s.boxes ++ [NewBox (x * 16) (y * 16) false] ∧
      (loadEntity s "GHOST" x y).monsters =
        s.monsters ++ [NewGhost ((x * 16 : Int) : ℚ) ((y * 16 : Int) : ℚ) (16 * 17) (16 * 17)] ∧
      (loadEntity s "SLIME" x y).monsters =
        s.monsters ++ [(NewSlime ((x * 16 : Int) : ℚ) ((y * 16 : Int) : ℚ) s.rand).1] ∧
      (loadEntity s "BALLOON" x y).monsters =
        s.monsters ++ [(NewBallon ((x * 16 : Int) : ℚ) ((y * 16 : Int) : ℚ) s.rand).1] ∧
      (loadEntity s "ONION" x y).monsters =
        s.monsters ++ [(NewOnion ((x * 16 : Int) : ℚ) ((y * 16 : Int) : ℚ) s.rand).1] ∧
      (loadEntity s "RADIUSINC" x y).statusEffects =
        s.statusEffects ++ [NewRadiusEffect (x * 16) (y * 16)] ∧
      (loadEntity s "SKULLDEB" x y).statusEffects =
        s.statusEffects ++ [(NewSkullDebuff (x * 16) (y * 16) s.rand).1] ∧
      (loadEntity s "BOMBINC" x y).statusEffects =
        s.statusEffects ++ [NewBombEffect (x * 16) (y * 16)] ∧
      (loadEntity s "INVINC" x y).statusEffects =
        s.statusEffects ++ [NewInvincibilityEffect (x * 16) (y * 16)] ∧
      (loadEntity s "DETONATOR" x y).statusEffects =
        s.statusEffects ++ [NewDetonatorEffect (x * 16) (y * 16)] ∧
      (loadEntity s "ROLLER" x y).statusEffects =
        s.statusEffects ++ [NewRollerEffect (x * 16) (y * 16)] ∧
      (loadEntity s "GHOSTINC" x y).statusEffects =
        s.statusEffects ++ [NewGhostEffect (x * 16) (y * 16)] ∧
      (loadEntity s "OBSTACLE" x y).statusEffects =
        s.statusEffects ++ [NewObstacleEffect (x * 16) (y * 16)]) := by
  refine ⟨rfl, rfl, fun s x y => rfl, fun s x y => ?_⟩
  refine ⟨rfl, rfl, rfl, rfl, rfl, rfl, rfl, rfl, rfl, rfl, rfl, rfl, rfl⟩

/-! ## Client: terrain replay -/

theorem joinReplayStep_rect {g : List (List Terrain)} {cols : Nat} (hrect : RectGrid g cols)
    (c : ProtoTerrainChange) :
    joinReplayStep g c = some (grassAt g c) ∧ RectGrid (grassAt g c) cols := by
  by_cases hin : 0 ≤ c.X ∧ c.X < g.length ∧ 0 ≤ c.Y ∧ c.Y < cols
  · obtain ⟨hx0, hx, hy0, hy⟩ := hin
    have hpos : 0 < g.length := by omega
    obtain ⟨t0, ht0⟩ := tileAt_some hrect hx0 hx hy0 hy
    obtain ⟨g1, hset, hrect1, -⟩ := setTile_spec hrect ht0 (NewGrass (c.X * 16) (c.Y * 16))
    have hxn : c.X.toNat < g.length := by omega
    have hrow : g[c.X.toNat]? = some g[c.X.toNat] := List.getElem?_eq_getElem hxn
    have hlen : (g[c.X.toNat]).length = cols := hrect _ (List.getElem_mem _)
    have hyn : c.Y.toNat < (g[c.X.toNat]).length := by omega
    have hset2 : setTile g c.X c.Y (NewGrass (c.X * 16) (c.Y * 16)) =
        some (g.set c.X.toNat ((g[c.X.toNat]).set c.Y.toNat (NewGrass (c.X * 16) (c.Y * 16)))) := by
      unfold setTile
      rw [if_neg (by omega), hrow]
      simp only [hyn, if_true]
    have hgrass : grassAt g c =
        g.set c.X.toNat ((g[c.X.toNat]).set c.Y.toNat (NewGrass (c.X * 16) (c.Y * 16))) := by
      unfold grassAt
      rw [ht0]
      simp only [List.getD_eq_getElem?_getD, hrow, Option.getD_some]
    have hstep : joinReplayStep g c = setTile g c.X c.Y (NewGrass (c.X * 16) (c.Y * 16)) := by
      unfold joinReplayStep
      rw [lenRow0_rect hrect hpos]
      have h1 : decide (c.X ≥ 0) = true := decide_eq_true hx0
      have h2 : decide (c.X < (g.length : Int)) = true := decide_eq_true hx
      have h3 : decide (c.Y ≥ 0) = true := decide_eq_true hy0
      have h4 : decide (g.length > 0) = true := decide_eq_true hpos
      have h5 : decide (c.Y < (cols : Int)) = true := decide_eq_true hy
      simp only [h1, h2, h3, h4, h5, Bool.and_self, if_true]
    rw [hstep, hset2, hgrass]
    refine ⟨rfl, ?_⟩
    rw [hset2] at hset
    rw [← Option.some.inj hset] at hrect1
    exact hrect1
  · have hnone : tileAt g c.X c.Y = none := by
      cases h : tileAt g c.X c.Y with
      | none => rfl
      | some t => exact absurd (tileAt_bounds hrect h) hin
    have hgrass : grassAt g c = g := by
      unfold grassAt
      rw [hnone]
    rw [hgrass]
    refine ⟨?_, hrect⟩
    unfold joinReplayStep
    by_cases hpos : 0 < g.length
    · rw [lenRow0_rect hrect hpos]
      have hfalse : (decide (c.X ≥ 0) && decide (c.X < (g.length : Int)) &&
          decide (c.Y ≥ 0) && decide (g.length > 0) && decide (c.Y < (cols : Int))) = false := by
        rw [Bool.eq_false_iff]
        intro h
        simp only [Bool.and_eq_true, decide_eq_true_eq] at h
        exact hin ⟨h.1.1.1.1, h.1.1.1.2, h.1.1.2, h.2⟩
      simp only [hfalse]
      rfl
    · have h4 : decide (g.length > 0) = false := decide_eq_false hpos
      simp only [h4, Bool.and_false, Bool.false_and]
      rfl

theorem joinReplayLoop_rect (log : List ProtoTerrainChange) (cols : Nat) :
    ∀ (fuel : Nat) (g : List (List Terrain)) (cursor : Nat), RectGrid g cols →
      fuel = log.length - cursor →
      joinReplayLoop log fuel g cursor =
        some (grassAtAll g (log.drop cursor), max cursor log.length) ∧
      RectGrid (grassAtAll g (log.drop cursor)) cols := by
  intro fuel
  induction fuel with
  | zero =>
    intro g cursor hrect hfuel
    have hge : log.length ≤ cursor := by omega
    have hdrop : log.drop cursor = [] := List.drop_eq_nil_of_le hge
    rw [hdrop]
    unfold joinReplayLoop
    rw [if_neg (by omega)]
    exact ⟨by simp [grassAtAll, max_eq_left hge], hrect⟩
  | succ fuel ih =>
    intro g cursor hrect hfuel
    have hlt : cursor < log.length := by omega
    have hget : log[cursor]? = some log[cursor] := List.getElem?_eq_getElem hlt
    have hdrop : log.drop cursor = log[cursor] :: log.drop (cursor + 1) :=
      List.drop_eq_getElem_cons hlt
    obtain ⟨hstep, hrect1⟩ := joinReplayStep_rect hrect log[cursor]
    obtain ⟨hloop, hrect2⟩ := ih (grassAt g log[cursor]) (cursor + 1) hrect1 (by omega)
    have hmax : max (cursor + 1) log.length = max cursor log.length := by
      rw [max_eq_right (by omega), max_eq_right (by omega)]
    unfold joinReplayLoop
    rw [if_pos hlt]
    simp only [hget, hstep, hloop, hdrop, grassAtAll, List.foldl_cons, hmax]
    exact ⟨trivial, hrect2⟩
theorem sliceSetToLast_some {α : Type} (l : List α) (i : Nat) (hi : i < l.length) :
    ∃ l1, sliceSetToLast l i = some l1 ∧ l1.length = l.length := by
  unfold sliceSetToLast
  have hlast : l[l.length - 1]? = some l[l.length - 1] :=
    List.getElem?_eq_getElem (by omega)
  rw [hlast]
  simp only [hi, if_true]
  exact ⟨_, rfl, List.length_set _ _ _⟩

theorem sliceDropLast_some {α : Type} (l : List α) (h : 0 < l.length) :
    ∃ l1, sliceDropLast l = some l1 ∧ l1.length = l.length - 1 := by
  unfold sliceDropLast
  rw [if_neg (by omega)]
  exact ⟨_, rfl, List.length_dropLast _⟩

theorem joinSweep_total {α : Type} (update : α → α × Bool) :
    ∀ (i : Nat) (l : List α), i ≤ l.length →
      ∃ l1, joinSweep update i l = some l1 ∧ l1.length ≤ l.length := by
  intro i
  induction i with
  | zero => intro l _; exact ⟨l, rfl, le_refl _⟩
  | succ i ih =>
    intro l hi
    have hlt : i < l.length := by omega
    have hget : l[i]? = some l[i] := List.getElem?_eq_getElem hlt
    unfold joinSweep
    simp only [hget]
    have hlen : (l.set i (update l[i]).1).length = l.length := List.length_set _ _ _
    by_cases hexp : (update l[i]).2 = true
    · simp only [hexp, if_true]
      by_cases hmany : (l.set i (update l[i]).1).length > 1
      · simp only [hmany, if_true]
        obtain ⟨l1, h1, hl1⟩ := sliceSetToLast_some (l.set i (update l[i]).1) i (by omega)
        obtain ⟨l2, h2, hl2⟩ := sliceDropLast_some l1 (by omega)
        simp only [h1, h2]
        obtain ⟨l3, h3, hl3⟩ := ih l2 (by omega)
        exact ⟨l3, h3, by omega⟩
      · simp only [hmany, if_false]
        have hi0 : i = 0 := by omega
        subst hi0
        exact ⟨[], rfl, Nat.zero_le _⟩
    · simp only [hexp]
      obtain ⟨l3, h3, hl3⟩ := ih (l.set i (update l[i]).1) (by omega)
      exact ⟨l3, h3, by omega⟩

theorem joinSweep_keeps {α : Type} (update : α → α × Bool) :
    ∀ (i : Nat) (l : List α), i ≤ l.length →
      (∀ j, j < i → ∀ e, l[j]? = some e → (update e).2 = false) →
      ∃ l1, joinSweep update i l = some l1 ∧ l1.length = l.length := by
  intro i
  induction i with
  | zero => intro l _ _; exact ⟨l, rfl, rfl⟩
  | succ i ih =>
    intro l hi hall
    have hlt : i < l.length := by omega
    have hget : l[i]? = some l[i] := List.getElem?_eq_getElem hlt
    unfold joinSweep
    simp only [hget]
    have hlen : (l.set i (update l[i]).1).length = l.length := List.length_set _ _ _
    have hexp : (update l[i]).2 = false := hall i (Nat.lt_succ_self i) _ hget
    simp only [hexp]
    obtain ⟨l3, h3, hl3⟩ := ih (l.set i (update l[i]).1) (by omega) (by
      intro j hj e he
      rw [List.getElem?_set_ne (by omega)] at he
      exact hall j (by omega) e he)
    exact ⟨l3, h3, by omega⟩

theorem MultiPlayerGameSceneJoin.Update_terrain (s : MultiPlayerGameSceneJoin) (cols : Nat)
    (hrect : RectGrid s.staticEntities cols) (input : PlayerControls) (bombAddr : Nat) :
    ∃ s1, s.Update input bombAddr = some s1 ∧
      s1.terrainChange = max s.terrainChange s.Client.GameInfo.TerrainChanges.length ∧
      s1.staticEntities =
        grassAtAll s.staticEntities (s.Client.GameInfo.TerrainChanges.drop s.terrainChange) ∧
      RectGrid s1.staticEntities cols := by
  obtain ⟨ex, hex, -⟩ := joinSweep_total Explosion.Update
    (s.explosions ++ joinNewExplosions s.explosions s.Client.GameInfo.Explosions).length
    (s.explosions ++ joinNewExplosions s.explosions s.Client.GameInfo.Explosions) (le_refl _)
  obtain ⟨bs, hbs, -⟩ := joinSweep_total Bomb.Update
    (s.bombs ++ joinNewBombs s.bombs s.Client.GameInfo.Bombs bombAddr).length
    (s.bombs ++ joinNewBombs s.bombs s.Client.GameInfo.Bombs bombAddr) (le_refl _)
  obtain ⟨hloop, hrect1⟩ := joinReplayLoop_rect s.Client.GameInfo.TerrainChanges cols
    (s.Client.GameInfo.TerrainChanges.length - s.terrainChange) s.staticEntities
    s.terrainChange hrect rfl
  simp only [MultiPlayerGameSceneJoin.Update, hex, hbs, joinTerrainReplay, hloop]
  exact ⟨_, rfl, rfl, rfl, hrect1⟩
theorem joinTick_step (s : MultiPlayerGameSceneJoin) (cols : Nat) (g0 : List (List Terrain))
    (prev : List ProtoTerrainChange) (f : JoinFrame)
    (hrect : RectGrid s.staticEntities cols) (hcur : s.terrainChange = prev.length)
    (hgrid : s.staticEntities = grassAtAll g0 prev)
    (hpre : prev <+: f.info.TerrainChanges) :
    ∃ s1, (s.receive f.info).Update f.input f.bombAddr = some s1 ∧
      RectGrid s1.staticEntities cols ∧
      s1.terrainChange = f.info.TerrainChanges.length ∧
      s1.staticEntities = grassAtAll g0 f.info.TerrainChanges := by
  obtain ⟨s1, hs1, hc1, hg1, hr1⟩ :=
    MultiPlayerGameSceneJoin.Update_terrain (s.receive f.info) cols hrect f.input f.bombAddr
  refine ⟨s1, hs1, hr1, ?_, ?_⟩
  · rw [hc1]
    show max s.terrainChange f.info.TerrainChanges.length = _
    rw [hcur]
    exact max_eq_right hpre.length_le
  · rw [hg1]
    show grassAtAll s.staticEntities (f.info.TerrainChanges.drop s.terrainChange) = _
    obtain ⟨t, ht⟩ := hpre
    rw [hcur, hgrid, ← ht, List.drop_left]
    simp only [grassAtAll, List.foldl_append]

theorem joinTicks_replay (cols : Nat) (g0 : List (List Terrain)) (last : JoinFrame) :
    ∀ (frames : List JoinFrame) (s : MultiPlayerGameSceneJoin) (prev : List ProtoTerrainChange),
      RectGrid s.staticEntities cols → s.terrainChange = prev.length →
      s.staticEntities = grassAtAll g0 prev →
      List.Chain (fun a b : List ProtoTerrainChange => a <+: b) prev
        ((frames ++ [last]).map fun f => f.info.TerrainChanges) →
      ∃ s1, joinTicks (frames ++ [last]) s = some s1 ∧
        s1.terrainChange = last.info.TerrainChanges.length ∧
        s1.staticEntities = grassAtAll g0 last.info.TerrainChanges := by
  intro frames
  induction frames with
  | nil =>
    intro s prev hrect hcur hgrid hchain
    simp only [List.nil_append, List.map_cons, List.map_nil, List.chain_cons] at hchain
    obtain ⟨s1, hs1, -, hc1, hg1⟩ := joinTick_step s cols g0 prev last hrect hcur hgrid hchain.1
    refine ⟨s1, ?_, hc1, hg1⟩
    simp only [List.nil_append, joinTicks, hs1]
  | cons f rest ih =>
    intro s prev hrect hcur hgrid hchain
    simp only [List.cons_append, List.map_cons, List.chain_cons] at hchain
    obtain ⟨s1, hs1, hr1, hc1, hg1⟩ := joinTick_step s cols g0 prev f hrect hcur hgrid hchain.1
    obtain ⟨s2, hs2, hc2, hg2⟩ := ih s1 f.info.TerrainChanges hr1 hc1 hg1 hchain.2
    refine ⟨s2, ?_, hc2, hg2⟩
    show joinTicks (f :: (rest ++ [last])) s = some s2
    simp only [joinTicks, hs1]
    exact hs2

/-- C14: the level file `jaggedLevel` loads (its map has a first row of two tiles, a
second row of one tile and fifteen empty rows), and a snapshot whose log holds the
entry (1,1), which is outside that map, makes the client tick fault: the guard
compares Y with the length of row 0, passes, and the assignment indexes row 1 out of
range. An entry (17,0), beyond the last row, is skipped. -/
theorem join_replay_faults_on_jagged_map :
    (NewMultiPlayerGameSceneJoin guestClient jaggedLevel ⟨fun _ => 0, 0⟩).map
        (fun s => s.staticEntities.map List.length)
      = some [2, 1, 0, 0, 0, 0, 0, 0, 0, 0, 0, 0, 0, 0, 0, 0, 0] ∧
    (NewMultiPlayerGameSceneJoin guestClient jaggedLevel ⟨fun _ => 0, 0⟩).map
        (fun s => tileAt s.staticEntities 1 1) = some none ∧
    (NewMultiPlayerGameSceneJoin guestClient jaggedLevel ⟨fun _ => 0, 0⟩).map
        (fun s => joinReplayStep s.staticEntities ⟨1, 1, "GRASS"⟩) = some none ∧
    (NewMultiPlayerGameSceneJoin guestClient jaggedLevel ⟨fun _ => 0, 0⟩).map
        (fun s => ((s.receive (logOnly [⟨1, 1, "GRASS"⟩])).Update
          ⟨false, false, false, false, false, false⟩ 0).isSome) = some false ∧
    (NewMultiPlayerGameSceneJoin guestClient jaggedLevel ⟨fun _ => 0, 0⟩).map
        (fun s => ((s.receive (logOnly [⟨17, 0, "GRASS"⟩])).Update
          ⟨false, false, false, false, false, false⟩ 0).map
            fun s1 => (s1.terrainChange, s1.staticEntities.map List.length))
      = some (some (1, [2, 1, 0, 0, 0, 0, 0, 0, 0, 0, 0, 0, 0, 0, 0, 0, 0])) := by
  refine ⟨?_, ?_, ?_, ?_, ?_⟩ <;> rfl
/-! ## Client: reconciling a snapshot -/

/-- C12 (counterexample): `openJoinScene` is the scene made from a level file without
entity lines, so it has no actors. After one `Update` on a snapshot with one entry in
each sequence, the scene has one player, bomb, explosion and pickup, but no monster
and no box. -/
theorem join_fresh_scene_gets_no_monster_no_box :
    (NewMultiPlayerGameSceneJoin guestClient (openLevel []) ⟨fun _ => 0, 0⟩).map
        (fun s => (s.players.length, s.monsters.length, s.bombs.length, s.explosions.length,
          s.boxes.length, s.statusEffects.length)) = some (0, 0, 0, 0, 0, 0) ∧
    (NewMultiPlayerGameSceneJoin guestClient (openLevel []) ⟨fun _ => 0, 0⟩).map
        (fun s => s.staticEntities) = some openJoinScene.staticEntities ∧
    ((openJoinScene.receive oneOfEachSnapshot).Update
        ⟨false, false, false, false, false, false⟩ 0).map
        (fun s => (s.players.length, s.monsters.length, s.bombs.length, s.explosions.length,
          s.boxes.length, s.statusEffects.length)) = some (1, 0, 1, 1, 0, 1) ∧
    oneOfEachSnapshot.Monsters.length = 1 ∧ oneOfEachSnapshot.Boxes.length = 1 := by
  refine ⟨?_, ?_, ?_, ?_, ?_⟩ <;> rfl
theorem joinRebuildEffect_length (acc : List Effect × Rand) (effect : ProtoEntity) :
    (joinRebuildEffect acc effect).1.length =
      acc.1.length + (if effect.Type_ ∈ knownEffectTypes then 1 else 0) := by
  obtain ⟨effects, r⟩ := acc
  unfold joinRebuildEffect
  simp only [knownEffectTypes, List.mem_cons, List.mem_singleton, List.not_mem_nil, or_false]
  split_ifs <;> simp_all [NewSkullDebuff]

theorem joinRebuild_length (snapshot : List ProtoEntity) :
    ∀ acc : List Effect × Rand,
      (snapshot.foldl joinRebuildEffect acc).1.length =
        acc.1.length + (snapshot.filter fun e => decide (e.Type_ ∈ knownEffectTypes)).length := by
  induction snapshot with
  | nil => intro acc; simp
  | cons e rest ih =>
    intro acc
    rw [List.foldl_cons, ih, joinRebuildEffect_length, List.filter_cons]
    split_ifs with h1 h2 h2
    · simp only [List.length_cons]; omega
    · exact absurd (decide_eq_true h1) h2
    · exact absurd (of_decide_eq_true h2) h1
    · omega

theorem joinSyncEffects_fresh (snapshot : List ProtoEntity) (r : Rand) :
    (joinSyncEffects [] snapshot r).1.length =
      (snapshot.filter fun e => decide (e.Type_ ∈ knownEffectTypes)).length := by
  unfold joinSyncEffects
  split_ifs with h
  · rw [joinRebuild_length]; simp
  · have hnil : snapshot = [] := by
      cases snapshot with
      | nil => rfl
      | cons a l => simp at h
    subst hnil
    rfl

theorem joinSyncPlayers_fresh (snapshot : List ProtoPlayer) :
    (joinSyncPlayers [] snapshot).length = snapshot.length := by
  unfold joinSyncPlayers
  split_ifs with h
  · simp
  · simpa using h

/-- C12 (amended): one `Update` of a client scene without actors, on a rectangular
map, runs through and leaves as many players, bombs and explosions as the snapshot
has entries of each, as many pickups as the snapshot has status effects whose type is
one of the eight names the rebuild loop knows, and no monsters and no boxes: `Update`
only moves the monsters it already has and does not read the snapshot's boxes. -/
theorem join_fresh_scene_counts (s : MultiPlayerGameSceneJoin) (cols : Nat)
    (input : PlayerControls) (bombAddr : Nat)
    (hrect : RectGrid s.staticEntities cols)
    (hplayers : s.players = []) (hmonsters : s.monsters = []) (hbombs : s.bombs = [])
    (hexplosions : s.explosions = []) (hboxes : s.boxes = [])
    (heffects : s.statusEffects = []) :
    ∃ s1, s.Update input bombAddr = some s1 ∧
      s1.players.length = s.Client.GameInfo.Players.length ∧
      s1.bombs.length = s.Client.GameInfo.Bombs.length ∧
      s1.explosions.length = s.Client.GameInfo.Explosions.length ∧
      s1.statusEffects.length =
        (s.Client.GameInfo.StatusEffects.filter
          fun e => decide (e.Type_ ∈ knownEffectTypes)).length ∧
      s1.monsters.length = 0 ∧ s1.boxes.length = 0 := by
  obtain ⟨ex, hex, hexlen⟩ := joinSweep_keeps Explosion.Update
    (s.explosions ++ joinNewExplosions s.explosions s.Client.GameInfo.Explosions).length
    (s.explosions ++ joinNewExplosions s.explosions s.Client.GameInfo.Explosions) (le_refl _)
    (by
      intro j _ e he
      have hmem := List.getElem?_mem he
      rw [hexplosions] at hmem
      simp only [joinNewExplosions, List.nil_append, List.length_nil, List.drop_zero,
        List.mem_map] at hmem
      obtain ⟨p, -, rfl⟩ := hmem
      rfl)
  obtain ⟨bs, hbs, hbslen⟩ := joinSweep_keeps Bomb.Update
    (s.bombs ++ joinNewBombs s.bombs s.Client.GameInfo.Bombs bombAddr).length
    (s.bombs ++ joinNewBombs s.bombs s.Client.GameInfo.Bombs bombAddr) (le_refl _)
    (by
      intro j _ e he
      have hmem := List.getElem?_mem he
      rw [hbombs] at hmem
      simp only [joinNewBombs, List.nil_append, List.length_nil, List.drop_zero,
        List.mem_map] at hmem
      obtain ⟨p, -, rfl⟩ := hmem
      rfl)
  obtain ⟨hloop, -⟩ := joinReplayLoop_rect s.Client.GameInfo.TerrainChanges cols
    (s.Client.GameInfo.TerrainChanges.length - s.terrainChange) s.staticEntities
    s.terrainChange hrect rfl
  simp only [MultiPlayerGameSceneJoin.Update, hex, hbs, joinTerrainReplay, hloop]
  refine ⟨_, rfl, ?_, ?_, ?_, ?_, ?_, ?_⟩
  · show (joinSyncPlayers s.players s.Client.GameInfo.Players).length = _
    rw [hplayers]; exact joinSyncPlayers_fresh _
  · show bs.length = _
    rw [hbslen, hbombs]
    simp [joinNewBombs]
  · show ex.length = _
    rw [hexlen, hexplosions]
    simp [joinNewExplosions]
  · show (joinSyncEffects s.statusEffects s.Client.GameInfo.StatusEffects s.rand).1.length = _
    rw [heffects]; exact joinSyncEffects_fresh _ _
  · show (joinMoveMonsters s.monsters s.Client.GameInfo.Monsters).length = 0
    rw [hmonsters]; rfl
  · show s.boxes.length = 0
    rw [hboxes]; rfl

/-- Witness for C12: `openJoinScene` on a snapshot with two bombs and a status effect
of unknown type. -/
theorem join_fresh_scene_counts_witness :
    ∃ s1, (openJoinScene.receive
        { emptyGameInfo with
          Bombs := [ProtoEntity.at 16 16, ProtoEntity.at 32 32],
          StatusEffects := [{ ProtoEntity.at 64 64 with Type_ := "Skate" }] }).Update
        ⟨false, false, false, false, false, false⟩ 0 = some s1 ∧
      s1.bombs.length = 2 ∧ s1.statusEffects.length = 0 := by
  obtain ⟨s1, h, -, hb, -, he, -, -⟩ := join_fresh_scene_counts
    (openJoinScene.receive
      { emptyGameInfo with
        Bombs := [ProtoEntity.at 16 16, ProtoEntity.at 32 32],
        StatusEffects := [{ ProtoEntity.at 64 64 with Type_ := "Skate" }] })
    5 ⟨false, false, false, false, false, false⟩ 0 (by decide) rfl rfl rfl rfl rfl rfl
  exact ⟨s1, h, hb, he⟩

theorem swapRemove_perm {α : Type} :
    ∀ (l : List α) (k : Nat) (c last : α), l[k]? = some c → l.getLast? = some last →
      (c :: (l.set k last).dropLast).Perm l := by
  intro l
  induction l with
  | nil => intro k c last hk; simp at hk
  | cons a t ih =>
    intro k c last hk hlast
    cases t with
    | nil =>
      cases k with
      | zero =>
        simp only [List.getElem?_cons_zero, Option.some.injEq] at hk
        subst hk
        simp
      | succ k => simp at hk
    | cons b t =>
      have hlast2 : (b :: t).getLast? = some last := by
        rw [List.getLast?_cons_cons] at hlast
        exact hlast
      cases k with
      | zero =>
        simp only [List.getElem?_cons_zero, Option.some.injEq] at hk
        subst hk
        simp only [List.set_cons_zero, List.dropLast_cons₂]
        refine List.Perm.cons _ ?_
        have h := rotateLast_perm (b :: t)
        simp only [rotateLast, hlast2] at h
        exact h
      | succ k =>
        simp only [List.getElem?_cons_succ] at hk
        have h := ih k c last hk hlast2
        simp only [List.set_cons_succ]
        have hne : (b :: t).set k last ≠ [] := by
          intro h0
          have := congrArg List.length h0
          simp at this
        rw [List.dropLast_cons_of_ne_nil hne]
        exact (List.Perm.swap a c _).trans (List.Perm.cons _ h)

theorem GameServer.appendPlayer_Colors (s : GameServer) (p : ProtoPlayer) :
    (s.appendPlayer p).Colors = s.Colors := by
  unfold GameServer.appendPlayer; split_ifs <;> rfl

theorem GameServer.appendPlayer_Players (s : GameServer) (p : ProtoPlayer) :
    (s.appendPlayer p).GameInfo.Players = s.GameInfo.Players ++ [p] := by
  unfold GameServer.appendPlayer; split_ifs <;> rfl

theorem GameServer.store_Colors (s : GameServer) (ptr : PlayerPtr)
    (f : ProtoPlayer → ProtoPlayer) : (s.store ptr f).Colors = s.Colors := by
  unfold GameServer.store; split_ifs <;> rfl

theorem sliceModify_getElem? {α : Type} (l : List α) (i : Nat) (f : α → α) :
    (sliceModify l i f)[i]? = (l[i]?).map f := by
  unfold sliceModify
  cases h : l[i]? with
  | none => simp [h]
  | some x =>
    simp only [Option.map_some']
    exact List.getElem?_set_self (List.getElem?_eq_some.mp h).1

theorem GameServer.load_store (s : GameServer) (ptr : PlayerPtr)
    (f : ProtoPlayer → ProtoPlayer) : (s.store ptr f).load ptr = (s.load ptr).map f := by
  unfold GameServer.store GameServer.load
  by_cases h : ptr.array = s.playersArray
  · simp only [h, if_true]
    exact sliceModify_getElem? _ _ _
  · simp only [h, if_false]
    exact sliceModify_getElem? _ _ _

theorem GameServer.drawColor_spec (s : GameServer) (ptr : PlayerPtr) (hne : s.Colors ≠ []) :
    ∃ c, c ∈ s.Colors ∧
      (s.drawColor ptr).2 = .accepted ∧
      (c :: (s.drawColor ptr).1.Colors).Perm s.Colors ∧
      (s.drawColor ptr).1.load ptr = (s.load ptr).map fun p => { p with Color := c } := by
  have hpos : 0 < s.Colors.length := List.length_pos.mpr hne
  have hk : s.rand.stream s.rand.calls % s.Colors.length < s.Colors.length :=
    Nat.mod_lt _ hpos
  have hget : s.Colors[s.rand.stream s.rand.calls % s.Colors.length]? =
      some s.Colors[s.rand.stream s.rand.calls % s.Colors.length] :=
    List.getElem?_eq_getElem hk
  obtain ⟨last, hlast⟩ : ∃ last, s.Colors.getLast? = some last := by
    cases h : s.Colors.getLast? with
    | none => exact absurd (List.getLast?_eq_none_iff.mp h) hne
    | some x => exact ⟨x, rfl⟩
  refine ⟨s.Colors[s.rand.stream s.rand.calls % s.Colors.length], List.getElem_mem _, ?_, ?_, ?_⟩
  · simp only [GameServer.drawColor, Rand.Intn, if_neg (Nat.pos_iff_ne_zero.mp hpos), hget,
      hlast]
  · simp only [GameServer.drawColor, Rand.Intn, if_neg (Nat.pos_iff_ne_zero.mp hpos), hget,
      hlast, GameServer.store_Colors]
    exact swapRemove_perm _ _ _ _ hget hlast
  · simp only [GameServer.drawColor, Rand.Intn, if_neg (Nat.pos_iff_ne_zero.mp hpos), hget,
      hlast]
    exact GameServer.load_store _ ptr _

theorem GameServer.acceptRecord_spec (s : GameServer) (conn : Nat) (user : User) :
    (s.acceptRecord conn user).1.Colors = s.Colors ∧
    (s.acceptRecord conn user).1.GameInfo.Players.length = s.GameInfo.Players.length + 1 ∧
    (s.acceptRecord conn user).1.client conn =
      some { user with Player := some (s.acceptRecord conn user).2 } ∧
    ((s.acceptRecord conn user).1.load (s.acceptRecord conn user).2).isSome = true := by
  simp only [GameServer.acceptRecord, Rand.Intn, GameServer.setClient, GameServer.client,
    GameServer.load, GameServer.appendPlayer_Colors, GameServer.appendPlayer_Players,
    List.length_append, List.length_singleton, List.lookup_cons, beq_self_eq_true, if_true,
    Nat.add_sub_cancel, true_and]
  rw [List.getElem?_append_right (le_refl _)]
  simp

theorem GameServer.accept_draws (s : GameServer) (conn : Nat) (uuid remoteAddr : String)
    (hne : s.Colors ≠ []) :
    ∃ c ptr, c ∈ s.Colors ∧
      (s.accept conn uuid remoteAddr false).2 = .accepted ∧
      (c :: (s.accept conn uuid remoteAddr false).1.Colors).Perm s.Colors ∧
      (s.accept conn uuid remoteAddr false).1.Colors.length + 1 = s.Colors.length ∧
      (s.Colors.Nodup → c ∉ (s.accept conn uuid remoteAddr false).1.Colors) ∧
      ((s.accept conn uuid remoteAddr false).1.load ptr).map (fun p => p.Color) = some c := by
  obtain ⟨rec, hrecdef⟩ : ∃ rec, rec =
      ((s.setClient conn { Username := "", UserID := uuid, IP := "", Player := none }).setClient
        conn { Username := "", UserID := uuid, IP := remoteAddr, Player := none }).acceptRecord
        conn { Username := "", UserID := uuid, IP := remoteAddr, Player := none } := ⟨_, rfl⟩
  have hacc : s.accept conn uuid remoteAddr false = rec.1.drawColor rec.2 := by
    rw [hrecdef]; rfl
  obtain ⟨hcol, -, -, hload⟩ := GameServer.acceptRecord_spec
    ((s.setClient conn { Username := "", UserID := uuid, IP := "", Player := none }).setClient
      conn { Username := "", UserID := uuid, IP := remoteAddr, Player := none })
    conn { Username := "", UserID := uuid, IP := remoteAddr, Player := none }
  rw [← hrecdef] at hcol hload
  have hcol2 : rec.1.Colors = s.Colors := hcol
  obtain ⟨c, hmem, hout, hperm, hrec⟩ := GameServer.drawColor_spec rec.1 rec.2
    (by rw [hcol2]; exact hne)
  rw [hcol2] at hmem hperm
  rw [hacc]
  refine ⟨c, rec.2, hmem, hout, hperm, ?_, ?_, ?_⟩
  · have := hperm.length_eq
    simpa using this
  · intro hnodup hc
    have h2 : (c :: (rec.1.drawColor rec.2).1.Colors).Nodup := hperm.nodup_iff.mpr hnodup
    exact (List.nodup_cons.mp h2).1 hc
  · rw [hrec]
    obtain ⟨r, hr⟩ := Option.isSome_iff_exists.mp hload
    rw [hr]
    rfl

theorem GameServer.cleanup_current (s : GameServer) (conn : Nat) (user : User)
    (ptr : PlayerPtr) (r : ProtoPlayer)
    (hclient : s.client conn = some user) (hptr : user.Player = some ptr)
    (harray : ptr.array = s.playersArray)
    (hrecord : s.GameInfo.Players[ptr.index]? = some r) :
    (s.cleanup conn).GameInfo.Players = s.GameInfo.Players.set ptr.index { r with IsDead := true } ∧
    (s.cleanup conn).Colors = s.Colors ++ [r.Color] ∧
    (s.cleanup conn).client conn = none := by
  refine ⟨?_, ?_, GameServer.cleanup_client _ _⟩
  · simp only [GameServer.cleanup, hclient, hptr, GameServer.store, harray, if_true,
      GameServer.load, sliceModify, hrecord, GameServer.deleteClient]
    have hset : (s.GameInfo.Players.set ptr.index { r with IsDead := true })[ptr.index]? =
        some { r with IsDead := true } := by
      rw [List.getElem?_set_self (List.getElem?_eq_some.mp hrecord).1]
    simp only [hset]
  · simp only [GameServer.cleanup, hclient, hptr, GameServer.store, harray, if_true,
      GameServer.load, sliceModify, hrecord, GameServer.deleteClient]
    have hset : (s.GameInfo.Players.set ptr.index { r with IsDead := true })[ptr.index]? =
        some { r with IsDead := true } := by
      rw [List.getElem?_set_self (List.getElem?_eq_some.mp hrecord).1]
    simp only [hset]

/-! ## Explosion lifetime -/

theorem Explosion.updateResults_of_lifetime (n : Nat) :
    ∀ e : Explosion, e.time = (n : Int) + 1 →
      Explosion.updateResults (n + 1) e = List.replicate n false ++ [true] := by
  induction n with
  | zero =>
    intro e ht
    simp only [Explosion.updateResults, Explosion.Update, ht]
    rfl
  | succ n ih =>
    intro e ht
    have hne : ¬ (e.time - 1 = 0) := by push_cast at ht; omega
    have h := ih { e with time := e.time - 1 }
      (by push_cast at ht; show e.time - 1 = (n : Int) + 1; omega)
    have hunf : Explosion.updateResults (n + 1 + 1) e =
        (e.Update).2 :: Explosion.updateResults (n + 1) (e.Update).1 := rfl
    rw [hunf]
    have hstep : e.Update = ({ e with time := e.time - 1 }, false) := by
      simp [Explosion.Update, hne]
    rw [hstep, h]
    rfl

/-- C25: an explosion made by `NewExplosion` answers `false` to each of the first 89
calls of `Explosion.Update` and `true` to the 90th. -/
theorem NewExplosion_update_lifetime (x y : Int) :
    Explosion.updateResults 90 (NewExplosion x y) = List.replicate 89 false ++ [true] :=
  Explosion.updateResults_of_lifetime 89 (NewExplosion x y)
    (show (90 : Int) = ((89 : Nat) : Int) + 1 by decide)

/-! ## Manual detonation -/

theorem Bomb.Update_manual (b : Bomb) (hm : b.manualDetonate = true) : b.Update = (b, false) := by
  simp [Bomb.Update, hm]

theorem Bomb.updates_manual (n : Nat) (b : Bomb) (hm : b.manualDetonate = true) :
    Bomb.updateResults n b = List.replicate n false ∧ Bomb.afterUpdates n b = b := by
  induction n with
  | zero => exact ⟨rfl, rfl⟩
  | succ n ih =>
    simp only [Bomb.updateResults, Bomb.afterUpdates, Bomb.Update_manual b hm,
      List.replicate_succ, ih.1, ih.2, and_self]

/-- C24: a bomb with `manualDetonate` set, as `PlaceBomb` makes it for a player whose
state is the detonator effect, answers `false` to every call of `Bomb.Update` and
is not changed by it, however many calls are made; once `Detonate` has been called,
the next `Update` answers `true`. -/
theorem manual_bomb_waits_for_detonate (b : Bomb) (n : Nat) (hm : b.manualDetonate = true) :
    Bomb.updateResults n b = List.replicate n false ∧
    Bomb.afterUpdates n b = b ∧
    ((Bomb.afterUpdates n b).Detonate.Update).2 = true ∧
    (∀ (p : Player) (self addr : Nat) (placed : Bomb),
      p.stateIs "DetonatorIncrease" = true → (p.PlaceBomb self addr).2 = some placed →
      placed.manualDetonate = true) := by
  obtain ⟨h1, h2⟩ := Bomb.updates_manual n b hm
  refine ⟨h1, h2, ?_, ?_⟩
  · rw [h2]
    simp [Bomb.Detonate, Bomb.Update]
  · intro p self addr placed hstate hplace
    by_cases hcan : (p.canPlaceBomb && decide (p.NumberOfBombs > 0)) = true
    · simp only [Player.PlaceBomb, hcan, if_true, hstate, Option.some.injEq] at hplace
      rw [← hplace]
    · simp only [Player.PlaceBomb, hcan] at hplace
      simp at hplace

/-- Witness for C24: the bomb a player at (20,20) places while holding the detonator
effect, over 500 calls of `Update`. -/
theorem manual_bomb_waits_for_detonate_witness :
    Bomb.updateResults 500
        { NewBomb 7 0 2 16 16 with manualDetonate := true } = List.replicate 500 false ∧
    ({ NewPlayer 20 20 with State := some NewDetonatorInc }.PlaceBomb 0 7).2 =
      some { NewBomb 7 0 2 16 16 with manualDetonate := true } :=
  ⟨(manual_bomb_waits_for_detonate { NewBomb 7 0 2 16 16 with manualDetonate := true } 500
      rfl).1,
   by simp [Player.PlaceBomb, NewPlayer, Player.stateIs, NewDetonatorInc, StatusEffect.GetName,
        Player.TilePosition, NewBomb]; norm_num [Int.floor_eq_iff]⟩

/-! ## Bomb placement -/

/-- C23: `Player.PlaceBomb` returns a bomb exactly when `canPlaceBomb` holds and
`NumberOfBombs > 0`. In that case `NumberOfBombs` goes down by one, and the bomb has
the player as owner, the player's `BombRange` as range and the corner of the player's
tile, (16 * tile x, 16 * tile y), as position, so that it lies on the player's tile.
Otherwise nothing is returned and the player is unchanged. -/
theorem PlaceBomb_spec (p : Player) (self addr : Nat) :
    ((p.PlaceBomb self addr).2.isSome = true ↔
      (p.canPlaceBomb = true ∧ p.NumberOfBombs > 0)) ∧
    (∀ b, (p.PlaceBomb self addr).2 = some b →
      (p.PlaceBomb self addr).1.NumberOfBombs = p.NumberOfBombs - 1 ∧
      b.Owner = self ∧ b.ExplosionRange = p.BombRange ∧
      b.X = p.TilePosition.1 * 16 ∧ b.Y = p.TilePosition.2 * 16 ∧
      b.TilePosition = p.TilePosition) ∧
    ((p.PlaceBomb self addr).2 = none → (p.PlaceBomb self addr).1 = p) := by
  by_cases hcan : (p.canPlaceBomb && decide (p.NumberOfBombs > 0)) = true
  · have hcan2 : p.canPlaceBomb = true ∧ p.NumberOfBombs > 0 := by
      simpa using hcan
    by_cases hstate : p.stateIs "DetonatorIncrease" = true
    · simp only [Player.PlaceBomb, hcan, hstate, if_true, Option.isSome_some, true_iff,
        Option.some.injEq]
      refine ⟨hcan2, ?_, ?_⟩
      · intro b hb
        rw [← hb]
        simp [NewBomb, Bomb.TilePosition]
      · intro h; simp at h
    · have hstate2 : p.stateIs "DetonatorIncrease" = false := by simpa using hstate
      simp only [Player.PlaceBomb, hcan, hstate2, if_true, Bool.false_eq_true, if_false,
        Option.isSome_some, true_iff, Option.some.injEq]
      refine ⟨hcan2, ?_, ?_⟩
      · intro b hb
        rw [← hb]
        simp [NewBomb, Bomb.TilePosition]
      · intro h; simp at h
  · have hcan2 : ¬ (p.canPlaceBomb = true ∧ p.NumberOfBombs > 0) := by
      simpa using hcan
    simp only [Player.PlaceBomb, hcan]
    refine ⟨?_, ?_, ?_⟩
    · simp only [Bool.false_eq_true, if_false, Option.isSome_none, false_iff]
      exact hcan2
    · intro b hb; simp at hb
    · intro _; rfl

/-- Witness for C23: a new player at (20,20), at address 0, places a bomb of range 2
at (16,16) and is left without bombs. -/
theorem PlaceBomb_spec_witness :
    ((NewPlayer 20 20).PlaceBomb 0 7).1.NumberOfBombs = 0 ∧
    ∃ b, ((NewPlayer 20 20).PlaceBomb 0 7).2 = some b ∧ b.Owner = 0 ∧ b.ExplosionRange = 2 := by
  have hb : ((NewPlayer 20 20).PlaceBomb 0 7).2.isSome = true :=
    (PlaceBomb_spec (NewPlayer 20 20) 0 7).1.mpr ⟨rfl, by decide⟩
  obtain ⟨b, hb2⟩ := Option.isSome_iff_exists.mp hb
  obtain ⟨h1, h2, h3, -⟩ := (PlaceBomb_spec (NewPlayer 20 20) 0 7).2.1 b hb2
  exact ⟨h1, b, hb2, h2, h3⟩

/-! ## Level files: the grid -/

theorem loadEntity_staticEntities (s : GameScene) (kind : String) (x y : Int) :
    (loadEntity s kind x y).staticEntities = s.staticEntities := by
  simp only [loadEntity, NewSkullDebuff, NewSlime, NewBallon, NewOnion, Rand.Intn,
    apply_ite GameScene.staticEntities, ite_self]

theorem loadLine_entity {s s1 : GameScene} {k k1 : Nat} {parts : List String} (hk : 17 ≤ k)
    (h : loadLine (s, k) parts = some (s1, k1)) :
    s1.staticEntities = s.staticEntities ∧ 17 ≤ k1 := by
  unfold loadLine at h
  simp only [show ¬ k < 17 by omega, if_false] at h
  split_ifs at h with hlen
  · simp only [Option.some.injEq, Prod.mk.injEq] at h
    exact ⟨by rw [← h.1], by omega⟩
  · cases h1 : parts[1]? with
    | none => simp [h1] at h
    | some p1 =>
      cases h2 : parts[2]? with
      | none => simp [h1, h2] at h
      | some p2 =>
        simp only [h1, h2] at h
        cases hx : Atoi p1 with
        | none =>
          simp only [hx, Option.some.injEq, Prod.mk.injEq] at h
          exact ⟨by rw [← h.1], by omega⟩
        | some x =>
          cases hy : Atoi p2 with
          | none =>
            simp only [hx, hy, Option.some.injEq, Prod.mk.injEq] at h
            exact ⟨by rw [← h.1], by omega⟩
          | some y =>
            simp only [hx, hy] at h
            cases h0 : parts[0]? with
            | none => simp [h0] at h
            | some kind =>
              simp only [h0, Option.some.injEq, Prod.mk.injEq] at h
              exact ⟨by rw [← h.1]; exact loadEntity_staticEntities _ _ _ _, by omega⟩

theorem loadLines_entity : ∀ (lines : List (List String)) (s s1 : GameScene) (k k1 : Nat),
    17 ≤ k → loadLines lines (s, k) = some (s1, k1) → s1.staticEntities = s.staticEntities := by
  intro lines
  induction lines with
  | nil =>
    intro s s1 k k1 _ h
    simp only [loadLines, Option.some.injEq, Prod.mk.injEq] at h
    rw [← h.1]
  | cons parts rest ih =>
    intro s s1 k k1 hk h
    simp only [loadLines] at h
    cases hl : loadLine (s, k) parts with
    | none => simp [hl] at h
    | some st =>
      obtain ⟨s2, k2⟩ := st
      simp only [hl] at h
      obtain ⟨hg, hk2⟩ := loadLine_entity hk hl
      rw [ih s2 s1 k2 k1 hk2 h, hg]

theorem loadLines_grid : ∀ (lines : List (List String)) (s s1 : GameScene) (k k1 : Nat),
    k ≤ 17 → s.staticEntities.length = 17 → loadLines lines (s, k) = some (s1, k1) →
    s1.staticEntities.length = 17 ∧
    ∀ i, i < 17 → s1.staticEntities[i]? =
      if i < k then s.staticEntities[i]?
      else match lines[i - k]? with
        | some parts => some (loadGridRow i parts)
        | none => s.staticEntities[i]? := by
  intro lines
  induction lines with
  | nil =>
    intro s s1 k k1 _ hlen h
    simp only [loadLines, Option.some.injEq, Prod.mk.injEq] at h
    rw [← h.1]
    refine ⟨hlen, ?_⟩
    intro i _
    simp
  | cons parts rest ih =>
    intro s s1 k k1 hk hlen h
    by_cases hk17 : k < 17
    · simp only [loadLines] at h
      have hline : loadLine (s, k) parts =
          some ({ s with staticEntities := s.staticEntities.set k (loadGridRow k parts) }, k + 1) := by
        unfold loadLine
        simp only [hk17, if_true, show k < s.staticEntities.length by omega]
      simp only [hline] at h
      obtain ⟨hlen1, hrows⟩ := ih _ s1 (k + 1) k1 (by omega)
        (by simp only [List.length_set]; exact hlen) h
      refine ⟨hlen1, ?_⟩
      intro i hi
      rw [hrows i hi]
      by_cases h1 : i < k
      · simp only [show i < k + 1 by omega, h1, if_true]
        exact List.getElem?_set_ne (by omega)
      · by_cases h2 : i = k
        · subst h2
          simp only [show i < i + 1 by omega, if_true, lt_irrefl, if_false, Nat.sub_self,
            List.getElem?_cons_zero]
          exact List.getElem?_set_self (by omega)
        · have h3 : i - k = (i - (k + 1)) + 1 := by omega
          simp only [show ¬ i < k + 1 by omega, h1, if_false, h3, List.getElem?_cons_succ]
          cases rest[i - (k + 1)]? with
          | some p => rfl
          | none => exact List.getElem?_set_ne (by omega)
    · have hk2 : 17 ≤ k := by omega
      have hg := loadLines_entity _ s s1 k k1 hk2 h
      rw [hg]
      refine ⟨hlen, ?_⟩
      intro i hi
      simp only [show i < k by omega, if_true]

theorem loadLines_total : ∀ (lines : List (List String)) (s : GameScene) (k : Nat),
    k + lines.length ≤ 17 → s.staticEntities.length = 17 →
    ∃ st, loadLines lines (s, k) = some st := by
  intro lines
  induction lines with
  | nil => intro s k _ _; exact ⟨_, rfl⟩
  | cons parts rest ih =>
    intro s k hk hlen
    simp only [List.length_cons] at hk
    have hline : loadLine (s, k) parts =
        some ({ s with staticEntities := s.staticEntities.set k (loadGridRow k parts) }, k + 1) := by
      unfold loadLine
      simp only [show k < 17 by omega, if_true, show k < s.staticEntities.length by omega]
    simp only [loadLines, hline]
    exact ih _ (k + 1) (by omega) (by simp only [List.length_set]; exact hlen)

theorem loadGridRow_getElem? (rowIndex colIndex : Nat) (parts : List String) :
    (loadGridRow rowIndex parts)[colIndex]? = (parts[colIndex]?).map fun char =>
      if char = "SOLID" then NewWall ((colIndex : Int) * 16) ((rowIndex : Int) * 16)
      else NewGrass ((colIndex : Int) * 16) ((rowIndex : Int) * 16) := by
  unfold loadGridRow
  rw [List.getElem?_map, List.getElem?_enum]
  cases parts[colIndex]? <;> rfl

theorem LoadLevelFromTextFile_rows {lines : List (List String)} {rand : Rand} {s : GameScene}
    (h : LoadLevelFromTextFile lines rand = some s) :
    s.staticEntities.length = 17 ∧
    ∀ i, i < 17 → s.staticEntities[i]? =
      match lines[i]? with
      | some parts => some (loadGridRow i parts)
      | none => some [] := by
  have hsplit : ∀ o : Option (GameScene × Nat),
      (match o with
        | some (s, _) => some s
        | none => none) = some s → ∃ k, o = some (s, k) := by
    intro o ho
    cases o with
    | none => simp at ho
    | some st =>
      obtain ⟨a, b⟩ := st
      simp only [Option.some.injEq] at ho
      exact ⟨b, by rw [ho]⟩
  obtain ⟨k1, hl⟩ := hsplit _ h
  obtain ⟨hlen, hrows⟩ := loadLines_grid lines _ s 0 k1 (by omega) (by simp) hl
  refine ⟨hlen, ?_⟩
  intro i hi
  rw [hrows i hi]
  simp only [Nat.not_lt_zero, if_false, Nat.sub_zero]
  cases lines[i]? with
  | some p => rfl
  | none =>
    show (List.replicate 17 ([] : List Terrain))[i]? = some []
    rw [List.getElem?_replicate]
    simp [hi]
theorem loadGridRow_not_destroyable (rowIndex : Nat) (parts : List String) :
    ∀ t ∈ loadGridRow rowIndex parts, t.IsDestroyable = false := by
  intro t ht
  unfold loadGridRow at ht
  obtain ⟨⟨colIndex, char⟩, -, rfl⟩ := List.mem_map.mp ht
  by_cases h : char = "SOLID" <;> simp [h, NewWall, NewGrass, Terrain.IsDestroyable]

/-- C22: a level file of at most seventeen lines always loads. Whenever a level file
loads, the tile made from token `colIndex` of line `rowIndex < 17` is `NewWall` for
the token `SOLID` and `NewGrass` for any other token, at world position
(16 * colIndex, 16 * rowIndex); a wall is solid and not destroyable, grass is
neither; and no tile of the loaded map is destroyable. -/
theorem loadLevel_grid_tiles (lines : List (List String)) (rand : Rand) :
    (lines.length ≤ 17 → ∃ s, LoadLevelFromTextFile lines rand = some s) ∧
    (∀ s, LoadLevelFromTextFile lines rand = some s →
      (∀ (rowIndex colIndex : Nat) (parts : List String) (char : String),
        rowIndex < 17 → lines[rowIndex]? = some parts → parts[colIndex]? = some char →
        (s.staticEntities[rowIndex]?).bind (fun row => row[colIndex]?) =
          some (if char = "SOLID" then
                  NewWall ((colIndex : Int) * 16) ((rowIndex : Int) * 16)
                else NewGrass ((colIndex : Int) * 16) ((rowIndex : Int) * 16))) ∧
      (∀ row ∈ s.staticEntities, ∀ t ∈ row, t.IsDestroyable = false)) ∧
    (∀ x y : Int,
      (NewWall x y).IsSolid = true ∧ (NewWall x y).IsDestroyable = false ∧
      (NewWall x y).X = x ∧ (NewWall x y).Y = y ∧
      (NewGrass x y).IsSolid = false ∧ (NewGrass x y).IsDestroyable = false ∧
      (NewGrass x y).X = x ∧ (NewGrass x y).Y = y) := by
  refine ⟨?_, ?_, fun x y => ⟨rfl, rfl, rfl, rfl, rfl, rfl, rfl, rfl⟩⟩
  · intro hlen
    obtain ⟨⟨s1, k1⟩, hst⟩ := loadLines_total lines
      { staticEntities := List.replicate 17 [], bombs := [], explosions := [], boxes := [],
        statusEffects := [], playerMem := fun _ => NewPlayer 0 0, rand := rand } 0
      (by omega) (by simp)
    refine ⟨s1, ?_⟩
    show (match loadLines lines (_, 0) with
      | some (s, _) => some s
      | none => none) = some s1
    rw [hst]
  · intro s hs
    obtain ⟨hlen, hrows⟩ := LoadLevelFromTextFile_rows hs
    constructor
    · intro rowIndex colIndex parts char hrow hparts hchar
      rw [hrows rowIndex hrow, hparts]
      simp only [Option.some_bind, loadGridRow_getElem?, hchar, Option.map_some']
    · intro row hmem t ht
      obtain ⟨i, hi⟩ := List.mem_iff_getElem?.mp hmem
      have hi17 : i < 17 := by
        rw [← hlen]
        exact (List.getElem?_eq_some.mp hi).1
      rw [hrows i hi17] at hi
      cases hl : lines[i]? with
      | none =>
        simp only [hl, Option.some.injEq] at hi
        rw [← hi] at ht
        simp at ht
      | some parts =>
        simp only [hl, Option.some.injEq] at hi
        rw [← hi] at ht
        exact loadGridRow_not_destroyable i parts t ht

/-- Witness for C22: the level file `openLevel []` of seventeen lines loads, and in
the loaded map the tile of row 3, column 0, made from the token `GRASS`, is grass at
(0, 48). -/
theorem loadLevel_grid_tiles_witness :
    ∃ s, LoadLevelFromTextFile (openLevel []) ⟨fun _ => 0, 0⟩ = some s ∧
      (s.staticEntities[3]?).bind (fun row => row[0]?) = some (NewGrass 0 48) := by
  obtain ⟨s, hs⟩ := (loadLevel_grid_tiles (openLevel []) ⟨fun _ => 0, 0⟩).1 (by decide)
  exact ⟨s, hs, ((loadLevel_grid_tiles (openLevel []) ⟨fun _ => 0, 0⟩).2.1 s hs).1
    3 0 ["GRASS", "GRASS", "GRASS", "GRASS", "GRASS"] "GRASS" (by decide) rfl rfl⟩

/-! ## Level files: malformed entity lines -/

/-- C21: a level file whose first entity line is `BOX 1`, two fields, does not load:
the test `len(parts) < 2` lets the line through and `parts[2]` is out of range. An
entity line of one field, and lines whose first or second coordinate is not an
integer, are skipped and the line after them is still processed. -/
theorem loadLevel_faults_on_two_field_line :
    (LoadLevelFromTextFile (openLevel [["BOX", "1"], ["BOX", "1", "2"]])
        ⟨fun _ => 0, 0⟩).isSome = false ∧
    loadLine (openJoinScene.toGameScene, 17) ["BOX", "1"] = none ∧
    (LoadLevelFromTextFile (openLevel [["BOX"], ["BOX", "1", "2"]])
        ⟨fun _ => 0, 0⟩).map (fun s => s.boxes.map fun b => (b.X, b.Y)) = some [(16, 32)] ∧
    (LoadLevelFromTextFile
        (openLevel [["BOX", "one", "2"], ["BOX", "1", "2.5"], ["BOX", "1", "2"]])
        ⟨fun _ => 0, 0⟩).map (fun s => s.boxes.map fun b => (b.X, b.Y)) = some [(16, 32)] := by
  refine ⟨?_, ?_, ?_, ?_⟩ <;> rfl

/-! ## Scene manager -/

theorem sceneManager.Updates_transition {Scene : Type}
    (sceneUpdate : Scene → Scene × List Scene) (cur nxt : Option Scene) :
    ∀ (k m : Nat), k ≤ m →
      sceneManager.Updates sceneUpdate k
          ({ current := cur, next := nxt, transitionCount := (m : Int) + 1 } : sceneManager Scene) =
        some { current := cur, next := nxt, transitionCount := (m : Int) + 1 - k } := by
  intro k
  induction k with
  | zero => intro m _; simp [sceneManager.Updates]
  | succ k ih =>
    intro m hk
    obtain ⟨j, rfl⟩ : ∃ j, m = j + 1 := ⟨m - 1, by omega⟩
    have hne : ¬ (((j + 1 : Nat) : Int) + 1 = 0) := by omega
    have hpos : ((j + 1 : Nat) : Int) + 1 - 1 > 0 := by omega
    have hstep : sceneManager.Update sceneUpdate
        ({ current := cur, next := nxt, transitionCount := ((j + 1 : Nat) : Int) + 1 } :
          sceneManager Scene) =
        some { current := cur, next := nxt, transitionCount := (j : Int) + 1 } := by
      simp only [sceneManager.Update, hne, if_false, hpos, if_true]
      congr 2
      push_cast
      ring
    simp only [sceneManager.Updates, hstep]
    rw [ih j (by omega)]
    congr 2
    push_cast
    ring

theorem sceneManager.Update_last {Scene : Type}
    (sceneUpdate : Scene → Scene × List Scene) (cur nxt : Option Scene) :
    sceneManager.Update sceneUpdate
        ({ current := cur, next := nxt, transitionCount := 1 } : sceneManager Scene) =
      some { current := nxt, next := none, transitionCount := 0 } := by
  simp [sceneManager.Update]
theorem sceneManager.Updates_add {Scene : Type} (sceneUpdate : Scene → Scene × List Scene) :
    ∀ (a b : Nat) (s : sceneManager Scene),
      sceneManager.Updates sceneUpdate (a + b) s =
        (sceneManager.Updates sceneUpdate a s).bind (sceneManager.Updates sceneUpdate b) := by
  intro a
  induction a with
  | zero => intro b s; simp [sceneManager.Updates]
  | succ a ih =>
    intro b s
    have h : a + 1 + b = (a + b) + 1 := by omega
    rw [h]
    simp only [sceneManager.Updates]
    cases s.Update sceneUpdate with
    | none => rfl
    | some s1 => exact ih b s1

/-- C26: `GoTo` on a manager without current scene makes the given scene current at
once. `GoTo` on a manager whose current scene is `c` starts a transition: after each
of the first 19 calls of `Update` the current scene is still `c`, unchanged whatever
the scene's own `Update` would do to it (it is not called), with the requested scene
waiting as `next`; the 20th call makes the requested scene current and ends the
transition. -/
theorem sceneManager_GoTo_transition {Scene : Type}
    (sceneUpdate : Scene → Scene × List Scene) (s : sceneManager Scene) (scene : Scene) :
    (s.current = none → s.GoTo scene = { s with current := some scene }) ∧
    (∀ c, s.current = some c →
      (∀ k : Nat, k ≤ 19 → sceneManager.Updates sceneUpdate k (s.GoTo scene) =
          some { current := some c, next := some scene, transitionCount := 20 - (k : Int) }) ∧
      sceneManager.Updates sceneUpdate 20 (s.GoTo scene) =
          some { current := some scene, next := none, transitionCount := 0 }) := by
  constructor
  · intro h
    simp only [sceneManager.GoTo, h]
  · intro c hc
    have hgo : s.GoTo scene =
        { current := some c, next := some scene, transitionCount := ((19 : Nat) : Int) + 1 } := by
      simp only [sceneManager.GoTo, hc, transitionMaxCount]
      rfl
    have hfirst : ∀ k : Nat, k ≤ 19 → sceneManager.Updates sceneUpdate k (s.GoTo scene) =
        some { current := some c, next := some scene, transitionCount := 20 - (k : Int) } := by
      intro k hk
      rw [hgo, sceneManager.Updates_transition sceneUpdate (some c) (some scene) k 19 hk]
      congr 2
    refine ⟨hfirst, ?_⟩
    have h20 : (20 : Nat) = 19 + 1 := rfl
    rw [h20, sceneManager.Updates_add, hfirst 19 (le_refl _)]
    simp only [Option.some_bind, sceneManager.Updates]
    have hone : (20 : Int) - ((19 : Nat) : Int) = 1 := by decide
    rw [hone, sceneManager.Update_last]

/-- Witness for C26: the run of `TestSceneManager_GoTo`, on mock scenes whose `Update`
sets `updated`: ten calls after the second `GoTo` the initial scene is current and
has not been updated. -/
theorem sceneManager_GoTo_transition_witness :
    sceneManager.Updates mockScene.Update 10
        (((NewSceneManager mockScene).GoTo ⟨false, false⟩).GoTo ⟨false, true⟩) =
      some { current := some ⟨false, false⟩, next := some ⟨false, true⟩,
             transitionCount := 20 - ((10 : Nat) : Int) } :=
  ((sceneManager_GoTo_transition mockScene.Update
    ((NewSceneManager mockScene).GoTo ⟨false, false⟩) ⟨false, true⟩).2 ⟨false, false⟩ rfl).1
    10 (by decide)

/-! ## Single-player propagation -/

theorem hostAxisLoop_of_cond (cond1 cond2 : Int → Option Bool) (spawn : Int → Explosion)
    (hcond : ∀ j b, cond1 j = some b → cond2 j = some b) :
    ∀ (n : Nat) (j : Int) (acc l : List Explosion),
      hostAxisLoop cond1 spawn n j acc = some l → hostAxisLoop cond2 spawn n j acc = some l := by
  intro n
  induction n with
  | zero => intro j acc l h; exact h
  | succ n ih =>
    intro j acc l h
    unfold hostAxisLoop at h ⊢
    cases hc : cond1 j with
    | none => simp [hc] at h
    | some b =>
      rw [hcond j b hc]
      rw [hc] at h
      cases b with
      | true => exact ih _ _ _ h
      | false => exact h

theorem singleCondDown_host {g : List (List Terrain)} {cols : Nat} (hrect : RectGrid g cols)
    (x y j : Int) (b : Bool) (h : singleCondDown g x y j = some b) :
    hostCondDown g x y j = some b := by
  unfold singleCondDown at h
  unfold hostCondDown
  by_cases h1 : y + j < g.length
  · rw [if_pos h1] at h
    cases ht : tileAt g x (y + j) with
    | none => simp [ht] at h
    | some t =>
      obtain ⟨hx0, hx, hy0, hy⟩ := tileAt_bounds hrect ht
      rw [if_pos ⟨h1, hx0, hx, by omega⟩, lenRow0_rect hrect (by omega)]
      simp only [hy, if_true]
      rw [ht] at h
      exact h
  · rw [if_neg h1] at h
    rw [if_neg (fun hh => h1 hh.1)]
    exact h

theorem singleCondUp_host {g : List (List Terrain)} {cols : Nat} (hrect : RectGrid g cols)
    (x y j : Int) (b : Bool) (h : singleCondUp g x y j = some b) :
    hostCondUp g x y j = some b := by
  unfold singleCondUp at h
  unfold hostCondUp
  by_cases h1 : y - j ≥ 0
  · rw [if_pos h1] at h
    cases ht : tileAt g x (y - j) with
    | none => simp [ht] at h
    | some t =>
      obtain ⟨hx0, hx, hy0, hy⟩ := tileAt_bounds hrect ht
      rw [if_pos ⟨h1, hx0, hx, by omega⟩, lenRow0_rect hrect (by omega)]
      simp only [hy, if_true]
      rw [ht] at h
      exact h
  · rw [if_neg h1] at h
    rw [if_neg (fun hh => h1 hh.1)]
    exact h

theorem singleCondRight_host {g : List (List Terrain)} {cols : Nat} (hrect : RectGrid g cols)
    (x y j : Int) (b : Bool) (h : singleCondRight g x y j = some b) :
    hostCondRight g x y j = some b := by
  unfold singleCondRight at h
  unfold hostCondRight
  by_cases h1 : x + j < g.length
  · rw [if_pos h1] at h
    cases ht : tileAt g (x + j) y with
    | none => simp [ht] at h
    | some t =>
      obtain ⟨hx0, hx, hy0, hy⟩ := tileAt_bounds hrect ht
      have hlen0 : g.length > 0 := by omega
      rw [if_pos ⟨h1, hy0⟩, lenRow0_rect hrect hlen0]
      simp only [hy, hlen0, h1, and_self, if_true]
      rw [ht] at h
      exact h
  · rw [if_neg h1] at h
    rw [if_neg (fun hh => h1 hh.1)]
    exact h

theorem singleCondLeft_host {g : List (List Terrain)} {cols : Nat} (hrect : RectGrid g cols)
    (x y j : Int) (b : Bool) (h : singleCondLeft g x y j = some b) :
    hostCondLeft g x y j = some b := by
  unfold singleCondLeft at h
  unfold hostCondLeft
  by_cases h1 : x - j ≥ 0
  · rw [if_pos h1] at h
    cases ht : tileAt g (x - j) y with
    | none => simp [ht] at h
    | some t =>
      obtain ⟨hx0, hx, hy0, hy⟩ := tileAt_bounds hrect ht
      have hlen0 : g.length > 0 := by omega
      rw [if_pos ⟨h1, hy0⟩, lenRow0_rect hrect hlen0]
      simp only [hy, hlen0, hx, and_self, if_true]
      rw [ht] at h
      exact h
  · rw [if_neg h1] at h
    rw [if_neg (fun hh => h1 hh.1)]
    exact h

theorem singleSpawnExplosions_host {g : List (List Terrain)} {cols : Nat}
    (hrect : RectGrid g cols) (x y range : Int) (l : List Explosion)
    (h : singleSpawnExplosions g x y range = some l) :
    hostSpawnExplosions g x y range = some l := by
  unfold singleSpawnExplosions at h
  unfold hostSpawnExplosions hostAxisDown hostAxisUp hostAxisRight hostAxisLeft
  cases hd : hostAxisLoop (singleCondDown g x y) (fun j => NewExplosion (x * 16) ((y + j) * 16))
      range.toNat 1 [] with
  | none => simp [hd] at h
  | some down =>
    rw [hd] at h
    rw [hostAxisLoop_of_cond _ _ _ (singleCondDown_host hrect x y) _ _ _ _ hd]
    cases hu : hostAxisLoop (singleCondUp g x y) (fun j => NewExplosion (x * 16) ((y - j) * 16))
        range.toNat 1 [] with
    | none => simp [hu] at h
    | some up =>
      rw [hu] at h
      rw [hostAxisLoop_of_cond _ _ _ (singleCondUp_host hrect x y) _ _ _ _ hu]
      cases hr : hostAxisLoop (singleCondRight g x y)
          (fun j => NewExplosion ((x + j) * 16) (y * 16)) range.toNat 1 [] with
      | none => simp [hr] at h
      | some right =>
        rw [hr] at h
        rw [hostAxisLoop_of_cond _ _ _ (singleCondRight_host hrect x y) _ _ _ _ hr]
        cases hl : hostAxisLoop (singleCondLeft g x y)
            (fun j => NewExplosion ((x - j) * 16) (y * 16)) range.toNat 1 [] with
        | none => simp [hl] at h
        | some left =>
          rw [hl] at h
          rw [hostAxisLoop_of_cond _ _ _ (singleCondLeft_host hrect x y) _ _ _ _ hl]
          exact h

/-- C27: the two ticks do not run the propagation alike. On the map of `openLevel []`
(seventeen rows of five tiles) a bomb of range 1 on tile (1,4) makes the single-player
propagation index `staticEntities[1][5]` out of range, while the host's, which tests
the indices first, spawns four explosions. On the map of `wideLevel` (seventeen rows
of twenty tiles) a bomb on tile (18,1) makes the single-player propagation index
`staticEntities[18]` out of range, while the host's spawns the centre only. On every
rectangular grid, whenever the single-player propagation goes through, the host's
spawns the same explosions in the same order. -/
theorem single_propagation_faults_where_host_stops :
    singleSpawnExplosions openJoinScene.staticEntities 1 4 1 = none ∧
    hostSpawnExplosions openJoinScene.staticEntities 1 4 1 =
      some [NewExplosion 16 64, NewExplosion 16 48, NewExplosion 32 64, NewExplosion 0 64] ∧
    (LoadLevelFromTextFile wideLevel ⟨fun _ => 0, 0⟩).map
      (fun s => singleSpawnExplosions s.staticEntities 18 1 1) = some none ∧
    (LoadLevelFromTextFile wideLevel ⟨fun _ => 0, 0⟩).map
      (fun s => hostSpawnExplosions s.staticEntities 18 1 1) = some (some [NewExplosion 288 16]) ∧
    (∀ (g : List (List Terrain)) (cols : Nat) (x y range : Int) (l : List Explosion),
      RectGrid g cols → singleSpawnExplosions g x y range = some l →
      hostSpawnExplosions g x y range = some l) := by
  refine ⟨?_, ?_, ?_, ?_, ?_⟩
  · rfl
  · rfl
  · rfl
  · rfl
  · intro g cols x y range l hrect h
    exact singleSpawnExplosions_host hrect x y range l h

/-! ## The grid and the world -/

theorem loaded_tile_position {lines : List (List String)} {rand : Rand} {s : GameScene}
    (hload : LoadLevelFromTextFile lines rand = some s) {x y : Int} {t : Terrain}
    (ht : tileAt s.staticEntities x y = some t) : t.TilePosition = (y, x) := by
  obtain ⟨hlen, hrows⟩ := LoadLevelFromTextFile_rows hload
  unfold tileAt at ht
  split_ifs at ht with hneg
  have hx0 : 0 ≤ x := by omega
  have hy0 : 0 ≤ y := by omega
  cases hrow : s.staticEntities[x.toNat]? with
  | none => simp [hrow] at ht
  | some row =>
    simp only [hrow] at ht
    have hx17 : x.toNat < 17 := by
      rw [← hlen]
      exact (List.getElem?_eq_some.mp hrow).1
    rw [hrows x.toNat hx17] at hrow
    cases hl : lines[x.toNat]? with
    | none =>
      simp only [hl, Option.some.injEq] at hrow
      rw [← hrow] at ht
      simp at ht
    | some parts =>
      simp only [hl, Option.some.injEq] at hrow
      rw [← hrow, loadGridRow_getElem?] at ht
      cases hc : parts[y.toNat]? with
      | none => simp [hc] at ht
      | some char =>
        simp only [hc, Option.map_some', Option.some.injEq] at ht
        rw [← ht]
        have hxc : ((x.toNat : Nat) : Int) = x := Int.toNat_of_nonneg hx0
        have hyc : ((y.toNat : Nat) : Int) = y := Int.toNat_of_nonneg hy0
        by_cases hsolid : char = "SOLID"
        · simp only [hsolid, if_true, Terrain.TilePosition, NewWall, hxc, hyc]
          rw [Int.mul_ediv_cancel _ (by decide), Int.mul_ediv_cancel _ (by decide)]
        · simp only [hsolid, if_false, Terrain.TilePosition, NewGrass, hxc, hyc]
          rw [Int.mul_ediv_cancel _ (by decide), Int.mul_ediv_cancel _ (by decide)]

/-- C28: in the map loaded from `cornerWallLevel`, the terrain that the propagation
consults for tile (1,0), `staticEntities[1][0]`, is the grass whose own tile position
is (0,1), while the terrain on tile (1,0) is a wall, kept in `staticEntities[0][1]`.
So a bomb of range 1 on tile (0,0) sends an explosion onto the wall at (16,0) and none
onto the grass at (0,16), on the host and in single-player alike. On every loaded map
the terrain consulted for tile (x,y) has tile position (y,x). -/
theorem propagation_reads_transposed_tile :
    (LoadLevelFromTextFile cornerWallLevel ⟨fun _ => 0, 0⟩).map
      (fun s => tileAt s.staticEntities 1 0) = some (some (NewGrass 0 16)) ∧
    (NewGrass 0 16).TilePosition = (0, 1) ∧
    (LoadLevelFromTextFile cornerWallLevel ⟨fun _ => 0, 0⟩).map
      (fun s => tileAt s.staticEntities 0 1) = some (some (NewWall 16 0)) ∧
    (NewWall 16 0).TilePosition = (1, 0) ∧
    (LoadLevelFromTextFile cornerWallLevel ⟨fun _ => 0, 0⟩).map
      (fun s => hostSpawnExplosions s.staticEntities 0 0 1) =
        some (some [NewExplosion 0 0, NewExplosion 16 0]) ∧
    (LoadLevelFromTextFile cornerWallLevel ⟨fun _ => 0, 0⟩).map
      (fun s => singleSpawnExplosions s.staticEntities 0 0 1) =
        some (some [NewExplosion 0 0, NewExplosion 16 0]) ∧
    (∀ (lines : List (List String)) (rand : Rand) (s : GameScene) (x y : Int) (t : Terrain),
      LoadLevelFromTextFile lines rand = some s → tileAt s.staticEntities x y = some t →
      t.TilePosition = (y, x)) := by
  refine ⟨rfl, rfl, rfl, rfl, rfl, rfl, ?_⟩
  intro lines rand s x y t hload ht
  exact loaded_tile_position hload ht

/-! ## Single-player bomb loop -/

/-- C30: `detonatorPlayer` triggers both of its manual bombs in one `Player.Update`.
In the bomb loop that follows, the first pass removes the first bomb and leaves a
list of one; the second pass reads the second bomb from the slots the `range` took
at the start, finds it detonated, and `s.bombs[1].Owner` is out of range: the loop
faults. With only the first bomb triggered the loop goes through and keeps the
second; the host's loop, which indexes `s.bombs` afresh in every pass, removes both. -/
theorem single_bomb_loop_faults_on_two_detonations :
    (detonatorPlayer.Update 0 12).detonated = [10, 11] ∧
    (singleBombPhase { twoManualBombsScene with
        bombs := detonateBombs (detonatorPlayer.Update 0 12).detonated
          twoManualBombsScene.bombs }).isSome = false ∧
    (singleBombPhase { twoManualBombsScene with
        bombs := detonateBombs [10] twoManualBombsScene.bombs }).map
      (fun s => s.bombs.map fun b => b.addr) = some [11] ∧
    (hostBombPhase
      { toGameScene := { twoManualBombsScene with
          bombs := detonateBombs [10, 11] twoManualBombsScene.bombs },
        GameInfo := { emptyGameInfo with Bombs := [ProtoEntity.at 16 16, ProtoEntity.at 48 16] } }).map
      (fun s => s.bombs.length) = some 0 := by
  refine ⟨?_, ?_, ?_, ?_⟩ <;> rfl

/-! ## Host: the bomb allowance -/

theorem StatusEffect.Update_NumberOfBombs (e : StatusEffect) (p : Player) :
    p.NumberOfBombs ≤ (e.Update p).2.1.NumberOfBombs := by
  cases e <;> simp only [StatusEffect.Update] <;> (try split_ifs) <;> simp

theorem Player.updateState_NumberOfBombs (p : Player) :
    p.NumberOfBombs ≤ p.updateState.NumberOfBombs := by
  unfold Player.updateState
  cases hs : p.State with
  | none => simp
  | some st =>
    simp only
    split_ifs <;> exact StatusEffect.Update_NumberOfBombs st p

theorem Player.bombStep_NumberOfBombs (p : Player) (self addr : Nat)
    (h : 0 ≤ p.NumberOfBombs) : 0 ≤ (p.bombStep self addr).1.NumberOfBombs := by
  have hplace : 0 ≤ (p.PlaceBomb self addr).1.NumberOfBombs := by
    unfold Player.PlaceBomb
    by_cases hcan : (p.canPlaceBomb && decide (p.NumberOfBombs > 0)) = true
    · have hpos : p.NumberOfBombs > 0 := by
        simp only [Bool.and_eq_true, decide_eq_true_eq] at hcan
        exact hcan.2
      simp only [hcan, if_true]
      split_ifs <;> simp only <;> omega
    · simp only [hcan, Bool.false_eq_true, if_false]
      exact h
  unfold Player.bombStep
  split_ifs
  · exact hplace
  · exact hplace
  · exact h

theorem Player.Update_NumberOfBombs_nonneg (p : Player) (self addr : Nat)
    (h : 0 ≤ p.NumberOfBombs) : 0 ≤ (p.Update self addr).player.NumberOfBombs := by
  have h1 : 0 ≤ p.updateState.NumberOfBombs := le_trans h p.updateState_NumberOfBombs
  have h2 : p.updateState.detonateManual.1.NumberOfBombs = p.updateState.NumberOfBombs := by
    unfold Player.detonateManual; split_ifs <;> rfl
  have h3 : ∀ q : Player, q.obstacleStep.1.NumberOfBombs = q.NumberOfBombs := by
    intro q
    unfold Player.obstacleStep Player.PlaceObstacle
    split_ifs <;> rfl
  have hm : ∀ (q : Player) (pressed : Bool) (dx dy : ℚ) (key : String),
      (q.moveIf pressed dx dy key).NumberOfBombs = q.NumberOfBombs := by
    intro q pressed dx dy key
    unfold Player.moveIf
    split_ifs <;> rfl
  have h4 : ∀ q : Player, q.move.NumberOfBombs = q.NumberOfBombs := by
    intro q
    unfold Player.move
    simp only [hm]
  show 0 ≤ ((p.updateState.detonateManual.1.obstacleStep.1.bombStep self addr).1.move).NumberOfBombs
  rw [h4]
  apply Player.bombStep_NumberOfBombs
  rw [h3, h2]
  exact h1

/-- C29: the bomb allowance is not conserved on the host. A bomb's `Owner` is the
address of its owner inside the backing array of `s.players`; when a participant
connects, the players loop appends to `s.players` (line 116), the slice moves to a
new array, and the bombs placed before keep pointing into the old one. In a round on
the open level, without pickups, the host starts with `NumberOfBombs` 1 and no bomb,
places a bomb in the first tick (0 and 1 bomb, owner at address 0) and walks away;
a participant connects after tick 61 and from tick 62 on the host's player is at
address 1. At tick 180 the bomb goes off: the count restored is that of the copy
left at address 0, and the host's player has `NumberOfBombs` 0 and no bomb, so the
sum has dropped from 1 to 0, and the bomb key places nothing afterwards. Without the
participant connecting the same round ends with `NumberOfBombs` 1. The other half of
the claim holds: `Player.Update` never makes `NumberOfBombs` negative. -/
theorem host_bomb_allowance_lost_after_join :
    (hostAloneWorld.bind fun w => bombAllowance w 0) = some (1, 0) ∧
    ((lateJoinWorld 0).map fun w => (bombAllowance w 0, w.bombs.map Bomb.Owner, w.playerAddr 0))
      = some (some (0, 1), [0], some 0) ∧
    ((lateJoinWorld 1).map fun w => (bombAllowance w 0, w.bombs.map Bomb.Owner, w.playerAddr 0))
      = some (some (0, 1), [0], some 1) ∧
    ((lateJoinWorld 118).bind fun w => bombAllowance w 0) = some (0, 1) ∧
    ((lateJoinWorld 119).map fun w => (bombAllowance w 0, (w.playerMem 0).NumberOfBombs))
      = some (some (0, 0), 1) ∧
    ((lateJoinWorld 119).bind fun w =>
        (hostTick w bombKey fun _ => []).bind fun w => bombAllowance w 0) = some (0, 0) ∧
    ((noJoinWorld 119).bind fun w => bombAllowance w 0) = some (1, 0) ∧
    (∀ (p : Player) (self addr : Nat), 0 ≤ p.NumberOfBombs →
      0 ≤ (p.Update self addr).player.NumberOfBombs) := by
  refine ⟨?_, ?_, ?_, ?_, ?_, ?_, ?_, ?_⟩
  · decide!
  · decide!
  · decide!
  · decide!
  · decide!
  · decide!
  · decide!
  · exact Player.Update_NumberOfBombs_nonneg

/-! ## Host: the terrain across a tick -/

theorem tileAt_mem {g : List (List Terrain)} {x y : Int} {t : Terrain}
    (h : tileAt g x y = some t) : ∃ row ∈ g, t ∈ row := by
  unfold tileAt at h
  split_ifs at h
  cases hrow : g[x.toNat]? with
  | none => simp [hrow] at h
  | some row =>
    simp only [hrow] at h
    exact ⟨row, List.getElem?_mem hrow, List.getElem?_mem h⟩

theorem TerrainFrame.of_eq {s s1 : MultiPlayerGameSceneHost}
    (hg : s1.staticEntities = s.staticEntities)
    (hl : s1.GameInfo.TerrainChanges = s.GameInfo.TerrainChanges) : TerrainFrame s s1 :=
  ⟨by rw [hl], fun _ => ⟨hg, hl⟩⟩

theorem TerrainFrame.refl (s : MultiPlayerGameSceneHost) : TerrainFrame s s :=
  TerrainFrame.of_eq rfl rfl

theorem TerrainFrame.trans {s s1 s2 : MultiPlayerGameSceneHost}
    (h1 : TerrainFrame s s1) (h2 : TerrainFrame s1 s2) : TerrainFrame s s2 := by
  refine ⟨h1.1.trans h2.1, fun hnd => ?_⟩
  obtain ⟨hg1, hl1⟩ := h1.2 hnd
  obtain ⟨hg2, hl2⟩ := h2.2 (by rw [hg1]; exact hnd)
  exact ⟨hg2.trans hg1, hl2.trans hl1⟩

theorem hostDetonate_terrain {s s1 : MultiPlayerGameSceneHost} {i : Nat} {b : Bomb}
    (h : hostDetonate s i b = some s1) : TerrainFrame s s1 := by
  unfold hostDetonate at h
  simp only at h
  split at h
  · cases h
  · split at h
    · cases h
    · cases h
      exact TerrainFrame.of_eq rfl rfl

theorem hostBombLoop_terrain (fuel : Nat) :
    ∀ (i : Nat) (s s1 : MultiPlayerGameSceneHost),
      hostBombLoop fuel i s = some s1 → TerrainFrame s s1 := by
  induction fuel with
  | zero =>
    intro i s s1 h
    unfold hostBombLoop at h
    split_ifs at h
    cases h
    exact TerrainFrame.refl s
  | succ fuel ih =>
    intro i s s1 h
    unfold hostBombLoop at h
    split at h
    · cases h; exact TerrainFrame.refl s
    · simp only at h
      split_ifs at h
      · split at h
        · cases h
        · rename_i s2 hdet
          have h1 := hostDetonate_terrain hdet
          have h2 := ih _ _ _ h
          exact (TerrainFrame.trans (TerrainFrame.of_eq rfl rfl) h1).trans h2
      · have h2 := ih _ _ _ h
        exact TerrainFrame.trans (TerrainFrame.of_eq rfl rfl) h2

theorem hostDestroyBox_terrain {s s1 : MultiPlayerGameSceneHost} {j : Nat} {box : Box}
    (h : hostDestroyBox s j box = some s1) : TerrainFrame s s1 := by
  unfold hostDestroyBox at h
  simp only at h
  split at h
  · cases h
  · split at h
    · cases h
    · split at h
      · cases h
      · split at h
        · cases h
        · cases h
          apply TerrainFrame.of_eq
          · show (ite _ _ _ : MultiPlayerGameSceneHost).staticEntities = _
            split_ifs
            · split <;> rfl
            · rfl
          · show (ite _ _ _ : MultiPlayerGameSceneHost).GameInfo.TerrainChanges = _
            split_ifs
            · split <;> rfl
            · rfl

theorem hostBoxLoop_terrain (exploX ExploY : Int) :
    ∀ (todo : List Box) (j : Nat) (s s1 : MultiPlayerGameSceneHost),
      hostBoxLoop exploX ExploY todo j s = some s1 → TerrainFrame s s1 := by
  intro todo
  induction todo with
  | nil =>
    intro j s s1 h
    unfold hostBoxLoop at h
    cases h
    exact TerrainFrame.refl s
  | cons box todo ih =>
    intro j s s1 h
    unfold hostBoxLoop at h
    simp only at h
    split_ifs at h
    · split at h
      · cases h
      · rename_i s2 hbox
        exact (hostDestroyBox_terrain hbox).trans (ih _ _ _ h)
    · exact ih _ _ _ h

theorem hostDestroyTerrain_terrain {s s1 : MultiPlayerGameSceneHost} {exploX ExploY : Int}
    (h : hostDestroyTerrain s exploX ExploY = some s1) : TerrainFrame s s1 := by
  unfold hostDestroyTerrain at h
  simp only at h
  split_ifs at h
  · split at h
    · cases h
    · split_ifs at h
      · split at h
        · cases h
        · rename_i t ht
          split_ifs at h with hdes
          · split at h
            · cases h
            · cases h
              refine ⟨List.prefix_append _ _, fun hnd => ?_⟩
              obtain ⟨row, hrow, hmem⟩ := tileAt_mem ht
              rw [hnd row hrow t hmem] at hdes
              cases hdes
          · cases h; exact TerrainFrame.refl s
      · cases h; exact TerrainFrame.refl s
  · cases h; exact TerrainFrame.refl s

theorem hostRemoveExplosion_terrain {s s1 : MultiPlayerGameSceneHost} {i : Nat}
    (h : hostRemoveExplosion s i = some s1) : TerrainFrame s s1 := by
  unfold hostRemoveExplosion at h
  split at h
  · cases h
  · cases h; exact TerrainFrame.of_eq rfl rfl

theorem hostKeepExplosion_terrain {s s1 : MultiPlayerGameSceneHost} {i : Nat} {e : Explosion}
    (h : hostKeepExplosion s i e = some s1) : TerrainFrame s s1 := by
  unfold hostKeepExplosion at h
  simp only at h
  split at h
  · cases h
  · split at h
    · cases h
    · rename_i s2 hbox
      have h1 := hostBoxLoop_terrain _ _ _ _ _ _ hbox
      have h2 := hostDestroyTerrain_terrain h
      exact (TerrainFrame.trans (TerrainFrame.of_eq rfl rfl) h1).trans h2

theorem hostExplosionLoop_terrain (fuel : Nat) :
    ∀ (i : Nat) (s s1 : MultiPlayerGameSceneHost),
      hostExplosionLoop fuel i s = some s1 → TerrainFrame s s1 := by
  induction fuel with
  | zero =>
    intro i s s1 h
    unfold hostExplosionLoop at h
    split_ifs at h
    cases h
    exact TerrainFrame.refl s
  | succ fuel ih =>
    intro i s s1 h
    unfold hostExplosionLoop at h
    split at h
    · cases h; exact TerrainFrame.refl s
    · simp only at h
      split_ifs at h
      · split at h
        · cases h
        · rename_i s2 hrem
          have h1 := hostRemoveExplosion_terrain hrem
          have h2 := ih _ _ _ h
          exact (TerrainFrame.trans (TerrainFrame.of_eq rfl rfl) h1).trans h2
      · split at h
        · cases h
        · rename_i s2 hkeep
          have h1 := hostKeepExplosion_terrain hkeep
          have h2 := ih _ _ _ h
          exact (TerrainFrame.trans (TerrainFrame.of_eq rfl rfl) h1).trans h2

theorem hostUpdateWorld_terrain {s s1 : MultiPlayerGameSceneHost}
    (h : hostUpdateWorld s = some s1) : TerrainFrame s s1 := by
  unfold hostUpdateWorld at h
  split at h
  · cases h
  · rename_i s2 hb
    split at h
    · cases h
    · rename_i s3 he
      cases h
      have h1 := hostBombLoop_terrain _ _ _ _ hb
      have h2 := hostExplosionLoop_terrain _ _ _ _ he
      exact (h1.trans h2).trans (TerrainFrame.of_eq rfl (hostRoundEnd_frame s3.GameInfo).1)

theorem hostRemoveEffects_terrain :
    ∀ (found : List Nat) (s s1 : MultiPlayerGameSceneHost),
      hostRemoveEffects found s = some s1 →
      s1.staticEntities = s.staticEntities ∧
      s1.GameInfo.TerrainChanges = s.GameInfo.TerrainChanges := by
  intro found
  induction found with
  | nil =>
    intro s s1 h
    unfold hostRemoveEffects at h
    cases h
    exact ⟨rfl, rfl⟩
  | cons index rest ih =>
    intro s s1 h
    unfold hostRemoveEffects at h
    split_ifs at h
    · split at h
      · have h3 := ih _ _ h
        exact ⟨h3.1, h3.2⟩
      · cases h
    · exact ih _ _ h

theorem markDead_terrain {info : ProtoGameInfo} {i : Nat} {ps : List ProtoPlayer}
    (_h : markDead info.Players i = some ps) :
    ({ info with Players := ps } : ProtoGameInfo).TerrainChanges = info.TerrainChanges := rfl

theorem hostCollide_terrain {w w1 : HostWorld} {i a : Nat} {c : Collision}
    (h : hostCollide w i a c = some w1) :
    w1.staticEntities = w.staticEntities ∧
    w1.GameInfo.TerrainChanges = w.GameInfo.TerrainChanges := by
  unfold hostCollide at h
  cases c with
  | nil => simp only at h; cases h; exact ⟨rfl, rfl⟩
  | bomb sepX sepY =>
    simp only at h
    split_ifs at h <;> cases h <;> exact ⟨rfl, rfl⟩
  | explosion =>
    simp only at h
    split_ifs at h
    · split at h
      · cases h; exact ⟨rfl, rfl⟩
      · cases h
    · cases h; exact ⟨rfl, rfl⟩
  | box sepX sepY =>
    simp only at h
    split_ifs at h <;> cases h <;> exact ⟨rfl, rfl⟩
  | effect statusEffect found =>
    simp only at h
    split at h
    · rename_i s2 hrem
      cases h
      have h3 := hostRemoveEffects_terrain _ _ _ hrem
      exact ⟨h3.1, h3.2⟩
    · cases h
  | terrain solid sepX sepY =>
    simp only at h
    split_ifs at h <;> cases h <;> exact ⟨rfl, rfl⟩
  | monster =>
    simp only at h
    split_ifs at h
    · split at h
      · cases h; exact ⟨rfl, rfl⟩
      · cases h
    · cases h; exact ⟨rfl, rfl⟩

theorem hostCollisions_terrain (i a : Nat) :
    ∀ (collisions : List Collision) (w w1 : HostWorld),
      hostCollisions i a collisions w = some w1 →
      w1.staticEntities = w.staticEntities ∧
      w1.GameInfo.TerrainChanges = w.GameInfo.TerrainChanges := by
  intro collisions
  induction collisions with
  | nil =>
    intro w w1 h
    unfold hostCollisions at h
    cases h
    exact ⟨rfl, rfl⟩
  | cons c rest ih =>
    intro w w1 h
    unfold hostCollisions at h
    split at h
    · rename_i w2 hc
      obtain ⟨h1, h2⟩ := hostCollide_terrain hc
      obtain ⟨h3, h4⟩ := ih _ _ h
      exact ⟨h3.trans h1, h4.trans h2⟩
    · cases h

theorem HostWorld.appendPlayer_terrain (w : HostWorld) (p : Player) :
    (w.appendPlayer p).staticEntities = w.staticEntities ∧
    (w.appendPlayer p).GameInfo = w.GameInfo := by
  unfold HostWorld.appendPlayer
  split_ifs <;> exact ⟨rfl, rfl⟩

theorem hostPlayerPass_terrain {w w1 : HostWorld} {i : Nat} {v : ProtoPlayer}
    {collisions : List Collision} (h : hostPlayerPass w i v collisions = some w1) :
    w1.staticEntities = w.staticEntities ∧
    w1.GameInfo.TerrainChanges = w.GameInfo.TerrainChanges := by
  unfold hostPlayerPass at h
  split_ifs at h with hdead
  · cases h; exact ⟨rfl, rfl⟩
  · split at h
    · cases h
    · simp only at h
      split at h
      · cases h
      · split at h
        · cases h
        · rename_i w2 hcol
          split at h
          · cases h
          · cases h
            obtain ⟨h1, h2⟩ := hostCollisions_terrain _ _ _ _ _ hcol
            refine ⟨h1.trans ?_, h2.trans ?_⟩
            · split <;> split <;> split_ifs <;>
                first
                | rfl
                | exact (HostWorld.appendPlayer_terrain _ _).1
            · split <;> split <;> split_ifs <;>
                first
                | rfl
                | (show (HostWorld.appendPlayer _ _).GameInfo.TerrainChanges = _
                   rw [(HostWorld.appendPlayer_terrain _ _).2])

theorem hostPlayersFrom_terrain (collisions : Nat → List Collision) (fuel : Nat) :
    ∀ (i : Nat) (w w1 : HostWorld), hostPlayersFrom collisions fuel i w = some w1 →
      w1.staticEntities = w.staticEntities ∧
      w1.GameInfo.TerrainChanges = w.GameInfo.TerrainChanges := by
  induction fuel with
  | zero =>
    intro i w w1 h
    unfold hostPlayersFrom at h
    cases h
    exact ⟨rfl, rfl⟩
  | succ fuel ih =>
    intro i w w1 h
    unfold hostPlayersFrom at h
    split at h
    · cases h
    · split at h
      · rename_i w2 hpass
        obtain ⟨h1, h2⟩ := hostPlayerPass_terrain hpass
        obtain ⟨h3, h4⟩ := ih _ _ _ h
        exact ⟨h3.trans h1, h4.trans h2⟩
      · cases h

theorem hostTick_terrain {w w1 : HostWorld} {input : PlayerControls}
    {collisions : Nat → List Collision} (h : hostTick w input collisions = some w1) :
    TerrainFrame w.toMultiPlayerGameSceneHost w1.toMultiPlayerGameSceneHost := by
  unfold hostTick at h
  split at h
  · cases h
  · rename_i info hinfo
    simp only at h
    split at h
    · cases h
    · rename_i w2 hloop
      split at h
      · cases h
      · rename_i s3 hworld
        cases h
        obtain ⟨h1, h2⟩ := hostPlayersFrom_terrain _ _ _ _ _ hloop
        have hlog : info.TerrainChanges = w.GameInfo.TerrainChanges := by
          unfold hostControls at hinfo
          split at hinfo
          · cases hinfo; rfl
          · cases hinfo
        have hf1 : TerrainFrame w.toMultiPlayerGameSceneHost w2.toMultiPlayerGameSceneHost :=
          TerrainFrame.of_eq h1 (h2.trans hlog)
        exact hf1.trans (hostUpdateWorld_terrain hworld)

theorem hostRun_terrain :
    ∀ (steps : List HostStep) (w w1 : HostWorld), hostRun steps w = some w1 →
      TerrainFrame w.toMultiPlayerGameSceneHost w1.toMultiPlayerGameSceneHost := by
  intro steps
  induction steps with
  | nil =>
    intro w w1 h
    unfold hostRun at h
    cases h
    exact TerrainFrame.refl _
  | cons step rest ih =>
    intro w w1 h
    cases step with
    | tick input collisions =>
      unfold hostRun at h
      split at h
      · rename_i w2 htick
        exact (hostTick_terrain htick).trans (ih _ _ h)
      · cases h
    | accept x y =>
      unfold hostRun at h
      have h2 := ih _ _ h
      exact TerrainFrame.trans (TerrainFrame.of_eq rfl rfl) h2

theorem NewMultiPlayerGameSceneHost_terrain {scene : GameScene} {info : ProtoGameInfo}
    {w : HostWorld} (h : NewMultiPlayerGameSceneHost scene info = some w) :
    w.staticEntities = scene.staticEntities ∧
    w.GameInfo.TerrainChanges = info.TerrainChanges := by
  unfold NewMultiPlayerGameSceneHost at h
  simp only at h
  split at h
  · split at h
    · cases h; exact ⟨rfl, rfl⟩
    · cases h
  · cases h

theorem LoadLevelFromTextFile_noDestroyable {lines : List (List String)} {rand : Rand}
    {s : GameScene} (h : LoadLevelFromTextFile lines rand = some s) :
    NoDestroyable s.staticEntities := by
  obtain ⟨hlen, hrows⟩ := LoadLevelFromTextFile_rows h
  intro row hrow t ht
  obtain ⟨i, hi, hget⟩ := List.getElem_of_mem hrow
  have hi17 : i < 17 := by rw [← hlen]; exact hi
  have hrow2 := hrows i hi17
  rw [List.getElem?_eq_getElem hi, hget] at hrow2
  cases hl : lines[i]? with
  | none =>
    simp only [hl, Option.some.injEq] at hrow2
    rw [hrow2] at ht
    simp at ht
  | some parts =>
    simp only [hl, Option.some.injEq] at hrow2
    rw [hrow2] at ht
    exact loadGridRow_not_destroyable i parts t ht

theorem onDestroyable_of_noDestroyable {g : List (List Terrain)} (hnd : NoDestroyable g)
    (es : List Explosion) : es.filter (onDestroyable g) = [] := by
  rw [List.filter_eq_nil_iff]
  intro e _
  unfold onDestroyable
  cases ht : tileAt g e.TilePosition.1 e.TilePosition.2 with
  | none => simp
  | some t =>
    obtain ⟨row, hrow, hmem⟩ := tileAt_mem ht
    simp [hnd row hrow t hmem]

/-- C4: in every world the host reaches (a map loaded from any level file, made into
a host scene, then any sequence of host ticks and connecting participants) no tile
is destroyable, because the loader builds walls and grass only and a tick replaces
tiles by grass only. So in every such world, for every bomb tile and range, along
each of the four axes the explosions spawned lie on at most one destroyable tile (on
none), and a tick turns no tile to grass: the grid stays the loaded one and the log
of terrain changes stays as it was when the scene was made. -/
theorem host_destroys_at_most_one_tile_per_axis (lines : List (List String)) (rand : Rand)
    (scene : GameScene) (info : ProtoGameInfo) (w0 : HostWorld) (steps : List HostStep)
    (w : HostWorld)
    (hload : LoadLevelFromTextFile lines rand = some scene)
    (hnew : NewMultiPlayerGameSceneHost scene info = some w0)
    (hrun : hostRun steps w0 = some w) :
    (∀ x y range : Int,
      (∀ es, hostAxisDown w.staticEntities x y range = some es →
        (es.filter (onDestroyable w.staticEntities)).length ≤ 1) ∧
      (∀ es, hostAxisUp w.staticEntities x y range = some es →
        (es.filter (onDestroyable w.staticEntities)).length ≤ 1) ∧
      (∀ es, hostAxisRight w.staticEntities x y range = some es →
        (es.filter (onDestroyable w.staticEntities)).length ≤ 1) ∧
      (∀ es, hostAxisLeft w.staticEntities x y range = some es →
        (es.filter (onDestroyable w.staticEntities)).length ≤ 1)) ∧
    NoDestroyable w.staticEntities ∧
    w.staticEntities = scene.staticEntities ∧
    w.GameInfo.TerrainChanges = info.TerrainChanges ∧
    (∀ (input : PlayerControls) (collisions : Nat → List Collision) (w1 : HostWorld),
      hostTick w input collisions = some w1 →
      w1.staticEntities = w.staticEntities ∧
      w1.GameInfo.TerrainChanges = w.GameInfo.TerrainChanges) := by
  have hnd0 : NoDestroyable scene.staticEntities := LoadLevelFromTextFile_noDestroyable hload
  obtain ⟨hg0, hl0⟩ := NewMultiPlayerGameSceneHost_terrain hnew
  obtain ⟨hg, hl⟩ := (hostRun_terrain steps w0 w hrun).2 (by rw [hg0]; exact hnd0)
  have hnd : NoDestroyable w.staticEntities := by rw [hg, hg0]; exact hnd0
  refine ⟨fun x y range => ⟨?_, ?_, ?_, ?_⟩, hnd, hg.trans hg0, hl.trans hl0, ?_⟩
  · intro es _; rw [onDestroyable_of_noDestroyable hnd]; exact Nat.zero_le _
  · intro es _; rw [onDestroyable_of_noDestroyable hnd]; exact Nat.zero_le _
  · intro es _; rw [onDestroyable_of_noDestroyable hnd]; exact Nat.zero_le _
  · intro es _; rw [onDestroyable_of_noDestroyable hnd]; exact Nat.zero_le _
  · intro input collisions w1 htick
    exact (hostTick_terrain htick).2 hnd

/-- Witness for C4: the round of `lateJoinWorld 119`, on the open level, in which the
host's bomb on tile (0,0) goes off in the last tick; its first axis. -/
theorem host_destroys_at_most_one_tile_per_axis_witness :
    ∃ w, lateJoinWorld 119 = some w ∧ w.GameInfo.TerrainChanges = [] ∧
      ∀ es, hostAxisDown w.staticEntities 0 0 2 = some es →
        (es.filter (onDestroyable w.staticEntities)).length ≤ 1 := by
  have hsome : (lateJoinWorld 119).isSome = true := by decide!
  obtain ⟨w, hw⟩ := Option.isSome_iff_exists.mp hsome
  have hw2 := hw
  unfold lateJoinWorld hostAloneWorld at hw2
  cases hload : LoadLevelFromTextFile (openLevel []) ⟨fun _ => 0, 0⟩ with
  | none => rw [hload] at hw2; cases hw2
  | some scene =>
    rw [hload] at hw2
    cases hnew : NewMultiPlayerGameSceneHost scene
        { emptyGameInfo with Players := [ProtoPlayer.zero] } with
    | none => simp only [hnew] at hw2; cases hw2
    | some w0 =>
      simp only [hnew, Option.some_bind] at hw2
      have h := host_destroys_at_most_one_tile_per_axis _ _ _ _ _ _ _ hload hnew hw2
      exact ⟨w, hw, h.2.2.2.1, (h.1 0 0 2).1⟩

/-! ## Client: the terrain cursor -/

/-- C13 (as stated, refuted): `openJoinScene` is a new scene on the open level. Its
first tick meets a log of two entries and leaves the cursor at 2; its second tick
meets a log of one entry, (1,2), which is on the map: the cursor stays at 2, above
the length 1 of the received log, and the entry is not replayed (tile (1,2) is still
the loaded one, where replaying the entry would have put grass at (16, 32)). -/
theorem join_cursor_above_shorter_log :
    openJoinScene.terrainChange = 0 ∧
    (joinTicks [⟨logOnly [⟨0, 0, "GRASS"⟩, ⟨0, 1, "GRASS"⟩], noKeys, 0⟩] openJoinScene).map
        (fun s => s.terrainChange) = some 2 ∧
    (joinTicks [⟨logOnly [⟨0, 0, "GRASS"⟩, ⟨0, 1, "GRASS"⟩], noKeys, 0⟩,
                ⟨logOnly [⟨1, 2, "GRASS"⟩], noKeys, 0⟩] openJoinScene).map
        (fun s => (s.terrainChange, s.Client.GameInfo.TerrainChanges.length,
          tileAt s.staticEntities 1 2))
      = some (2, 1, some (NewGrass 32 16)) ∧
    tileAt (grassAt openJoinScene.staticEntities ⟨1, 2, "GRASS"⟩) 1 2 = some (NewGrass 16 32) := by
  refine ⟨?_, ?_, ?_, ?_⟩ <;> decide!

theorem loadGridRow_length (rowIndex : Nat) (parts : List String) :
    (loadGridRow rowIndex parts).length = parts.length := by
  unfold loadGridRow
  simp

theorem LoadLevelFromTextFile_rect {lines : List (List String)} {rand : Rand} {s : GameScene}
    (h : LoadLevelFromTextFile lines rand = some s) (cols : Nat)
    (hlines : ∀ i, i < 17 → (lines[i]?).map List.length = some cols) :
    RectGrid s.staticEntities cols := by
  obtain ⟨hlen, hrows⟩ := LoadLevelFromTextFile_rows h
  intro row hrow
  obtain ⟨i, hi, hget⟩ := List.getElem_of_mem hrow
  have hi17 : i < 17 := by rw [← hlen]; exact hi
  have hrow2 := hrows i hi17
  rw [List.getElem?_eq_getElem hi, hget] at hrow2
  have hl := hlines i hi17
  cases hp : lines[i]? with
  | none => rw [hp] at hl; cases hl
  | some parts =>
    rw [hp] at hl
    simp only [Option.map_some', Option.some.injEq] at hl
    simp only [hp, Option.some.injEq] at hrow2
    rw [hrow2, loadGridRow_length, hl]

/-- C13 (amended): on a rectangular map a client tick always runs through; it leaves
the cursor at the larger of its old value and the length of the received log, so the
cursor never decreases, and it replays exactly the entries of the received log from
the old cursor on, once each and in order: a tile at the entry's coordinates is
replaced with grass, an entry without one is skipped. For a scene whose cursor is 0
and received logs that only grow by appended entries, every sequence of ticks leaves
the cursor equal to the length of the last log and the grid as it is after replaying
each entry of that log once. The conditions are met by the code: a new scene has
cursor 0 and, when the first seventeen lines of its level file have the same number
of cells, a rectangular map; and no run of the host shortens or rewrites its log. -/
theorem join_terrain_cursor_replays_once (s : MultiPlayerGameSceneJoin) (cols : Nat)
    (hrect : RectGrid s.staticEntities cols) :
    (∀ (info : ProtoGameInfo) (input : PlayerControls) (bombAddr : Nat),
      ∃ s1, (s.receive info).Update input bombAddr = some s1 ∧
        s1.terrainChange = max s.terrainChange info.TerrainChanges.length ∧
        s.terrainChange ≤ s1.terrainChange ∧
        s1.staticEntities =
          grassAtAll s.staticEntities (info.TerrainChanges.drop s.terrainChange) ∧
        RectGrid s1.staticEntities cols) ∧
    (∀ (frames : List JoinFrame) (last : JoinFrame),
      s.terrainChange = 0 →
      List.Chain' (fun a b : List ProtoTerrainChange => a <+: b)
        ((frames ++ [last]).map fun f => f.info.TerrainChanges) →
      ∃ s1, joinTicks (frames ++ [last]) s = some s1 ∧
        s1.terrainChange = last.info.TerrainChanges.length ∧
        s1.staticEntities = grassAtAll s.staticEntities last.info.TerrainChanges) ∧
    (∀ (client : GameClient) (lines : List (List String)) (rand : Rand)
        (s0 : MultiPlayerGameSceneJoin),
      NewMultiPlayerGameSceneJoin client lines rand = some s0 →
      s0.terrainChange = 0 ∧
      ∀ n : Nat, (∀ i, i < 17 → (lines[i]?).map List.length = some n) →
        RectGrid s0.staticEntities n) ∧
    (∀ (steps : List HostStep) (w w1 : HostWorld), hostRun steps w = some w1 →
      w.GameInfo.TerrainChanges <+: w1.GameInfo.TerrainChanges) := by
  refine ⟨?_, ?_, ?_, ?_⟩
  · intro info input bombAddr
    obtain ⟨s1, hs1, hc1, hg1, hr1⟩ :=
      MultiPlayerGameSceneJoin.Update_terrain (s.receive info) cols hrect input bombAddr
    exact ⟨s1, hs1, hc1, by rw [hc1]; exact le_max_left _ _, hg1, hr1⟩
  · intro frames last hfresh hgrow
    apply joinTicks_replay cols s.staticEntities last frames s [] hrect hfresh rfl
    cases hl : (frames ++ [last]).map fun f => f.info.TerrainChanges with
    | nil => exact List.Chain.nil
    | cons a l =>
      rw [hl] at hgrow
      exact List.Chain.cons (List.nil_prefix) hgrow
  · intro client lines rand s0 h
    unfold NewMultiPlayerGameSceneJoin at h
    split at h
    · rename_i scene hload
      cases h
      exact ⟨rfl, fun n hlines => LoadLevelFromTextFile_rect hload n hlines⟩
    · cases h
  · intro steps w w1 h
    exact (hostRun_terrain steps w w1 h).1

/-- Witness for C13 (amended): two ticks on `openJoinScene`; the log holds the entry
(1,1) at the first tick and the entries (1,1) and (99,0), the latter outside the map,
at the second. -/
theorem join_terrain_cursor_replays_once_witness :
    ∃ s1, joinTicks
        ([⟨logOnly [⟨1, 1, "GRASS"⟩], ⟨false, false, false, false, false, false⟩, 0⟩] ++
         [⟨logOnly [⟨1, 1, "GRASS"⟩, ⟨99, 0, "GRASS"⟩],
           ⟨false, false, false, false, false, false⟩, 0⟩]) openJoinScene = some s1 ∧
      s1.terrainChange = 2 ∧
      s1.staticEntities = grassAtAll openJoinScene.staticEntities
        [⟨1, 1, "GRASS"⟩, ⟨99, 0, "GRASS"⟩] :=
  (join_terrain_cursor_replays_once openJoinScene 5 (by decide)).2.1
    [⟨logOnly [⟨1, 1, "GRASS"⟩], ⟨false, false, false, false, false, false⟩, 0⟩]
    ⟨logOnly [⟨1, 1, "GRASS"⟩, ⟨99, 0, "GRASS"⟩], ⟨false, false, false, false, false, false⟩, 0⟩
    rfl (by simp [logOnly])

/-! ## Host: the owner of a detonated bomb -/

/-- C2: a detonation does not always give the allowance back to the bomb's owner. In
the round of `lateJoinWorld` the host's player, `s.players[0]`, is the only player
when it places its bomb in the first tick, at address 0, which the bomb keeps as
`Owner`; after a participant has connected, `s.players` has moved and
`s.players[0]` is at address 1. When the bomb loop of the 180th tick starts, the
bomb's `Update` reports detonation and `s.players[0]` has `NumberOfBombs` 0. The loop
removes the bomb from the live list and from the snapshot, as claimed, but the count
it raises is that of the copy left at address 0: `s.players[0]` still has
`NumberOfBombs` 0 once the loop, and the tick, are over. -/
theorem host_detonation_misses_moved_owner :
    (hostAloneWorld.bind fun w => (hostTick w bombKey fun _ => []).map fun w =>
        (w.playersLen, w.playerAddr 0, w.bombs.map Bomb.Owner)) = some (1, some 0, [0]) ∧
    ((lateJoinWorld 118).map fun w =>
        (w.playerAddr 0, w.bombs.map fun b => (b.Owner, b.Update.2), w.GameInfo.Bombs.length,
          (w.player 0).map Player.NumberOfBombs))
      = some (some 1, [(0, true)], 1, some 0) ∧
    ((lateJoinWorld 118).bind fun w =>
        (hostBombPhase w.toMultiPlayerGameSceneHost).map fun s1 =>
          (s1.bombs.length, s1.GameInfo.Bombs.length,
            (s1.playerMem 1).NumberOfBombs, (s1.playerMem 0).NumberOfBombs))
      = some (0, 0, 0, 1) ∧
    ((lateJoinWorld 119).map fun w =>
        (w.playerAddr 0, (w.player 0).map Player.NumberOfBombs, w.bombs.length))
      = some (some 1, some 0, 0) := by
  refine ⟨?_, ?_, ?_, ?_⟩ <;> decide!

end Ninjago
